import Mathlib

/-!
Verification of the specification-driven request/response pipeline of the
scalr-ctl command line client (`scalrctl/commands/__init__.py` and
`scalrctl/examples.py`).

The embedding models parsed JSON documents (both the OpenAPI specification
tree and request/response payloads) as an inductive `Json` type, and models
the Python functions of the source as total Lean functions.  Python
exceptions are modelled by an `Except PErr` result; the mutable
discriminator cache (`_OpenAPIBaseSpec._discriminators`) is threaded
explicitly.  Recursion that is not structurally bounded in Python (schema
reference chains) takes an explicit fuel argument; exhausting the fuel is a
distinguished error so no theorem can silently hide divergence.

Machine-specific Python details are modelled as follows: `str()` formatting
of values is `pyStr`, truthiness is `Json.truthy`, dict `in` / `[]` /
`.get` are `pyIn` / `pyGetItem` / `pyDictGet` (raising the corresponding
TypeError / KeyError / AttributeError), and dict assignment is `pyInsert`
(insertion-order association lists, replacing in place like CPython).

`scalrctl/utils.py` is not part of the provided sources; its `lookup` and
`merge_all` helpers are modelled from the specification (see the doc
comments of `lookup` and `merge_all`).
-/

/-- A parsed JSON value.  Python dicts from `json.loads` keep insertion
order and have string keys, so objects are association lists. -/
inductive Json where
  | null : Json
  | bool (b : Bool) : Json
  | num (n : Int) : Json
  | str (s : String) : Json
  | arr (elems : List Json) : Json
  | obj (fields : List (String × Json)) : Json

mutual

def jsonBeq : Json → Json → Bool
  | .null, .null => true
  | .bool a, .bool b => a == b
  | .num a, .num b => a == b
  | .str a, .str b => a == b
  | .arr a, .arr b => jsonBeqList a b
  | .obj a, .obj b => jsonBeqFields a b
  | _, _ => false

def jsonBeqList : List Json → List Json → Bool
  | [], [] => true
  | x :: xs, y :: ys => jsonBeq x y && jsonBeqList xs ys
  | _, _ => false

def jsonBeqFields : List (String × Json) → List (String × Json) → Bool
  | [], [] => true
  | (k, v) :: xs, (k2, v2) :: ys => k == k2 && jsonBeq v v2 && jsonBeqFields xs ys
  | _, _ => false

end

mutual

theorem jsonBeq_eq : ∀ (a b : Json), jsonBeq a b = true → a = b
  | .null, .null, _ => rfl
  | .bool a, .bool b, h => congrArg Json.bool (by simpa [jsonBeq] using h)
  | .num a, .num b, h => congrArg Json.num (by simpa [jsonBeq] using h)
  | .str a, .str b, h => congrArg Json.str (by simpa [jsonBeq] using h)
  | .arr a, .arr b, h => congrArg Json.arr (jsonBeqList_eq a b (by simpa [jsonBeq] using h))
  | .obj a, .obj b, h => congrArg Json.obj (jsonBeqFields_eq a b (by simpa [jsonBeq] using h))

theorem jsonBeqList_eq : ∀ (a b : List Json), jsonBeqList a b = true → a = b
  | [], [], _ => rfl
  | x :: xs, y :: ys, h => by
    have h2 : jsonBeq x y = true ∧ jsonBeqList xs ys = true := by simpa [jsonBeqList] using h
    rw [jsonBeq_eq x y h2.1, jsonBeqList_eq xs ys h2.2]

theorem jsonBeqFields_eq : ∀ (a b : List (String × Json)), jsonBeqFields a b = true → a = b
  | [], [], _ => rfl
  | (k, v) :: xs, (k2, v2) :: ys, h => by
    have h2 : (k == k2) = true ∧ jsonBeq v v2 = true ∧ jsonBeqFields xs ys = true := by
      simpa [jsonBeqFields, and_assoc] using h
    have hk : k = k2 := by simpa using h2.1
    rw [hk, jsonBeq_eq v v2 h2.2.1, jsonBeqFields_eq xs ys h2.2.2]

end

mutual

theorem jsonBeq_refl : ∀ (a : Json), jsonBeq a a = true
  | .null => rfl
  | .bool a => by simp [jsonBeq]
  | .num a => by simp [jsonBeq]
  | .str a => by simp [jsonBeq]
  | .arr a => by simpa [jsonBeq] using jsonBeqList_refl a
  | .obj a => by simpa [jsonBeq] using jsonBeqFields_refl a

theorem jsonBeqList_refl : ∀ (a : List Json), jsonBeqList a a = true
  | [] => rfl
  | x :: xs => by simp [jsonBeqList, jsonBeq_refl x, jsonBeqList_refl xs]

theorem jsonBeqFields_refl : ∀ (a : List (String × Json)), jsonBeqFields a a = true
  | [] => rfl
  | (k, v) :: xs => by simp [jsonBeqFields, jsonBeq_refl v, jsonBeqFields_refl xs]

end

instance : DecidableEq Json := fun a b =>
  if h : jsonBeq a b = true then .isTrue (jsonBeq_eq a b h)
  else .isFalse (fun he => h (he ▸ jsonBeq_refl a))

deriving instance DecidableEq for Except

/-- Python exceptions that the modelled code can raise. -/
inductive PErr where
  /-- `click.ClickException` (and `MultipleClickException`), with its exit
  code (default 1) and message. -/
  | click (code : Nat) (msg : String) : PErr
  /-- Failure of the (spec-modelled) reference `lookup`: the spec calls
  this `SchemaError`, "malformed or unresolvable spec reference". -/
  | schemaErr (ref : String) : PErr
  /-- Python `TypeError` (e.g. `x in None`, indexing a non-dict). -/
  | typeErr (msg : String) : PErr
  /-- Python `KeyError` on raw dict indexing. -/
  | keyErr (k : String) : PErr
  /-- Python `AttributeError` (e.g. `.get` on a non-dict). -/
  | attrErr (msg : String) : PErr
  /-- Python `IndexError` (e.g. `enum[0]` on an empty list). -/
  | indexErr (msg : String) : PErr
  /-- Fuel exhaustion of the embedding: the corresponding Python recursion
  would not have returned within the given depth. -/
  | fuelOut : PErr
deriving DecidableEq

/-- First binding of `key` in an association list (Python dicts have
unique keys, so this is the dict entry). -/
def lookupField : List (String × Json) → String → Option Json
  | [], _ => none
  | (k, v) :: rest, key => if k = key then some v else lookupField rest key

/-- `j.get? k`: the value of key `k` when `j` is an object. -/
def Json.get? : Json → String → Option Json
  | .obj fs, k => lookupField fs k
  | _, _ => none

/-- Python truthiness of a JSON value. -/
def Json.truthy : Json → Bool
  | .null => false
  | .bool b => b
  | .num n => n != 0
  | .str s => s != ""
  | .arr l => !l.isEmpty
  | .obj l => !l.isEmpty

mutual

/-- Python `repr()` of a JSON value (used by `str()` on lists/dicts). -/
def pyRepr : Json → String
  | .null => "None"
  | .bool true => "True"
  | .bool false => "False"
  | .num n => toString n
  | .str s => "\x27" ++ s ++ "\x27"
  | .arr l => "[" ++ pyReprList l ++ "]"
  | .obj l => "\x7b" ++ pyReprFields l ++ "\x7d"

def pyReprList : List Json → String
  | [] => ""
  | [x] => pyRepr x
  | x :: y :: xs => pyRepr x ++ ", " ++ pyReprList (y :: xs)

def pyReprFields : List (String × Json) → String
  | [] => ""
  | [(k, v)] => "\x27" ++ k ++ "\x27: " ++ pyRepr v
  | (k, v) :: y :: xs => "\x27" ++ k ++ "\x27: " ++ pyRepr v ++ ", " ++ pyReprFields (y :: xs)

end

/-- Python `str()` / `"..".format()` of a JSON value. -/
def pyStr : Json → String
  | .null => "None"
  | .bool true => "True"
  | .bool false => "False"
  | .num n => toString n
  | .str s => s
  | .arr l => pyRepr (.arr l)
  | .obj l => pyRepr (.obj l)

/-- Python `repr()` of a list of Python strings (`"..".format(list)`). -/
def pyStrListRepr (ts : List String) : String :=
  "[" ++ String.intercalate ", " (ts.map (fun t => "\x27" ++ t ++ "\x27")) ++ "]"

def listIsPrefix : List Char → List Char → Bool
  | [], _ => true
  | _ :: _, [] => false
  | a :: as, b :: bs => a == b && listIsPrefix as bs

def listIsSub (needle : List Char) : List Char → Bool
  | [] => needle.isEmpty
  | c :: rest => listIsPrefix needle (c :: rest) || listIsSub needle rest

/-- Python `key in j` for a container `j`: dict key membership, list
membership, substring test on strings; `TypeError` otherwise. -/
def pyIn (key : String) : Json → Except PErr Bool
  | .obj fs => .ok ((lookupField fs key).isSome)
  | .arr l => .ok (l.any (fun x => jsonBeq x (.str key)))
  | .str s => .ok (listIsSub key.toList s.toList)
  | _ => .error (.typeErr "argument is not iterable")

/-- Python `j[k]` for a string key: dict indexing with `KeyError`;
`TypeError` on any non-dict. -/
def pyGetItem : Json → String → Except PErr Json
  | .obj fs, k =>
    match lookupField fs k with
    | some v => .ok v
    | none => .error (.keyErr k)
  | _, _ => .error (.typeErr "object is not subscriptable")

/-- Python `j.get(k)` (None when absent); `AttributeError` on non-dicts. -/
def pyDictGet : Json → String → Except PErr Json
  | .obj fs, k => .ok ((lookupField fs k).getD .null)
  | _, _ => .error (.attrErr "object has no attribute get")

/-- Python `j.get(k, default)`; `AttributeError` on non-dicts. -/
def pyDictGetD (j : Json) (k : String) (dflt : Json) : Except PErr Json :=
  match j with
  | .obj fs => .ok ((lookupField fs k).getD dflt)
  | _ => .error (.attrErr "object has no attribute get")

/-- Python `j.get(key)` where the key is itself a JSON value.  Keys of a
parsed JSON dict are strings, so any hashable non-string key misses;
unhashable keys (lists/dicts) raise `TypeError`. -/
def pyDictGetKey : Json → Json → Except PErr Json
  | .obj fs, .str k => .ok ((lookupField fs k).getD .null)
  | .obj _, .arr _ => .error (.typeErr "unhashable type")
  | .obj _, .obj _ => .error (.typeErr "unhashable type")
  | .obj _, _ => .ok .null
  | _, _ => .error (.attrErr "object has no attribute get")

/-- Python dict assignment `d[k] = v` on an association list: replaces the
value in place when the key exists, appends otherwise (CPython order). -/
def pyInsert : List (String × Json) → String → Json → List (String × Json)
  | [], k, v => [(k, v)]
  | (k0, v0) :: rest, k, v =>
    if k0 = k then (k0, v) :: rest else (k0, v0) :: pyInsert rest k v

/-- Python `s.split(sep)` for a one-character separator (computable by
kernel reduction, unlike `String.splitOn`). -/
def splitCharAux (sep : Char) : List Char → List Char → List String
  | [], acc => [String.mk acc.reverse]
  | c :: rest, acc =>
    if c = sep then String.mk acc.reverse :: splitCharAux sep rest []
    else splitCharAux sep rest (c :: acc)

def splitChar (sep : Char) (s : String) : List String :=
  splitCharAux sep s.toList []

/-- `s.split("/")[-1]`. -/
def lastSegment (s : String) : String :=
  (splitChar '/' s).getLastD s

/-- Python `x or y`: `x` when truthy, else `y`. -/
def pyOr (x y : Json) : Json :=
  if x.truthy then x else y

/-- `disc_value not in types` for a list of Python strings: only an equal
string is a member. -/
def pyMemStrList (v : Json) (ts : List String) : Bool :=
  match v with
  | .str s => ts.contains s
  | _ => false

/-- `SUCCESS_CODES[http_method]` (`scalrctl/commands/__init__.py`, lines
22-27); raises `KeyError` for any other method. -/
def success_code : String → Except PErr String
  | "get" => .ok "200"
  | "post" => .ok "201"
  | "delete" => .ok "204"
  | "patch" => .ok "200"
  | m => .error (.keyErr m)

/-- Modelled from the spec: `utils.lookup` (`scalrctl/utils.py` is not in
the provided sources).  Spec 4.1: "`resolve(ref) -> SchemaNode`: looks up a
reference path inside the raw specification tree; fails with `SchemaError`
if absent."  A reference such as `#/definitions/Image` is walked component
by component from the root of the raw specification; a non-string
reference cannot be split and also fails. -/
def lookupWalk (fullRef : String) : List String → Json → Except PErr Json
  | [], cur => .ok cur
  | part :: rest, cur =>
    if part = "#" then lookupWalk fullRef rest cur
    else
      match cur.get? part with
      | some nxt => lookupWalk fullRef rest nxt
      | none => .error (.schemaErr fullRef)

/-- Modelled from the spec: see `lookupWalk`. -/
def lookup (spec ref : Json) : Except PErr Json :=
  match ref with
  | .str r => lookupWalk r (splitChar '/' r) spec
  | _ => .error (.schemaErr (pyStr ref))

/-- Union of the `properties` objects of two schema nodes, the second
(later `allOf` branch) shadowing the first on key collision. -/
def mergeProps (a b : Json) : Json :=
  match a, b with
  | .obj fa, .obj fb => .obj (fb.foldl (fun acc kv => pyInsert acc kv.1 kv.2) fa)
  | _, b => b

/-- Merge one resolved `allOf` branch into the accumulated node: its
`properties` are unioned per property, every other key of the branch is
copied (later branches shadow earlier ones). -/
def mergeNode (acc branch : Json) : Json :=
  match branch with
  | .obj fb =>
    .obj (fb.foldl
      (fun accf kv =>
        if kv.1 = "properties" then
          pyInsert accf "properties" (mergeProps ((Json.obj accf).get? "properties" |>.getD (.obj [])) kv.2)
        else pyInsert accf kv.1 kv.2)
      (match acc with | .obj fa => fa | _ => []))
  | _ => acc

/-- Modelled from the spec: `utils.merge_all` (`scalrctl/utils.py` is not
in the provided sources).  Spec 4.1: "`mergeAllOf(node) -> SchemaNode`:
flattens an `allOf` composition into one node whose properties are the
union of all branch properties (later branches shadow earlier ones on key
collision)".  Each branch that is a `$ref` is resolved first, and branches
that are themselves `allOf` compositions are flattened recursively (fuel
bounds the reference chain); a node without `allOf` is returned as is. -/
def merge_all : Nat → Json → Json → Except PErr Json
  | 0, _, _ => .error .fuelOut
  | fuel + 1, spec, node =>
    match node.get? "allOf" with
    | some (.arr branches) =>
      branches.foldlM
        (fun acc branch => do
          let b ← match branch.get? "$ref" with
            | some r => lookup spec r
            | none => pure branch
          let b ← match b.get? "allOf" with
            | some _ => merge_all fuel spec b
            | none => pure b
          pure (mergeNode acc b))
        (Json.obj [])
    | _ => .ok node

/-- `_OpenAPIBaseSpec.list_concrete_types_recursive`
(`scalrctl/commands/__init__.py`, lines 836-847): expands a reference to
the references of its leaf concrete types, recursing through
`x-concreteTypes`.  Fuel bounds the (otherwise unbounded) reference
recursion. -/
def list_concrete_types_recursive : Nat → Json → Json → Except PErr (List String)
  | 0, _, _ => .error .fuelOut
  | fuel + 1, spec, reference => do
    let schema ← lookup spec reference
    let refStr := match reference with | .str r => r | _ => pyStr reference
    match ← pyIn "x-concreteTypes" schema with
    | false => pure [refStr]
    | true =>
      match ← pyGetItem schema "x-concreteTypes" with
      | .arr refDicts =>
        refDicts.foldlM
          (fun acc refDict => do
            let r ← pyGetItem refDict "$ref"
            let links ← list_concrete_types_recursive fuel spec r
            pure (acc ++ links))
          []
      | _ => .error (.typeErr "x-concreteTypes is not iterable")

/-- `_OpenAPIBaseSpec.list_concrete_types` (lines 824-834): short names of
the leaf concrete types declared by a schema through `x-concreteTypes`;
`[]` when the schema declares none. -/
def list_concrete_types (fuel : Nat) (spec schema : Json) : Except PErr (List String) := do
  match ← pyIn "x-concreteTypes" schema with
  | false => pure []
  | true =>
    match ← pyGetItem schema "x-concreteTypes" with
    | .arr refDicts =>
      refDicts.foldlM
        (fun acc refDict => do
          let refLink ← pyGetItem refDict "$ref"
          let links ← list_concrete_types_recursive fuel spec refLink
          pure (acc ++ links.map lastSegment))
        []
    | _ => .error (.typeErr "x-concreteTypes is not iterable")

example : pyStr (.arr [.num 3, .str "a"]) = "[3, \x27a\x27]" := by decide

example :
    lookup (.obj [("definitions", .obj [("Image", .obj [("x", .num 1)])])])
      (.str "#/definitions/Image") = .ok (.obj [("x", .num 1)]) := by decide

/-- The process-wide discriminator cache `_OpenAPIBaseSpec._discriminators`
(line 734): a Python dict from `"<reference>/<discriminator key>"` paths to
resolved discriminator values, threaded explicitly. -/
abbrev Cache := List (String × Json)

/-- Message of the missing-discriminator `ClickException`
(lines 1000-1002 and 1234-1236). -/
def missing_param_msg (discKey : Json) : String :=
  "Provided JSON object is incorrect: missing required param \x27" ++ pyStr discKey ++ "\x27."

/-- Message of the invalid-discriminator-value `ClickException`
(lines 1004-1007 and 1244-1247). -/
def invalid_value_msg (discKey discValue : Json) (types : List String) : String :=
  "Provided JSON object is incorrect: required param \x27" ++ pyStr discKey ++
    "\x27 has invalid value \x27" ++ pyStr discValue ++ "\x27, must be one of: " ++
    pyStrListRepr types ++ "."

/-- `"/".join(...)`-style discriminator cache path
`'{}/{}'.format(reference, disc_key)` (lines 996 and 1230). -/
def disc_path (reference discKey : Json) : String :=
  pyStr reference ++ "/" ++ pyStr discKey

/-- The `key_path` computation of the filtering loop (lines 1019-1022 and
1256-1259); its value only feeds debug logging, but a truthy non-string
`reference` makes `reference.split` raise `AttributeError`. -/
def keyPathE (reference : Json) (k : String) : Except PErr String :=
  if reference.truthy then
    match reference with
    | .str r => .ok (lastSegment r ++ "." ++ k)
    | _ => .error (.attrErr "object has no attribute split")
  else .ok k

/-- Type of the recursive filtering callback: data, schema, reference,
cache in, filtered object and cache out. -/
def RecFilter := Json → Json → Json → Cache → Except PErr Json × Cache

/-- The discriminator-resolution step of `_OpenAPIv2Spec.filter_json_object`
(lines 994-1013): reads the discriminator value from the data (falling
back to the cache), validates it against `list_concrete_types` of the
*discriminated* schema, caches it, and re-resolves schema and reference to
`#/definitions/<value>` (no `allOf` merging in v2). -/
def disc_step_v2 (lcFuel : Nat) (spec schema data reference : Json) (cache : Cache) :
    Except PErr (Json × Json × Cache) := do
  let discKey ← pyGetItem schema "discriminator"
  let discPath := disc_path reference discKey
  let dv0 ← pyDictGetKey data discKey
  let discValue := pyOr dv0 ((lookupField cache discPath).getD .null)
  if discValue.truthy = false then
    .error (.click 1 (missing_param_msg discKey))
  else do
    let types ← list_concrete_types lcFuel spec schema
    if pyMemStrList discValue types = false then
      .error (.click 1 (invalid_value_msg discKey discValue types))
    else do
      let cache2 := pyInsert cache discPath discValue
      let ref2 := Json.str ("#/definitions/" ++ pyStr discValue)
      let schema2 ← lookup spec ref2
      pure (ref2, schema2, cache2)

/-- One iteration of the property loop of
`_OpenAPIv2Spec.filter_json_object` (lines 1018-1047). -/
def loop_step_v2 (spec : Json) (fco : Bool) (recf : RecFilter)
    (data reference cop : Json)
    (st : Except PErr (List (String × Json)) × Cache) (kv : String × Json) :
    Except PErr (List (String × Json)) × Cache :=
  match st with
  | (.error e, c) => (.error e, c)
  | (.ok acc, c) =>
    match keyPathE reference kv.1 with
    | .error e => (.error e, c)
    | .ok _ =>
      match pyIn kv.1 data with
      | .error e => (.error e, c)
      | .ok false => (.ok acc, c)
      | .ok true =>
        match pyDictGet kv.2 "readOnly" with
        | .error e => (.error e, c)
        | .ok ro =>
          if ro.truthy then (.ok acc, c)
          else
            match (if fco then pyIn kv.1 cop else .ok false) with
            | .error e => (.error e, c)
            | .ok true => (.ok acc, c)
            | .ok false =>
              match pyIn "$ref" kv.2 with
              | .error e => (.error e, c)
              | .ok hasRef =>
                match pyGetItem data kv.1 with
                | .error e => (.error e, c)
                | .ok dv =>
                  match hasRef, dv with
                  | true, .obj dl =>
                    (match pyGetItem kv.2 "$ref" with
                     | .error e => (.error e, c)
                     | .ok r =>
                       match lookup spec r with
                       | .error e => (.error e, c)
                       | .ok sub =>
                         match recf (.obj dl) sub r c with
                         | (.error e, c2) => (.error e, c2)
                         | (.ok fv, c2) => (.ok (pyInsert acc kv.1 fv), c2))
                  | _, _ => (.ok (pyInsert acc kv.1 dv), c)

/-- The property-filtering part of `_OpenAPIv2Spec.filter_json_object`
(lines 1015-1048): everything after the discriminator step. -/
def after_disc_v2 (spec : Json) (fco : Bool) (recf : RecFilter)
    (data schema reference : Json) (cache : Cache) : Except PErr Json × Cache :=
  if schema.truthy then
    match pyIn "properties" schema with
    | .error e => (.error e, cache)
    | .ok false => (.ok (.obj []), cache)
    | .ok true =>
      match pyDictGetD schema "x-createOnly" (.str "") with
      | .error e => (.error e, cache)
      | .ok cop =>
        match pyGetItem schema "properties" with
        | .error e => (.error e, cache)
        | .ok (.obj props) =>
          (match props.foldl (loop_step_v2 spec fco recf data reference cop) (.ok [], cache) with
           | (.ok acc, c) => (.ok (.obj acc), c)
           | (.error e, c) => (.error e, c))
        | .ok _ => (.error (.attrErr "object has no attribute items"), cache)
  else (.ok (.obj []), cache)

/-- `_OpenAPIv2Spec.filter_json_object` (lines 980-1048) with an explicit
schema/reference (the recursive entry; the `schema is None` route/method
resolution of the top-level call is a thin wrapper around this).  The
first fuel bounds the nesting depth of the input object (the Python
recursion is bounded by it as well); `lcFuel` bounds schema-reference
chains inside `list_concrete_types`. -/
def filter_json_object_v2 : Nat → Json → Bool → Nat → Json → Json → Json → Cache →
    Except PErr Json × Cache
  | 0, _, _, _, _, _, _, cache => (.error .fuelOut, cache)
  | fuel + 1, spec, fco, lcFuel, data, schema, reference, cache =>
    match pyIn "discriminator" schema with
    | .error e => (.error e, cache)
    | .ok true =>
      (match disc_step_v2 lcFuel spec schema data reference cache with
       | .error e => (.error e, cache)
       | .ok (ref2, schema2, cache2) =>
         after_disc_v2 spec fco (filter_json_object_v2 fuel spec fco lcFuel) data schema2 ref2 cache2)
    | .ok false =>
      after_disc_v2 spec fco (filter_json_object_v2 fuel spec fco lcFuel) data schema reference cache

/-- The discriminator-resolution step of `_OpenAPIv3Spec.filter_json_object`
(lines 1228-1250): unlike v2 it re-resolves the schema to
`#/components/schemas/<value>` (merging `allOf` when present) *before*
validating, and validates the value against `list_concrete_types` of the
resolved concrete node. -/
def disc_step_v3 (lcFuel : Nat) (spec schema data reference : Json) (cache : Cache) :
    Except PErr (Json × Json × Cache) := do
  let d1 ← pyDictGet schema "discriminator"
  let discKey ← pyDictGet d1 "propertyName"
  let discPath := disc_path reference discKey
  let dv0 ← pyDictGetKey data discKey
  let discValue := pyOr dv0 ((lookupField cache discPath).getD .null)
  if discValue.truthy = false then
    .error (.click 1 (missing_param_msg discKey))
  else do
    let ref2 := Json.str ("#/components/schemas/" ++ pyStr discValue)
    let schema20 ← lookup spec ref2
    let schema2 ← match ← pyIn "allOf" schema20 with
      | true => merge_all lcFuel spec schema20
      | false => pure schema20
    let types ← list_concrete_types lcFuel spec schema2
    if pyMemStrList discValue types = false then
      .error (.click 1 (invalid_value_msg discKey discValue types))
    else do
      let cache2 := pyInsert cache discPath discValue
      pure (ref2, schema2, cache2)

/-- One iteration of the property loop of
`_OpenAPIv3Spec.filter_json_object` (lines 1255-1289): as in v2, except
that a referenced sub-schema is `allOf`-merged before recursing. -/
def loop_step_v3 (lcFuel : Nat) (spec : Json) (fco : Bool) (recf : RecFilter)
    (data reference cop : Json)
    (st : Except PErr (List (String × Json)) × Cache) (kv : String × Json) :
    Except PErr (List (String × Json)) × Cache :=
  match st with
  | (.error e, c) => (.error e, c)
  | (.ok acc, c) =>
    match keyPathE reference kv.1 with
    | .error e => (.error e, c)
    | .ok _ =>
      match pyIn kv.1 data with
      | .error e => (.error e, c)
      | .ok false => (.ok acc, c)
      | .ok true =>
        match pyDictGet kv.2 "readOnly" with
        | .error e => (.error e, c)
        | .ok ro =>
          if ro.truthy then (.ok acc, c)
          else
            match (if fco then pyIn kv.1 cop else .ok false) with
            | .error e => (.error e, c)
            | .ok true => (.ok acc, c)
            | .ok false =>
              match pyIn "$ref" kv.2 with
              | .error e => (.error e, c)
              | .ok hasRef =>
                match pyGetItem data kv.1 with
                | .error e => (.error e, c)
                | .ok dv =>
                  match hasRef, dv with
                  | true, .obj dl =>
                    (match pyGetItem kv.2 "$ref" with
                     | .error e => (.error e, c)
                     | .ok r =>
                       match lookup spec r with
                       | .error e => (.error e, c)
                       | .ok sub0 =>
                         match pyIn "allOf" sub0 with
                         | .error e => (.error e, c)
                         | .ok hasAllOf =>
                           match (if hasAllOf then merge_all lcFuel spec sub0 else .ok sub0) with
                           | .error e => (.error e, c)
                           | .ok sub =>
                             match recf (.obj dl) sub r c with
                             | (.error e, c2) => (.error e, c2)
                             | (.ok fv, c2) => (.ok (pyInsert acc kv.1 fv), c2))
                  | _, _ => (.ok (pyInsert acc kv.1 dv), c)

/-- The property-filtering part of `_OpenAPIv3Spec.filter_json_object`
(lines 1252-1290). -/
def after_disc_v3 (lcFuel : Nat) (spec : Json) (fco : Bool) (recf : RecFilter)
    (data schema reference : Json) (cache : Cache) : Except PErr Json × Cache :=
  if schema.truthy then
    match pyIn "properties" schema with
    | .error e => (.error e, cache)
    | .ok false => (.ok (.obj []), cache)
    | .ok true =>
      match pyDictGetD schema "x-createOnly" (.str "") with
      | .error e => (.error e, cache)
      | .ok cop =>
        match pyGetItem schema "properties" with
        | .error e => (.error e, cache)
        | .ok (.obj props) =>
          (match props.foldl (loop_step_v3 lcFuel spec fco recf data reference cop) (.ok [], cache) with
           | (.ok acc, c) => (.ok (.obj acc), c)
           | (.error e, c) => (.error e, c))
        | .ok _ => (.error (.attrErr "object has no attribute items"), cache)
  else (.ok (.obj []), cache)

/-- `_OpenAPIv3Spec.filter_json_object` (lines 1215-1290) with an explicit
schema/reference, analogous to `filter_json_object_v2`. -/
def filter_json_object_v3 : Nat → Json → Bool → Nat → Json → Json → Json → Cache →
    Except PErr Json × Cache
  | 0, _, _, _, _, _, _, cache => (.error .fuelOut, cache)
  | fuel + 1, spec, fco, lcFuel, data, schema, reference, cache =>
    match pyIn "discriminator" schema with
    | .error e => (.error e, cache)
    | .ok true =>
      (match disc_step_v3 lcFuel spec schema data reference cache with
       | .error e => (.error e, cache)
       | .ok (ref2, schema2, cache2) =>
         after_disc_v3 lcFuel spec fco (filter_json_object_v3 fuel spec fco lcFuel) data schema2 ref2 cache2)
    | .ok false =>
      after_disc_v3 lcFuel spec fco (filter_json_object_v3 fuel spec fco lcFuel) data schema reference cache

/-- `_OpenAPIv2Spec.get_iterable_object` (lines 911-928): true when the
route/method success response schema is a `$ref` whose definition has a
`data` property of type `array`. -/
def get_iterable_object_v2 (spec : Json) (route m : String) : Except PErr Bool := do
  let paths ← pyGetItem spec "paths"
  let rd ← pyGetItem paths route
  let md ← pyGetItem rd m
  let responses ← pyGetItem md "responses"
  let code ← success_code m
  match ← pyIn code responses with
  | false => pure false
  | true => do
    let r200 ← pyDictGet responses code
    match ← pyIn "schema" r200 with
    | false => pure false
    | true => do
      let schema ← pyGetItem r200 "schema"
      match ← pyIn "$ref" schema with
      | false => pure false
      | true => do
        let ref ← pyGetItem schema "$ref"
        let objectKey ← match ref with
          | .str r => pure (lastSegment r)
          | _ => .error (.attrErr "object has no attribute split")
        let defs ← pyGetItem spec "definitions"
        let od ← pyGetItem defs objectKey
        let props ← pyGetItem od "properties"
        let ds ← pyGetItem props "data"
        let t ← pyDictGet ds "type"
        pure (jsonBeq t (.str "array"))

/-- The tail of `_OpenAPIv3Spec.get_iterable_object` (lines 1141-1144)
once the schema is resolved: is the `data` property an array? -/
def iter_v3_from_schema (schema : Json) : Except PErr Bool := do
  let props ← pyGetItem schema "properties"
  let ds ← pyGetItem props "data"
  let t ← pyDictGet ds "type"
  pure (jsonBeq t (.str "array"))

/-- The part of `_OpenAPIv3Spec.get_iterable_object` (lines 1135-1144)
after the response entry is fetched: optional `$ref` indirections on the
response and on the schema, then the `data`-type test. -/
def iter_v3_from_response (spec r0 : Json) : Except PErr Bool := do
  let r200 ← match ← pyIn "$ref" r0 with
    | true => do
      let r ← pyGetItem r0 "$ref"
      lookup spec r
    | false => pure r0
  let content ← pyGetItem r200 "content"
  let cj ← pyGetItem content "application/json"
  match ← pyIn "schema" cj with
  | false => pure false
  | true => do
    let schema0 ← pyGetItem cj "schema"
    let schema ← match ← pyIn "$ref" schema0 with
      | true => do
        let r ← pyGetItem schema0 "$ref"
        lookup spec r
      | false => pure schema0
    iter_v3_from_schema schema

/-- `_OpenAPIv3Spec.get_iterable_object` (lines 1128-1145).  Note that the
source reads the responses of the route's `'get'` operation (a literal),
keyed by the *supplied* method's success code. -/
def get_iterable_object_v3 (spec : Json) (route m : String) : Except PErr Bool := do
  let paths ← pyGetItem spec "paths"
  let rd ← pyGetItem paths route
  let md ← pyGetItem rd "get"
  let responses ← pyGetItem md "responses"
  let code ← success_code m
  match ← pyIn code responses with
  | false => pure false
  | true => do
    let r0 ← pyDictGet responses code
    iter_v3_from_response spec r0

/-- The per-error lines of `Action._format_errmsg` (lines 245-259):
`total` is `len(errors)`, `num` the running 1-based counter. -/
def format_errmsg_lines (total : Nat) : Nat → List Json → Except PErr (List String)
  | _, [] => .ok []
  | num, e :: rest => do
    let errCode ← match ← pyIn "code" e with
      | true => do
        let c ← pyGetItem e "code"
        pure (pyStr c ++ ":")
      | false => pure ""
    let msgJ ← pyDictGetD e "message" (.str "")
    let errMsg := pyStr msgJ
    let errIndex := if total = 1 then ":" else " " ++ toString num ++ ":"
    let line := "Error" ++ errIndex ++ " " ++ errCode ++ " " ++ errMsg
    let rest2 ← format_errmsg_lines total (num + 1) rest
    pure (line :: rest2)

/-- `Action._format_errmsg` (lines 245-259): one line per error, joined
with newlines. -/
def format_errmsg (errors : List Json) : Except PErr String := do
  let lines ← format_errmsg_lines errors.length 1 errors
  pure (String.intercalate "\n" lines)

/-- The error-surfacing part of `Action._format_response` (lines 289-299):
when the parsed response has a truthy `errors` entry, a
`MultipleClickException` with exit code 1 carrying `_format_errmsg(errors)`
is raised; iterating a truthy non-list `errors` follows Python iteration
(dict yields its keys, string yields its characters, numbers fail). -/
def format_response_errors (respJson : Json) : Except PErr Unit := do
  let errors ← pyDictGet respJson "errors"
  let _warnings ← pyDictGet respJson "warnings"
  if errors.truthy then
    match errors with
    | .arr es => do
      let msg ← format_errmsg es
      .error (.click 1 msg)
    | .obj l => do
      let msg ← format_errmsg (l.map (fun kv => Json.str kv.1))
      .error (.click 1 msg)
    | .str s => do
      let msg ← format_errmsg (s.toList.map (fun c => Json.str (String.mk [c])))
      .error (.click 1 msg)
    | _ => .error (.typeErr "object is not iterable")
  else pure ()

/-- Python `str.upper()` (ASCII, as used on HTTP method names). -/
def pyUpper (s : String) : String :=
  String.mk (s.toList.map Char.toUpper)

/-- The strip-envelope step of `Action._format_response` (lines 304-308):
with `--no-envelope` set, a GET method, a raw/json/xml view and a `data`
key present, the response is replaced by its `data` entry. -/
def strip_envelope (stripMetadata : Bool) (httpMethod view : String) (respJson : Json) :
    Except PErr Json :=
  if stripMetadata && (pyUpper httpMethod == "GET") &&
      (view == "raw" || view == "json" || view == "xml") then
    match pyIn "data" respJson with
    | .error e => .error e
    | .ok true => pyGetItem respJson "data"
    | .ok false => .ok respJson
  else .ok respJson

/-- The body-schema resolution of `Action.pre` (lines 590-592). -/
def resolve_body_schema (spec schema : Json) : Except PErr Json := do
  match ← pyIn "$ref" schema with
  | true => do
    let r ← pyGetItem schema "$ref"
    lookup spec r
  | false => pure schema

/-- The body-parameter-name choice of `Action.pre` (lines 590-599): with a
single defined name it is used directly; otherwise, when the (resolved)
body schema declares a discriminator, the key is read out of the supplied
raw JSON object at the discriminator property; otherwise the previously
bound loop variable (`prevName`) is left in place. -/
def choose_body_param (spec prevName : Json) (paramNames : List Json)
    (schema rawJsonObject : Json) : Except PErr Json := do
  let s ← resolve_body_schema spec schema
  match paramNames with
  | [n] => pure n
  | _ =>
    match ← pyIn "discriminator" s with
    | true => do
      let d1 ← pyDictGet s "discriminator"
      let discKey ← pyDictGet d1 "propertyName"
      pyDictGetKey rawJsonObject discKey
    | false => pure prevName

/-- Python whitespace for `str.strip()`. -/
def isPySpace (c : Char) : Bool :=
  c == ' ' || c == '\t' || c == '\n' || c == '\r' || c == Char.ofNat 11 || c == Char.ofNat 12

/-- Python `str.strip()`. -/
def pyStrip (s : String) : String :=
  String.mk (((s.toList.dropWhile isPySpace).reverse.dropWhile isPySpace).reverse)

/-- One route-level parameter check of `Action._check_arguments`
(lines 158-168).  The regular-expression engine (Python `re`) is an
external collaborator and is passed in as two oracles: `reMatch pat v`
is the substring matched by `re.match(pat, v)` (anchored at the start) and
`reSearchMulti pat v` the one matched by `re.search(pat, v, re.MULTILINE)`,
`none` when there is no match. -/
def check_one (reMatch reSearchMulti : String → String → Option String)
    (kwargs : List (String × Json)) (param : Json) : Except PErr Unit := do
  let pattern ← pyDictGet param "pattern"
  let paramName ← pyDictGet param "name"
  if pattern.truthy then
    if paramName.truthy then do
      let inn ← match paramName with
        | .str s => pure ((lookupField kwargs s).isSome)
        | .arr _ => .error (.typeErr "unhashable type")
        | .obj _ => .error (.typeErr "unhashable type")
        | _ => pure false
      if inn then do
        let pv := match paramName with
          | .str s => (lookupField kwargs s).getD (.str "")
          | _ => .str ""
        let value := pyStrip (pyStr pv)
        match pattern with
        | .str pat =>
          (match (reMatch pat value).orElse (fun _ => reSearchMulti pat value) with
           | none => .error (.click 1 ("Invalid value for " ++ pyStr paramName))
           | some g =>
             if g.length ≠ value.length then
               .error (.click 1 ("Invalid value for " ++ pyStr paramName))
             else pure ())
        | _ => .error (.typeErr "first argument must be string or compiled pattern")
      else pure ()
    else pure ()
  else pure ()

/-- `Action._check_arguments` (lines 150-168) over the route-level
parameter list: checks each parameter in order, stopping at the first
failure. -/
def check_arguments (reMatch reSearchMulti : String → String → Option String)
    (kwargs : List (String × Json)) : List Json → Except PErr Unit
  | [] => .ok ()
  | p :: rest =>
    match check_one reMatch reSearchMulti kwargs p with
    | .error e => .error e
    | .ok () => check_arguments reMatch reSearchMulti kwargs rest

/-- Python `s.strip("/")`. -/
def stripSlashes (s : String) : String :=
  String.mk (((s.toList.dropWhile (fun c => c == '/')).reverse.dropWhile
    (fun c => c == '/')).reverse)

/-- `examples._item_by_ref` (`scalrctl/examples.py`, lines 37-49): the
definition named by the last segment of the reference, from
`components.schemas` (v3, detected by key presence) or `definitions`. -/
def item_by_ref (spec ref : Json) : Except PErr Json :=
  match ref with
  | .str r => do
    let definition := lastSegment (stripSlashes r)
    let isV3 ← match ← pyIn "components" spec with
      | true => do
        let comp ← pyGetItem spec "components"
        pyIn "schemas" comp
      | false => pure false
    if isV3 then do
      let comp ← pyGetItem spec "components"
      let schemas ← pyGetItem comp "schemas"
      pyGetItem schemas definition
    else do
      let defs ← pyGetItem spec "definitions"
      pyGetItem defs definition
  | _ => .error (.attrErr "object has no attribute strip")

/-- `examples.DEFAULTS[t]` (`scalrctl/examples.py`, lines 18-24). -/
def defaults_lookup : Json → Except PErr Json
  | .str "string" => .ok (.str "")
  | .str "boolean" => .ok (.bool true)
  | .str "integer" => .ok (.num 1)
  | .str "number" => .ok (.num 1)
  | .str "array" => .ok (.arr [])
  | t => .error (.keyErr (pyStr t))

/-- One property of `examples._generate_params` (lines 64-74): skip
read-only properties, recurse into `$ref` properties (through `recf`),
else first enum value or per-type default. -/
def generate_param_step (spec : Json) (recf : Json → Except PErr Json)
    (acc : List (String × Json)) (kv : String × Json) :
    Except PErr (List (String × Json)) := do
  let ro ← pyDictGet kv.2 "readOnly"
  if ro.truthy then pure acc
  else
    match ← pyIn "$ref" kv.2 with
    | true => do
      let r ← pyGetItem kv.2 "$ref"
      let subItem ← item_by_ref spec r
      let sub ← recf subItem
      pure (pyInsert acc kv.1 sub)
    | false =>
      match ← pyIn "enum" kv.2 with
      | true => do
        let en ← pyGetItem kv.2 "enum"
        (match en with
         | .arr (e :: _) => pure (pyInsert acc kv.1 e)
         | .arr [] => .error (.indexErr "list index out of range")
         | .str s =>
           (match s.toList with
            | c :: _ => pure (pyInsert acc kv.1 (.str (String.mk [c])))
            | [] => .error (.indexErr "string index out of range"))
         | _ => .error (.typeErr "object is not subscriptable"))
      | false => do
        let t ← pyGetItem kv.2 "type"
        let d ← defaults_lookup t
        pure (pyInsert acc kv.1 d)

/-- `examples._generate_params` (`scalrctl/examples.py`, lines 52-76):
builds the placeholder example object for a schema; fuel bounds the
`$ref`/`allOf` recursion. -/
def generate_params : Nat → Json → Json → Except PErr Json
  | 0, _, _ => .error .fuelOut
  | fuel + 1, spec, schema0 => do
    let schema ← match ← pyIn "$ref" schema0 with
      | true => do
        let r ← pyGetItem schema0 "$ref"
        item_by_ref spec r
      | false => pure schema0
    let props ← match ← pyIn "allOf" schema with
      | true => do
        let merged ← merge_all fuel spec schema
        pyDictGetD merged "properties" (.obj [])
      | false => pyDictGetD schema "properties" (.obj [])
    if props.truthy then
      match props with
      | .obj pl => do
        let fields ← pl.foldlM (generate_param_step spec (generate_params fuel spec)) []
        pure (.obj fields)
      | _ => .error (.attrErr "object has no attribute items")
    else pure (.obj [])

example : pyUpper "get" = "GET" := by decide

example :
    format_errmsg [.obj [("code", .str "E1"), ("message", .str "bad")]] =
      .ok "Error: E1: bad" := by decide

/-!
Heap model of `filter_json_object`.

The value-level embedding above cannot express the frame property "the
input object is not mutated", because Lean values are immutable.  The
definitions below re-embed the same two source functions over an explicit
object store: every Python dict reachable from the input `data` lives in a
cell of the store, every dict-valued entry is a reference (`HVal.href`),
and the `filtered` dict built by the function is a freshly allocated cell
that is updated in place, exactly as in the source.  Scalars and lists
(which the filter never mutates or enters) stay inline (`HVal.atom`).
-/

/-- A value stored in a dict cell: an immutable scalar/list, or a
reference to another dict cell. -/
inductive HVal where
  | atom (j : Json) : HVal
  | href (a : Nat) : HVal
deriving DecidableEq

/-- The object store: dict cells addressed by allocation order. -/
def Store := Nat → Option (List (String × HVal))

def storeSet (st : Store) (a : Nat) (cell : List (String × HVal)) : Store :=
  fun x => if x = a then some cell else st x

def lookupFieldH : List (String × HVal) → String → Option HVal
  | [], _ => none
  | (k, v) :: rest, key => if k = key then some v else lookupFieldH rest key

def pyInsertH : List (String × HVal) → String → HVal → List (String × HVal)
  | [], k, v => [(k, v)]
  | (k0, v0) :: rest, k, v =>
    if k0 = k then (k0, v) :: rest else (k0, v0) :: pyInsertH rest k v

/-- Truthiness of a stored value (a dict is truthy when non-empty). -/
def hvTruthy (st : Store) : HVal → Except PErr Bool
  | .atom j => .ok j.truthy
  | .href a =>
    match st a with
    | some cell => .ok (!cell.isEmpty)
    | none => .error (.typeErr "dangling reference")

/-- `repr()` of a stored value (fuel bounds reference chains). -/
def hvRepr : Nat → Store → HVal → String
  | _, _, .atom j => pyRepr j
  | 0, _, .href _ => "..."
  | fuel + 1, st, .href a =>
    match st a with
    | none => "dangling"
    | some cell =>
      "\x7b" ++ String.intercalate ", "
        (cell.map (fun kv => "\x27" ++ kv.1 ++ "\x27: " ++ hvRepr fuel st kv.2)) ++ "\x7d"

/-- `str()` of a stored value. -/
def hvStr (fuel : Nat) (st : Store) : HVal → String
  | .atom j => pyStr j
  | .href a => hvRepr fuel st (.href a)

/-- Membership of a stored value in a list of Python strings. -/
def hvMemStrList (hv : HVal) (ts : List String) : Bool :=
  match hv with
  | .atom v => pyMemStrList v ts
  | .href _ => false

/-- `data.get(disc_key)` against the store. -/
def heapDictGetKey (st : Store) (dataAddr : Nat) (key : Json) : Except PErr HVal :=
  match st dataAddr with
  | none => .error (.typeErr "dangling reference")
  | some cell =>
    match key with
    | .str k => .ok ((lookupFieldH cell k).getD (.atom .null))
    | .arr _ => .error (.typeErr "unhashable type")
    | .obj _ => .error (.typeErr "unhashable type")
    | _ => .ok (.atom .null)

/-- `filtered[p_key] = hv`: in-place update of the cell at `faddr`. -/
def heapWrite (st : Store) (faddr : Nat) (k : String) (hv : HVal) : Except PErr Store :=
  match st faddr with
  | some cell => .ok (storeSet st faddr (pyInsertH cell k hv))
  | none => .error (.typeErr "dangling reference")

/-- Type of the recursive heap filtering callback: data address, schema,
reference, store, next fresh address, cache. -/
def RecFilterH :=
  Nat → Json → Json → Store → Nat → List (String × HVal) →
    (Except PErr Nat) × Store × Nat × List (String × HVal)

/-- Heap version of `disc_step_v2` (source lines 994-1013). -/
def heap_disc_step_v2 (lcFuel : Nat) (spec schema : Json) (dataAddr : Nat) (reference : Json)
    (st : Store) (cache : List (String × HVal)) :
    Except PErr (Json × Json × List (String × HVal)) := do
  let discKey ← pyGetItem schema "discriminator"
  let discPath := disc_path reference discKey
  let dv0 ← heapDictGetKey st dataAddr discKey
  let dv0t ← hvTruthy st dv0
  let discValue := if dv0t then dv0 else (lookupFieldH cache discPath).getD (.atom .null)
  let dvt ← hvTruthy st discValue
  if dvt = false then
    .error (.click 1 (missing_param_msg discKey))
  else do
    let types ← list_concrete_types lcFuel spec schema
    if hvMemStrList discValue types = false then
      .error (.click 1 (invalid_value_msg discKey (.str (hvStr lcFuel st discValue)) types))
    else do
      let cache2 := pyInsertH cache discPath discValue
      let ref2 := Json.str ("#/definitions/" ++ hvStr lcFuel st discValue)
      let schema2 ← lookup spec ref2
      pure (ref2, schema2, cache2)

/-- Heap version of `loop_step_v2` (source lines 1018-1047): the filtered
cell at `faddr` is updated in place; everything else is only read. -/
def heap_loop_step_v2 (spec : Json) (fco : Bool) (recf : RecFilterH)
    (dataAddr : Nat) (reference cop : Json) (faddr : Nat)
    (s : (Except PErr Unit) × Store × Nat × List (String × HVal)) (kv : String × Json) :
    (Except PErr Unit) × Store × Nat × List (String × HVal) :=
  match s with
  | (.error e, st, n, c) => (.error e, st, n, c)
  | (.ok (), st, n, c) =>
    match keyPathE reference kv.1 with
    | .error e => (.error e, st, n, c)
    | .ok _ =>
      match st dataAddr with
      | none => (.error (.typeErr "dangling reference"), st, n, c)
      | some dcell =>
        if (lookupFieldH dcell kv.1).isNone then (.ok (), st, n, c)
        else
          match pyDictGet kv.2 "readOnly" with
          | .error e => (.error e, st, n, c)
          | .ok ro =>
            if ro.truthy then (.ok (), st, n, c)
            else
              match (if fco then pyIn kv.1 cop else .ok false) with
              | .error e => (.error e, st, n, c)
              | .ok true => (.ok (), st, n, c)
              | .ok false =>
                match pyIn "$ref" kv.2 with
                | .error e => (.error e, st, n, c)
                | .ok hasRef =>
                  match lookupFieldH dcell kv.1 with
                  | none => (.error (.keyErr kv.1), st, n, c)
                  | some dv =>
                    match hasRef, dv with
                    | true, .href a =>
                      (match pyGetItem kv.2 "$ref" with
                       | .error e => (.error e, st, n, c)
                       | .ok r =>
                         match lookup spec r with
                         | .error e => (.error e, st, n, c)
                         | .ok sub =>
                           match recf a sub r st n c with
                           | (.error e, st2, n2, c2) => (.error e, st2, n2, c2)
                           | (.ok subaddr, st2, n2, c2) =>
                             match heapWrite st2 faddr kv.1 (.href subaddr) with
                             | .error e => (.error e, st2, n2, c2)
                             | .ok st3 => (.ok (), st3, n2, c2))
                    | _, _ =>
                      match heapWrite st faddr kv.1 dv with
                      | .error e => (.error e, st, n, c)
                      | .ok st2 => (.ok (), st2, n, c)

/-- Heap version of `after_disc_v2` (source lines 1015-1048). -/
def heap_after_disc_v2 (spec : Json) (fco : Bool) (recf : RecFilterH)
    (faddr dataAddr : Nat) (schema reference : Json)
    (st : Store) (n : Nat) (cache : List (String × HVal)) :
    (Except PErr Nat) × Store × Nat × List (String × HVal) :=
  if schema.truthy then
    match pyIn "properties" schema with
    | .error e => (.error e, st, n, cache)
    | .ok false => (.ok faddr, st, n, cache)
    | .ok true =>
      match pyDictGetD schema "x-createOnly" (.str "") with
      | .error e => (.error e, st, n, cache)
      | .ok cop =>
        match pyGetItem schema "properties" with
        | .error e => (.error e, st, n, cache)
        | .ok (.obj props) =>
          (match props.foldl (heap_loop_step_v2 spec fco recf dataAddr reference cop faddr)
              (.ok (), st, n, cache) with
           | (.ok (), st2, n2, c2) => (.ok faddr, st2, n2, c2)
           | (.error e, st2, n2, c2) => (.error e, st2, n2, c2))
        | .ok _ => (.error (.attrErr "object has no attribute items"), st, n, cache)
  else (.ok faddr, st, n, cache)

/-- Heap embedding of `_OpenAPIv2Spec.filter_json_object` (lines 980-1048):
allocates the fresh `filtered` dict at the next free address, then runs the
discriminator step and the property loop against the store. -/
def heap_filter_v2 : Nat → Json → Bool → Nat → Nat → Json → Json → Store → Nat →
    List (String × HVal) → (Except PErr Nat) × Store × Nat × List (String × HVal)
  | 0, _, _, _, _, _, _, st, n, cache => (.error .fuelOut, st, n, cache)
  | fuel + 1, spec, fco, lcFuel, dataAddr, schema, reference, st, n, cache =>
    let faddr := n
    let st1 := storeSet st faddr []
    let n1 := n + 1
    match pyIn "discriminator" schema with
    | .error e => (.error e, st1, n1, cache)
    | .ok true =>
      (match heap_disc_step_v2 lcFuel spec schema dataAddr reference st1 cache with
       | .error e => (.error e, st1, n1, cache)
       | .ok (ref2, schema2, cache2) =>
         heap_after_disc_v2 spec fco (heap_filter_v2 fuel spec fco lcFuel)
           faddr dataAddr schema2 ref2 st1 n1 cache2)
    | .ok false =>
      heap_after_disc_v2 spec fco (heap_filter_v2 fuel spec fco lcFuel)
        faddr dataAddr schema reference st1 n1 cache

/-- Heap version of `disc_step_v3` (source lines 1228-1250). -/
def heap_disc_step_v3 (lcFuel : Nat) (spec schema : Json) (dataAddr : Nat) (reference : Json)
    (st : Store) (cache : List (String × HVal)) :
    Except PErr (Json × Json × List (String × HVal)) := do
  let d1 ← pyDictGet schema "discriminator"
  let discKey ← pyDictGet d1 "propertyName"
  let discPath := disc_path reference discKey
  let dv0 ← heapDictGetKey st dataAddr discKey
  let dv0t ← hvTruthy st dv0
  let discValue := if dv0t then dv0 else (lookupFieldH cache discPath).getD (.atom .null)
  let dvt ← hvTruthy st discValue
  if dvt = false then
    .error (.click 1 (missing_param_msg discKey))
  else do
    let ref2 := Json.str ("#/components/schemas/" ++ hvStr lcFuel st discValue)
    let schema20 ← lookup spec ref2
    let schema2 ← match ← pyIn "allOf" schema20 with
      | true => merge_all lcFuel spec schema20
      | false => pure schema20
    let types ← list_concrete_types lcFuel spec schema2
    if hvMemStrList discValue types = false then
      .error (.click 1 (invalid_value_msg discKey (.str (hvStr lcFuel st discValue)) types))
    else do
      let cache2 := pyInsertH cache discPath discValue
      pure (ref2, schema2, cache2)

/-- Heap version of `loop_step_v3` (source lines 1255-1289). -/
def heap_loop_step_v3 (lcFuel : Nat) (spec : Json) (fco : Bool) (recf : RecFilterH)
    (dataAddr : Nat) (reference cop : Json) (faddr : Nat)
    (s : (Except PErr Unit) × Store × Nat × List (String × HVal)) (kv : String × Json) :
    (Except PErr Unit) × Store × Nat × List (String × HVal) :=
  match s with
  | (.error e, st, n, c) => (.error e, st, n, c)
  | (.ok (), st, n, c) =>
    match keyPathE reference kv.1 with
    | .error e => (.error e, st, n, c)
    | .ok _ =>
      match st dataAddr with
      | none => (.error (.typeErr "dangling reference"), st, n, c)
      | some dcell =>
        if (lookupFieldH dcell kv.1).isNone then (.ok (), st, n, c)
        else
          match pyDictGet kv.2 "readOnly" with
          | .error e => (.error e, st, n, c)
          | .ok ro =>
            if ro.truthy then (.ok (), st, n, c)
            else
              match (if fco then pyIn kv.1 cop else .ok false) with
              | .error e => (.error e, st, n, c)
              | .ok true => (.ok (), st, n, c)
              | .ok false =>
                match pyIn "$ref" kv.2 with
                | .error e => (.error e, st, n, c)
                | .ok hasRef =>
                  match lookupFieldH dcell kv.1 with
                  | none => (.error (.keyErr kv.1), st, n, c)
                  | some dv =>
                    match hasRef, dv with
                    | true, .href a =>
                      (match pyGetItem kv.2 "$ref" with
                       | .error e => (.error e, st, n, c)
                       | .ok r =>
                         match lookup spec r with
                         | .error e => (.error e, st, n, c)
                         | .ok sub0 =>
                           match pyIn "allOf" sub0 with
                           | .error e => (.error e, st, n, c)
                           | .ok hasAllOf =>
                             match (if hasAllOf then merge_all lcFuel spec sub0 else .ok sub0) with
                             | .error e => (.error e, st, n, c)
                             | .ok sub =>
                               match recf a sub r st n c with
                               | (.error e, st2, n2, c2) => (.error e, st2, n2, c2)
                               | (.ok subaddr, st2, n2, c2) =>
                                 match heapWrite st2 faddr kv.1 (.href subaddr) with
                                 | .error e => (.error e, st2, n2, c2)
                                 | .ok st3 => (.ok (), st3, n2, c2))
                    | _, _ =>
                      match heapWrite st faddr kv.1 dv with
                      | .error e => (.error e, st, n, c)
                      | .ok st2 => (.ok (), st2, n, c)

/-- Heap version of `after_disc_v3` (source lines 1252-1290). -/
def heap_after_disc_v3 (lcFuel : Nat) (spec : Json) (fco : Bool) (recf : RecFilterH)
    (faddr dataAddr : Nat) (schema reference : Json)
    (st : Store) (n : Nat) (cache : List (String × HVal)) :
    (Except PErr Nat) × Store × Nat × List (String × HVal) :=
  if schema.truthy then
    match pyIn "properties" schema with
    | .error e => (.error e, st, n, cache)
    | .ok false => (.ok faddr, st, n, cache)
    | .ok true =>
      match pyDictGetD schema "x-createOnly" (.str "") with
      | .error e => (.error e, st, n, cache)
      | .ok cop =>
        match pyGetItem schema "properties" with
        | .error e => (.error e, st, n, cache)
        | .ok (.obj props) =>
          (match props.foldl (heap_loop_step_v3 lcFuel spec fco recf dataAddr reference cop faddr)
              (.ok (), st, n, cache) with
           | (.ok (), st2, n2, c2) => (.ok faddr, st2, n2, c2)
           | (.error e, st2, n2, c2) => (.error e, st2, n2, c2))
        | .ok _ => (.error (.attrErr "object has no attribute items"), st, n, cache)
  else (.ok faddr, st, n, cache)

/-- Heap embedding of `_OpenAPIv3Spec.filter_json_object` (lines 1215-1290). -/
def heap_filter_v3 : Nat → Json → Bool → Nat → Nat → Json → Json → Store → Nat →
    List (String × HVal) → (Except PErr Nat) × Store × Nat × List (String × HVal)
  | 0, _, _, _, _, _, _, st, n, cache => (.error .fuelOut, st, n, cache)
  | fuel + 1, spec, fco, lcFuel, dataAddr, schema, reference, st, n, cache =>
    let faddr := n
    let st1 := storeSet st faddr []
    let n1 := n + 1
    match pyIn "discriminator" schema with
    | .error e => (.error e, st1, n1, cache)
    | .ok true =>
      (match heap_disc_step_v3 lcFuel spec schema dataAddr reference st1 cache with
       | .error e => (.error e, st1, n1, cache)
       | .ok (ref2, schema2, cache2) =>
         heap_after_disc_v3 lcFuel spec fco (heap_filter_v3 fuel spec fco lcFuel)
           faddr dataAddr schema2 ref2 st1 n1 cache2)
    | .ok false =>
      heap_after_disc_v3 lcFuel spec fco (heap_filter_v3 fuel spec fco lcFuel)
        faddr dataAddr schema reference st1 n1 cache

theorem lookupField_sizeOf_lt {dl : List (String × Json)} {k : String} {v : Json}
    (h : lookupField dl k = some v) : sizeOf v < sizeOf (Json.obj dl) := by
  induction dl with
  | nil => simp [lookupField] at h
  | cons hd tl ih =>
    obtain ⟨k0, v0⟩ := hd
    simp only [lookupField] at h
    split at h
    · cases h
      simp
      omega
    · have := ih h
      simp at this ⊢
      omega

/-- C7: the strip-envelope step replaces the parsed response with its
top-level `data` entry exactly when the `--no-envelope` flag is set, the
HTTP method upper-cases to GET, the view is raw/json/xml and the response
object has a `data` key; in every other combination the response is
returned unchanged (and stripping is a real change: the `data` entry is
never the whole envelope itself). -/
theorem strip_envelope_exact (strip : Bool) (m view : String) (dl : List (String × Json)) :
    (∀ dv, lookupField dl "data" = some dv →
      ((strip && (pyUpper m == "GET") &&
          (view == "raw" || view == "json" || view == "xml")) = true →
        strip_envelope strip m view (.obj dl) = .ok dv) ∧
      dv ≠ Json.obj dl) ∧
    ((strip && (pyUpper m == "GET") &&
        (view == "raw" || view == "json" || view == "xml")) = false →
      strip_envelope strip m view (.obj dl) = .ok (.obj dl)) ∧
    (lookupField dl "data" = none →
      strip_envelope strip m view (.obj dl) = .ok (.obj dl)) := by
  refine ⟨fun dv hdv => ⟨fun hcond => ?_, fun he => ?_⟩, fun hcond => ?_, fun hnone => ?_⟩
  · simp [strip_envelope, hcond, pyIn, pyGetItem, hdv]
  · have := lookupField_sizeOf_lt hdv
    rw [he] at this
    omega
  · simp [strip_envelope, hcond]
  · cases hcond : (strip && (pyUpper m == "GET") &&
      (view == "raw" || view == "json" || view == "xml")) with
    | true => simp [strip_envelope, hcond, pyIn, hnone]
    | false => simp [strip_envelope, hcond]

/-- C7 witness: a GET in json view with the flag set strips the envelope of
`\x7b"data": 1, "meta": \x7b\x7d\x7d`, and a table view does not. -/
theorem strip_envelope_exact_witness :
    strip_envelope true "get" "json" (.obj [("data", .num 1), ("meta", .obj [])]) = .ok (.num 1) ∧
    strip_envelope true "get" "table" (.obj [("data", .num 1), ("meta", .obj [])]) =
      .ok (.obj [("data", .num 1), ("meta", .obj [])]) :=
  ⟨((strip_envelope_exact true "get" "json" [("data", .num 1), ("meta", .obj [])]).1
      (.num 1) (by decide)).1 (by decide),
   (strip_envelope_exact true "get" "table" [("data", .num 1), ("meta", .obj [])]).2.1 (by decide)⟩

theorem format_errmsg_lines_general (total : Nat) (h1 : total ≠ 1) :
    ∀ (es : List Json) (num : Nat),
      (∀ e ∈ es, (∃ c, e.get? "code" = some (.str c)) ∧ (∃ m, e.get? "message" = some (.str m))) →
      format_errmsg_lines total num es = .ok (es.mapIdx (fun i e =>
        "Error " ++ toString (num + i) ++ ": " ++ pyStr ((e.get? "code").getD .null) ++ ": " ++
          pyStr ((e.get? "message").getD .null))) := by
  intro es
  induction es with
  | nil => intro num _; simp [format_errmsg_lines]
  | cons e rest ih =>
    intro num hwf
    obtain ⟨⟨c, hc⟩, ⟨m, hm⟩⟩ := hwf e (by simp)
    cases e with
    | obj el =>
      simp only [Json.get?] at hc hm
      have hrest := ih (num + 1) (fun q hq => hwf q (by simp [hq]))
      simp only [format_errmsg_lines, pyIn, pyGetItem, pyDictGetD, hc, hm, Option.isSome_some,
        Option.getD_some, bind, Except.bind, h1, if_neg h1, hrest, List.mapIdx_cons, pure,
        Except.pure]
      refine congrArg _ ?_
      congr 1
      · apply String.ext
        simp [String.data_append, Json.get?, hc, hm, pyStr, if_neg h1]
      · have hfun : (fun (i : ℕ) (e : Json) =>
            "Error " ++ toString (num + 1 + i) ++ ": " ++ pyStr ((e.get? "code").getD .null) ++
              ": " ++ pyStr ((e.get? "message").getD .null)) =
            (fun (i : ℕ) (e : Json) =>
            "Error " ++ toString (num + (i + 1)) ++ ": " ++ pyStr ((e.get? "code").getD .null) ++
              ": " ++ pyStr ((e.get? "message").getD .null)) := by
          funext i e
          have : num + 1 + i = num + (i + 1) := by omega
          rw [this]
        rw [← hfun]
    | null => simp [Json.get?] at hc
    | bool b => simp [Json.get?] at hc
    | num n => simp [Json.get?] at hc
    | str s => simp [Json.get?] at hc
    | arr l => simp [Json.get?] at hc

/-- C4: a parsed response whose `errors` entry is a non-empty array makes
`_format_response` raise a `MultipleClickException` with exit code 1 (a
fatal, non-zero-code error) carrying the `_format_errmsg` composition; the
composed message has one `Error <n>: <code>: <message>` line per error
joined by newlines, with the numeric index omitted when there is exactly
one error. -/
theorem errmsg_composition :
    (∀ (rl : List (String × Json)) (es : List Json) (msg : String),
      lookupField rl "errors" = some (.arr es) → es ≠ [] →
      format_errmsg es = .ok msg →
      format_response_errors (.obj rl) = .error (.click 1 msg) ∧ (1 : Nat) ≠ 0) ∧
    (∀ (e : Json) (c m : String), e.get? "code" = some (.str c) →
      e.get? "message" = some (.str m) →
      format_errmsg [e] = .ok ("Error: " ++ c ++ ": " ++ m)) ∧
    (∀ es : List Json, 2 ≤ es.length →
      (∀ e ∈ es, (∃ c, e.get? "code" = some (.str c)) ∧ (∃ m, e.get? "message" = some (.str m))) →
      format_errmsg es = .ok (String.intercalate "\n" (es.mapIdx (fun i e =>
        "Error " ++ toString (i + 1) ++ ": " ++ pyStr ((e.get? "code").getD .null) ++ ": " ++
          pyStr ((e.get? "message").getD .null))))) := by
  refine ⟨fun rl es msg hl hne hfmt => ⟨?_, by omega⟩, fun e c m hc hm => ?_, fun es hlen hwf => ?_⟩
  · have htru : (Json.arr es).truthy = true := by
      cases es with
      | nil => exact absurd rfl hne
      | cons x xs => simp [Json.truthy]
    simp [format_response_errors, pyDictGet, hl, bind, Except.bind, htru, hfmt]
  · cases e with
    | obj el =>
      simp only [Json.get?] at hc hm
      simp only [format_errmsg, format_errmsg_lines, pyIn, pyGetItem, pyDictGetD, hc, hm,
        Option.isSome_some, Option.getD_some, bind, Except.bind, List.length_cons,
        List.length_nil, pure, Except.pure, if_pos rfl]
      apply congrArg
      apply String.ext
      simp [String.data_append, String.intercalate, String.intercalate.go, pyStr]
    | null => simp [Json.get?] at hc
    | bool b => simp [Json.get?] at hc
    | num n => simp [Json.get?] at hc
    | str s => simp [Json.get?] at hc
    | arr l => simp [Json.get?] at hc
  · have h1 : es.length ≠ 1 := by omega
    have := format_errmsg_lines_general es.length h1 es 1 hwf
    simp only [format_errmsg, this, bind, Except.bind, pure, Except.pure]
    apply congrArg
    apply congrArg
    have hfun : (fun (i : ℕ) (e : Json) =>
        "Error " ++ toString (1 + i) ++ ": " ++ pyStr ((e.get? "code").getD .null) ++
          ": " ++ pyStr ((e.get? "message").getD .null)) =
        (fun (i : ℕ) (e : Json) =>
        "Error " ++ toString (i + 1) ++ ": " ++ pyStr ((e.get? "code").getD .null) ++
          ": " ++ pyStr ((e.get? "message").getD .null)) := by
      funext i e
      have : 1 + i = i + 1 := by omega
      rw [this]
    rw [hfun]

/-- C4 witness: one error with code `E1` and message `bad` composes to
exactly `Error: E1: bad` and raises with exit code 1; two errors compose to
the two indexed lines joined by a newline. -/
theorem errmsg_composition_witness :
    format_response_errors
        (.obj [("errors", .arr [.obj [("code", .str "E1"), ("message", .str "bad")]])]) =
      .error (.click 1 "Error: E1: bad") ∧
    format_errmsg [.obj [("code", .str "E1"), ("message", .str "bad")],
        .obj [("code", .str "E2"), ("message", .str "worse")]] =
      .ok "Error 1: E1: bad\nError 2: E2: worse" := by
  constructor
  · exact (errmsg_composition.1 [("errors", .arr [.obj [("code", .str "E1"), ("message", .str "bad")]])]
      [.obj [("code", .str "E1"), ("message", .str "bad")]] "Error: E1: bad"
      (by decide) (by decide)
      (errmsg_composition.2.1 (.obj [("code", .str "E1"), ("message", .str "bad")]) "E1" "bad"
        (by decide) (by decide))).1
  · have := errmsg_composition.2.2 [.obj [("code", .str "E1"), ("message", .str "bad")],
      .obj [("code", .str "E2"), ("message", .str "worse")]] (by decide)
      (by
        intro e he
        simp only [List.mem_cons, List.not_mem_nil, or_false] at he
        rcases he with h | h
        · subst h; exact ⟨⟨"E1", rfl⟩, ⟨"bad", rfl⟩⟩
        · subst h; exact ⟨⟨"E2", rfl⟩, ⟨"worse", rfl⟩⟩)
    simpa using this

/-- C8: with exactly one defined body parameter name, `Action.pre` uses it
as the body key; with more than one (one per `oneOf` branch) and a
discriminator-bearing resolved body schema, the key is the discriminator
property value read out of the supplied raw JSON object. -/
theorem body_param_choice :
    (∀ (spec prev n schema raw s : Json),
      resolve_body_schema spec schema = .ok s →
      choose_body_param spec prev [n] schema raw = .ok n) ∧
    (∀ (spec prev : Json) (paramNames : List Json) (schema raw : Json)
        (sl dl : List (String × Json)) (pks : String) (rl : List (String × Json)),
      1 < paramNames.length →
      resolve_body_schema spec schema = .ok (.obj sl) →
      lookupField sl "discriminator" = some (.obj dl) →
      lookupField dl "propertyName" = some (.str pks) →
      raw = .obj rl →
      choose_body_param spec prev paramNames schema raw =
        .ok ((lookupField rl pks).getD .null)) := by
  constructor
  · intro spec prev n schema raw s hres
    simp [choose_body_param, hres, bind, Except.bind, pure, Except.pure]
  · intro spec prev paramNames schema raw sl dl pks rl hlen hres hdisc hpk hraw
    match paramNames, hlen with
    | x :: y :: rest, _ =>
      subst hraw
      simp [choose_body_param, hres, bind, Except.bind, pure, Except.pure, pyIn, hdisc,
        pyDictGet, pyDictGetKey, hpk]

/-- C8 witness: applying the choice rule at concrete inputs. -/
theorem body_param_choice_witness :
    choose_body_param (.obj []) .null [.str "imageRequest"] (.obj []) (.obj []) =
      .ok (.str "imageRequest") ∧
    choose_body_param (.obj []) .null [.str "a", .str "b"]
        (.obj [("discriminator", .obj [("propertyName", .str "type")])])
        (.obj [("type", .str "a")]) = .ok (.str "a") :=
  ⟨body_param_choice.1 (.obj []) .null (.str "imageRequest") (.obj []) (.obj []) (.obj [])
      (by decide),
   body_param_choice.2 (.obj []) .null [.str "a", .str "b"]
      (.obj [("discriminator", .obj [("propertyName", .str "type")])])
      (.obj [("type", .str "a")])
      [("discriminator", .obj [("propertyName", .str "type")])]
      [("propertyName", .str "type")] "type" [("type", .str "a")]
      (by decide) (by decide) (by decide) (by decide) rfl⟩

/-- The claim-side characterisation of a rejected route parameter: it
declares a (string) pattern, its name is supplied in the arguments, and
the match chosen by `re.match` / multiline `re.search` does not span the
whole stripped value (in particular, a match covering only a proper
substring is a violation). -/
def check_violates (reM reS : String → String → Option String)
    (kwargs : List (String × Json)) (param : Json) : Bool :=
  match param with
  | .obj pl =>
    let pattern := (lookupField pl "pattern").getD .null
    let name := (lookupField pl "name").getD .null
    pattern.truthy && name.truthy &&
      (match pattern, name with
       | .str pat, .str s =>
         (match lookupField kwargs s with
          | none => false
          | some v =>
            let value := pyStrip (pyStr v)
            (match (reM pat value).orElse (fun _ => reS pat value) with
             | none => true
             | some g => g.length != value.length))
       | _, _ => false)
  | _ => false

/-- A route parameter that `_check_arguments` can process without a
`TypeError`/`AttributeError`: a dict whose `pattern`, when truthy, is a
string, and whose `name`, when checked against the arguments, is hashable
(not a list or dict). -/
def well_param (p : Json) : Bool :=
  match p with
  | .obj pl =>
    (!((lookupField pl "pattern").getD .null).truthy ||
      (match (lookupField pl "pattern").getD .null with
       | .str _ => true
       | _ => false)) &&
    (!((lookupField pl "pattern").getD .null).truthy ||
      !((lookupField pl "name").getD .null).truthy ||
      (match (lookupField pl "name").getD .null with
       | .arr _ => false
       | .obj _ => false
       | _ => true))
  | _ => false

theorem check_one_spec (reM reS : String → String → Option String)
    (kwargs : List (String × Json)) (p : Json) (hw : well_param p = true) :
    (check_violates reM reS kwargs p = false → check_one reM reS kwargs p = .ok ()) ∧
    (check_violates reM reS kwargs p = true →
      check_one reM reS kwargs p =
        .error (.click 1 ("Invalid value for " ++ pyStr ((p.get? "name").getD .null)))) := by
  cases p with
  | obj pl =>
    simp only [well_param, Bool.and_eq_true, Bool.or_eq_true, Bool.not_eq_true'] at hw
    cases hpat : (lookupField pl "pattern").getD .null with
    | str pat =>
      by_cases hpt : (Json.str pat).truthy
      · cases hname : (lookupField pl "name").getD .null with
        | str s =>
          by_cases hnt : (Json.str s).truthy
          · cases hkw : lookupField kwargs s with
            | none =>
              constructor
              · intro _
                simp [check_one, pyDictGet, bind, Except.bind, hpat, hname, hpt, hnt, hkw, pure,
                  Except.pure]
              · intro hv
                simp [check_violates, hpat, hname, hpt, hnt, hkw] at hv
            | some v =>
              cases hm : (reM pat (pyStrip (pyStr v))).orElse
                  (fun _ => reS pat (pyStrip (pyStr v))) with
              | none =>
                constructor
                · intro hv
                  simp [check_violates, hpat, hname, hpt, hnt, hkw, hm] at hv
                · intro _
                  simp [check_one, pyDictGet, bind, Except.bind, hpat, hname, hpt, hnt, hkw, hm,
                    Json.get?, pure, Except.pure]
              | some g =>
                by_cases hg : g.length = (pyStrip (pyStr v)).length
                · constructor
                  · intro _
                    simp [check_one, pyDictGet, bind, Except.bind, hpat, hname, hpt, hnt, hkw,
                      hm, hg, pure, Except.pure]
                  · intro hv
                    simp [check_violates, hpat, hname, hpt, hnt, hkw, hm, hg] at hv
                · constructor
                  · intro hv
                    simp [check_violates, hpat, hname, hpt, hnt, hkw, hm, hg] at hv
                  · intro _
                    simp [check_one, pyDictGet, bind, Except.bind, hpat, hname, hpt, hnt, hkw,
                      hm, hg, Json.get?, pure, Except.pure]
          · constructor
            · intro _
              simp [check_one, pyDictGet, bind, Except.bind, hpat, hname, hpt, hnt, pure,
                Except.pure]
            · intro hv
              simp [check_violates, hpat, hname, hpt, hnt] at hv
        | null =>
          constructor
          · intro _
            simp [check_one, pyDictGet, bind, Except.bind, hpat, hname, hpt, Json.truthy, pure,
              Except.pure]
          · intro hv
            simp [check_violates, hpat, hname, hpt, Json.truthy] at hv
        | bool b =>
          cases b with
          | false =>
            constructor
            · intro _
              simp [check_one, pyDictGet, bind, Except.bind, hpat, hname, hpt, Json.truthy, pure,
                Except.pure]
            · intro hv
              simp [check_violates, hpat, hname, hpt, Json.truthy] at hv
          | true =>
            constructor
            · intro _
              simp [check_one, pyDictGet, bind, Except.bind, hpat, hname, hpt, Json.truthy, pure,
                Except.pure]
            · intro hv
              simp [check_violates, hpat, hname, hpt, Json.truthy] at hv
        | num n =>
          by_cases hnt : (Json.num n).truthy
          · constructor
            · intro _
              simp [check_one, pyDictGet, bind, Except.bind, hpat, hname, hpt, hnt, pure,
                Except.pure]
            · intro hv
              simp [check_violates, hpat, hname, hpt, hnt] at hv
          · constructor
            · intro _
              simp [check_one, pyDictGet, bind, Except.bind, hpat, hname, hpt, hnt, pure,
                Except.pure]
            · intro hv
              simp [check_violates, hpat, hname, hpt, hnt] at hv
        | arr l =>
          by_cases hnt : (Json.arr l).truthy
          · exfalso
            rcases hw with ⟨_, hw2⟩
            rw [hpat, hname] at hw2
            simp [hpt, hnt] at hw2
          · constructor
            · intro _
              simp [check_one, pyDictGet, bind, Except.bind, hpat, hname, hpt, hnt, pure,
                Except.pure]
            · intro hv
              simp [check_violates, hpat, hname, hpt, hnt] at hv
        | obj l =>
          by_cases hnt : (Json.obj l).truthy
          · exfalso
            rcases hw with ⟨_, hw2⟩
            rw [hpat, hname] at hw2
            simp [hpt, hnt] at hw2
          · constructor
            · intro _
              simp [check_one, pyDictGet, bind, Except.bind, hpat, hname, hpt, hnt, pure,
                Except.pure]
            · intro hv
              simp [check_violates, hpat, hname, hpt, hnt] at hv
      · constructor
        · intro _
          simp [check_one, pyDictGet, bind, Except.bind, hpat, hpt, pure, Except.pure]
        · intro hv
          simp [check_violates, hpat, hpt] at hv
    | null =>
      constructor
      · intro _
        simp [check_one, pyDictGet, bind, Except.bind, hpat, Json.truthy, pure, Except.pure]
      · intro hv
        simp [check_violates, hpat, Json.truthy] at hv
    | bool b =>
      cases b with
      | false =>
        constructor
        · intro _
          simp [check_one, pyDictGet, bind, Except.bind, hpat, Json.truthy, pure, Except.pure]
        · intro hv
          simp [check_violates, hpat, Json.truthy] at hv
      | true =>
        exfalso
        rcases hw with ⟨hw1, _⟩
        rw [hpat] at hw1
        simp [Json.truthy] at hw1
    | num n =>
      by_cases hnt : (Json.num n).truthy
      · exfalso
        rcases hw with ⟨hw1, _⟩
        rw [hpat] at hw1
        simp [hnt] at hw1
      · constructor
        · intro _
          simp [check_one, pyDictGet, bind, Except.bind, hpat, hnt, pure, Except.pure]
        · intro hv
          simp [check_violates, hpat, hnt] at hv
    | arr l =>
      by_cases hnt : (Json.arr l).truthy
      · exfalso
        rcases hw with ⟨hw1, _⟩
        rw [hpat] at hw1
        simp [hnt] at hw1
      · constructor
        · intro _
          simp [check_one, pyDictGet, bind, Except.bind, hpat, hnt, pure, Except.pure]
        · intro hv
          simp [check_violates, hpat, hnt] at hv
    | obj l =>
      by_cases hnt : (Json.obj l).truthy
      · exfalso
        rcases hw with ⟨hw1, _⟩
        rw [hpat] at hw1
        simp [hnt] at hw1
      · constructor
        · intro _
          simp [check_one, pyDictGet, bind, Except.bind, hpat, hnt, pure, Except.pure]
        · intro hv
          simp [check_violates, hpat, hnt] at hv
  | null => simp [well_param] at hw
  | bool b => simp [well_param] at hw
  | num n => simp [well_param] at hw
  | str s => simp [well_param] at hw
  | arr l => simp [well_param] at hw

/-- C9: over processable route parameters, `_check_arguments` succeeds
exactly when no parameter is violated (a parameter without a pattern, or
not supplied, is never rejected), and the first violated parameter — one
whose pattern produces no match spanning the whole stripped value — makes
it raise `Invalid value for <param>` for that parameter. -/
theorem pattern_check_exact (reM reS : String → String → Option String)
    (kwargs : List (String × Json)) (params : List Json)
    (hw : ∀ p ∈ params, well_param p = true) :
    (check_arguments reM reS kwargs params = .ok () ↔
      ∀ p ∈ params, check_violates reM reS kwargs p = false) ∧
    (∀ pre p post, params = pre ++ p :: post →
      (∀ q ∈ pre, check_violates reM reS kwargs q = false) →
      check_violates reM reS kwargs p = true →
      check_arguments reM reS kwargs params =
        .error (.click 1 ("Invalid value for " ++ pyStr ((p.get? "name").getD .null)))) := by
  constructor
  · induction params with
    | nil => simp [check_arguments]
    | cons p rest ih =>
      have hwp := hw p (by simp)
      have hwrest : ∀ q ∈ rest, well_param q = true := fun q hq => hw q (by simp [hq])
      cases hviol : check_violates reM reS kwargs p with
      | false =>
        have hone := (check_one_spec reM reS kwargs p hwp).1 hviol
        rw [check_arguments, hone]
        constructor
        · intro hrest q hq
          rcases List.mem_cons.mp hq with h | h
          · exact h ▸ hviol
          · exact ((ih hwrest).mp hrest) q h
        · intro hall
          exact (ih hwrest).mpr (fun q hq => hall q (by simp [hq]))
      | true =>
        have hone := (check_one_spec reM reS kwargs p hwp).2 hviol
        rw [check_arguments, hone]
        constructor
        · intro h
          exact absurd h (by simp)
        · intro hall
          have := hall p (by simp)
          rw [hviol] at this
          exact absurd this (by simp)
  · intro pre
    induction pre generalizing params with
    | nil =>
      intro p post hparams _ hviol
      subst hparams
      have hwp := hw p (by simp)
      have hone := (check_one_spec reM reS kwargs p hwp).2 hviol
      simp only [List.nil_append, check_arguments, hone]
    | cons q pre2 ih =>
      intro p post hparams hpre hviol
      subst hparams
      have hwq := hw q (by simp)
      have hqok : check_violates reM reS kwargs q = false := hpre q (by simp)
      have hone := (check_one_spec reM reS kwargs q hwq).1 hqok
      simp only [List.cons_append, check_arguments, hone]
      exact ih (pre2 ++ p :: post) (fun r hr => hw r (List.mem_cons_of_mem q hr)) p post rfl
        (fun r hr => hpre r (List.mem_cons_of_mem q hr)) hviol

/-- C9 witness: with a concrete regex oracle, a parameter whose pattern
matches only a proper substring of the supplied value is rejected with
`Invalid value for serverId`, and a full-span match is accepted. -/
theorem pattern_check_exact_witness :
    check_arguments
        (fun pat v => if pat = "ab" && v = "abc" then some "ab" else
          if pat = "ab" && v = "ab" then some "ab" else none)
        (fun _ _ => none)
        [("serverId", .str "abc")]
        [.obj [("name", .str "serverId"), ("pattern", .str "ab")]] =
      .error (.click 1 "Invalid value for serverId") ∧
    check_arguments
        (fun pat v => if pat = "ab" && v = "abc" then some "ab" else
          if pat = "ab" && v = "ab" then some "ab" else none)
        (fun _ _ => none)
        [("serverId", .str "ab")]
        [.obj [("name", .str "serverId"), ("pattern", .str "ab")]] = .ok () := by
  constructor
  · have := (pattern_check_exact
      (fun pat v => if pat = "ab" && v = "abc" then some "ab" else
        if pat = "ab" && v = "ab" then some "ab" else none)
      (fun _ _ => none)
      [("serverId", .str "abc")]
      [.obj [("name", .str "serverId"), ("pattern", .str "ab")]]
      (by decide)).2 [] (.obj [("name", .str "serverId"), ("pattern", .str "ab")]) []
      rfl (by simp) (by decide)
    simpa using this
  · exact (pattern_check_exact
      (fun pat v => if pat = "ab" && v = "abc" then some "ab" else
        if pat = "ab" && v = "ab" then some "ab" else none)
      (fun _ _ => none)
      [("serverId", .str "ab")]
      [.obj [("name", .str "serverId"), ("pattern", .str "ab")]]
      (by decide)).1.mpr (by
        intro p hp
        simp only [List.mem_singleton] at hp
        subst hp
        decide)

/-- No duplicated keys in an association list (parsed Python dicts). -/
def nodup_keys : List (String × Json) → Bool
  | [] => true
  | kv :: rest => !(rest.any (fun kv2 => kv2.1 == kv.1)) && nodup_keys rest

/-- The claim-side value of one example property: omitted when read-only,
else the first enum value when enumerated, else the per-type default. -/
def example_field (kv : String × Json) : Option (String × Json) :=
  match kv.2 with
  | .obj pvl =>
    if ((lookupField pvl "readOnly").getD .null).truthy then none
    else
      match lookupField pvl "enum" with
      | some (.arr (e :: _)) => some (kv.1, e)
      | _ =>
        match lookupField pvl "type" with
        | some t =>
          (match defaults_lookup t with
           | .ok d => some (kv.1, d)
           | .error _ => none)
        | none => none
  | _ => none

theorem pyInsert_not_mem (acc : List (String × Json)) (k : String) (v : Json)
    (h : acc.any (fun kv => kv.1 == k) = false) : pyInsert acc k v = acc ++ [(k, v)] := by
  induction acc with
  | nil => rfl
  | cons kv rest ih =>
    simp only [List.any_cons, Bool.or_eq_false_iff] at h
    obtain ⟨h1, h2⟩ := h
    simp only [pyInsert]
    rw [if_neg (by simpa using h1)]
    rw [ih h2]
    simp

/-- A property declaration the example generator handles without raising:
an object, not a `$ref`, and (unless read-only) either a non-empty enum
list or a type with a default. -/
def gen_flat_prop (kv : String × Json) : Prop :=
  ∃ pvl, kv.2 = Json.obj pvl ∧ lookupField pvl "$ref" = none ∧
    (((lookupField pvl "readOnly").getD .null).truthy = true ∨
     (∃ e rest, lookupField pvl "enum" = some (.arr (e :: rest))) ∨
     (lookupField pvl "enum" = none ∧
       ∃ t d, lookupField pvl "type" = some t ∧ defaults_lookup t = .ok d))

theorem generate_fold (spec : Json) (recf : Json → Except PErr Json) :
    ∀ (props acc : List (String × Json)),
      (∀ kv ∈ props, gen_flat_prop kv) →
      (∀ kv ∈ props, acc.any (fun kv2 => kv2.1 == kv.1) = false) →
      nodup_keys props = true →
      props.foldlM (generate_param_step spec recf) acc =
        .ok (acc ++ props.filterMap example_field) := by
  intro props
  induction props with
  | nil => intro acc _ _ _; simp [List.foldlM, pure, Except.pure]
  | cons kv rest ih =>
    intro acc hwf hdisj hnd
    obtain ⟨pvl, hpv, hnoref, hcases⟩ := hwf kv (by simp)
    simp only [nodup_keys, Bool.and_eq_true, Bool.not_eq_true'] at hnd
    obtain ⟨hnd1, hnd2⟩ := hnd
    have hdk := hdisj kv (by simp)
    by_cases hro : ((lookupField pvl "readOnly").getD .null).truthy = true
    · have hstep : generate_param_step spec recf acc kv = .ok acc := by
        simp [generate_param_step, pyDictGet, hpv, hro, bind, Except.bind, pure, Except.pure]
      have hex : example_field kv = none := by
        simp [example_field, hpv, hro]
      simp only [List.foldlM, hstep, bind, Except.bind]
      rw [ih acc (fun q hq => hwf q (by simp [hq])) (fun q hq => hdisj q (by simp [hq])) hnd2]
      simp [List.filterMap_cons, hex]
    · rw [Bool.not_eq_true] at hro
      have hval : ∃ v, generate_param_step spec recf acc kv = .ok (acc ++ [(kv.1, v)]) ∧
          example_field kv = some (kv.1, v) := by
        rcases hcases with hro2 | ⟨e, erest, henum⟩ | ⟨henum, t, d, htype, hdef⟩
        · rw [hro2] at hro; cases hro
        · refine ⟨e, ?_, ?_⟩
          · rw [← pyInsert_not_mem acc kv.1 e hdk]
            simp [generate_param_step, pyDictGet, hpv, hro, bind, Except.bind, pure, Except.pure,
              pyIn, hnoref, henum, pyGetItem]
          · simp [example_field, hpv, hro, henum]
        · refine ⟨d, ?_, ?_⟩
          · rw [← pyInsert_not_mem acc kv.1 d hdk]
            simp [generate_param_step, pyDictGet, hpv, hro, bind, Except.bind, pure, Except.pure,
              pyIn, hnoref, henum, pyGetItem, htype, hdef]
          · simp [example_field, hpv, hro, henum, htype, hdef]
      obtain ⟨v, hstep, hex⟩ := hval
      simp only [List.foldlM, hstep, bind, Except.bind]
      rw [ih (acc ++ [(kv.1, v)]) (fun q hq => hwf q (by simp [hq]))
        (fun q hq => ?_) hnd2]
      · simp [List.filterMap_cons, hex]
      · have h1 := hdisj q (by simp [hq])
        have h2 : (q.1 == kv.1) = false := by
          have := hnd1
          rw [List.any_eq_false] at this
          simpa using this q hq
        simp only [List.any_append, h1, Bool.false_or, List.any_cons, List.any_nil,
          Bool.or_false]
        simp only [beq_eq_false_iff_ne, ne_eq] at h2 ⊢
        exact fun he => h2 he.symm

/-- C6: example generation gives every non-read-only property of a flat
schema the first enum value when enumerated and the per-type default
(`""`/`true`/`1`/`1`/`[]`) otherwise, omitting read-only properties; a
`$ref`-typed property gets the recursively generated sub-object of the
referenced definition; the `size`/`tag` schema of the claim yields exactly
`\x7b"size": 1, "tag": "x"\x7d`. -/
theorem generate_example_values :
    (∀ (fuel : Nat) (spec : Json) (sl props : List (String × Json)),
      lookupField sl "$ref" = none →
      lookupField sl "allOf" = none →
      lookupField sl "properties" = some (.obj props) →
      nodup_keys props = true →
      (∀ kv ∈ props, gen_flat_prop kv) →
      generate_params (fuel + 1) spec (.obj sl) = .ok (.obj (props.filterMap example_field))) ∧
    (∀ (fuel : Nat) (spec : Json) (k : String) (pvl : List (String × Json)) (r sub out : Json),
      lookupField pvl "readOnly" = none →
      lookupField pvl "$ref" = some r →
      item_by_ref spec r = .ok sub →
      generate_params fuel spec sub = .ok out →
      generate_params (fuel + 1) spec (.obj [("properties", .obj [(k, .obj pvl)])]) =
        .ok (.obj [(k, out)])) ∧
    (generate_params 2 (.obj [])
        (.obj [("properties", .obj [("size", .obj [("type", .str "integer")]),
          ("tag", .obj [("type", .str "string"), ("enum", .arr [.str "x", .str "y"])])])]) =
      .ok (.obj [("size", .num 1), ("tag", .str "x")])) := by
  refine ⟨?_, ?_, by decide⟩
  · intro fuel spec sl props hnoref hnoall hprops hnd hwf
    have hfold := generate_fold spec (generate_params fuel spec) props [] hwf
      (by intro kv _; simp) hnd
    cases props with
    | nil =>
      simp [generate_params, pyIn, hnoref, hnoall, hprops, pyDictGetD, bind, Except.bind,
        Json.truthy, pure, Except.pure]
    | cons kv0 rest =>
      simp only [generate_params, pyIn, hnoref, hnoall, hprops, pyDictGetD, bind, Except.bind,
        Option.isSome_none, Option.isSome_some, Option.getD_some, Json.truthy, List.isEmpty_cons,
        Bool.not_false, if_true, hfold, pure, Except.pure, List.nil_append]
  · intro fuel spec k pvl r sub out hro href hitem hgen
    have e1 : pyIn "$ref" (Json.obj [("properties", Json.obj [(k, Json.obj pvl)])]) =
        .ok false := rfl
    have e2 : pyIn "allOf" (Json.obj [("properties", Json.obj [(k, Json.obj pvl)])]) =
        .ok false := rfl
    have e3 : pyDictGetD (Json.obj [("properties", Json.obj [(k, Json.obj pvl)])]) "properties"
        (.obj []) = .ok (.obj [(k, Json.obj pvl)]) := rfl
    have e4 : lookupField [("properties", Json.obj [(k, Json.obj pvl)])] "allOf" = none := rfl
    have e5 : pyDictGetD (Json.obj [(k, Json.obj pvl)]) "properties" (Json.obj []) =
        .ok ((lookupField [(k, Json.obj pvl)] "properties").getD (Json.obj [])) := rfl
    simp only [generate_params, e1, e2, e3, bind, Except.bind, pure, Except.pure]
    simp only [e4, Option.isSome_none, Json.truthy, List.isEmpty_cons, Bool.not_false,
      List.foldlM, generate_param_step, pyDictGet, pyIn, pyGetItem, hro, href, hitem, hgen,
      Option.getD_none, Option.isSome_some, bind, Except.bind, pure, Except.pure, pyInsert,
      Option.getD_some, if_true]
    simp

/-- C6 witness: the universal parts applied at the claim's schema and at a
one-property `$ref` schema. -/
theorem generate_example_values_witness :
    generate_params 3 (.obj [])
        (.obj [("properties", .obj [("size", .obj [("type", .str "integer")]),
          ("tag", .obj [("type", .str "string"), ("enum", .arr [.str "x", .str "y"])])])]) =
      .ok (.obj [("size", .num 1), ("tag", .str "x")]) ∧
    generate_params 2 (.obj [("definitions", .obj [("Inner", .obj [("properties",
          .obj [("id", .obj [("type", .str "integer")])])])])])
        (.obj [("properties", .obj [("inner", .obj [("$ref", .str "#/definitions/Inner")])])]) =
      .ok (.obj [("inner", .obj [("id", .num 1)])]) := by
  constructor
  · have := generate_example_values.1 2 (.obj [])
      [("properties", .obj [("size", .obj [("type", .str "integer")]),
        ("tag", .obj [("type", .str "string"), ("enum", .arr [.str "x", .str "y"])])])]
      [("size", .obj [("type", .str "integer")]),
        ("tag", .obj [("type", .str "string"), ("enum", .arr [.str "x", .str "y"])])]
      (by decide) (by decide) (by decide) (by decide)
      (by
        intro kv hkv
        simp only [List.mem_cons, List.not_mem_nil, or_false] at hkv
        rcases hkv with h | h
        · subst h
          exact ⟨[("type", .str "integer")], rfl, by decide,
            Or.inr (Or.inr ⟨by decide, .str "integer", .num 1, by decide, by decide⟩)⟩
        · subst h
          exact ⟨[("type", .str "string"), ("enum", .arr [.str "x", .str "y"])], rfl, by decide,
            Or.inr (Or.inl ⟨.str "x", [.str "y"], by decide⟩)⟩)
    simpa using this
  · exact generate_example_values.2.1 1 (.obj [("definitions", .obj [("Inner", .obj [("properties",
      .obj [("id", .obj [("type", .str "integer")])])])])]) "inner"
      [("$ref", .str "#/definitions/Inner")] (.str "#/definitions/Inner")
      (.obj [("properties", .obj [("id", .obj [("type", .str "integer")])])])
      (.obj [("id", .num 1)])
      (by decide) (by decide) (by decide) (by decide)

theorem pyGetItem_eq_ok {j : Json} {k : String} {v : Json} :
    pyGetItem j k = .ok v ↔ j.get? k = some v := by
  cases j <;> simp [pyGetItem, Json.get?]
  cases h : lookupField _ k <;> simp [h]

theorem pyDictGet_ok_obj {j : Json} {k : String} {v : Json} (h : pyDictGet j k = .ok v) :
    ∃ fs, j = .obj fs ∧ (lookupField fs k).getD .null = v := by
  cases j <;> simp [pyDictGet] at h
  exact ⟨_, rfl, h⟩

theorem get?_some_obj {j : Json} {k : String} {v : Json} (h : j.get? k = some v) :
    ∃ fs, j = .obj fs ∧ lookupField fs k = some v := by
  cases j <;> simp [Json.get?] at h
  exact ⟨_, rfl, h⟩

/-- The v2 response-schema `data` type: the success response's `schema`
must be a `$ref` into `definitions` (v2 reads only `$ref` schemas). -/
def v2_data_type (spec : Json) (route m : String) : Option Json := do
  let paths ← spec.get? "paths"
  let rd ← paths.get? route
  let md ← rd.get? m
  let responses ← md.get? "responses"
  let code ← (success_code m).toOption
  let r200 ← responses.get? code
  let schema ← r200.get? "schema"
  let ref ← schema.get? "$ref"
  let refS ← match ref with
    | .str r => some r
    | _ => none
  let defs ← spec.get? "definitions"
  let od ← defs.get? (lastSegment refS)
  let props ← od.get? "properties"
  let ds ← props.get? "data"
  ds.get? "type"

/-- The `data` type of a resolved v3 schema node. -/
def v3_schema_data_type (schema : Json) : Option Json := do
  let props ← schema.get? "properties"
  let ds ← props.get? "data"
  ds.get? "type"

/-- The `data` type reachable from a v3 response entry, following the
optional response/schema `$ref` indirections. -/
def v3_response_data_type (spec r0 : Json) : Option Json := do
  let r200 ← match r0.get? "$ref" with
    | some r => (lookup spec r).toOption
    | none => some r0
  let content ← r200.get? "content"
  let cj ← content.get? "application/json"
  let schema0 ← cj.get? "schema"
  let schema ← match schema0.get? "$ref" with
    | some r => (lookup spec r).toOption
    | none => some schema0
  v3_schema_data_type schema

/-- The v3 response-schema `data` type, read from the route's *GET*
operation (as the source does), keyed by the supplied method's success
code, following the optional response/schema `$ref` indirections. -/
def v3_data_type (spec : Json) (route m : String) : Option Json := do
  let paths ← spec.get? "paths"
  let rd ← paths.get? route
  let md ← rd.get? "get"
  let responses ← md.get? "responses"
  let code ← (success_code m).toOption
  let r0 ← responses.get? code
  v3_response_data_type spec r0

theorem except_bind_ok {α β : Type} {x : Except PErr α} {f : α → Except PErr β} {b : β} :
    Except.bind x f = .ok b ↔ ∃ v, x = .ok v ∧ f v = .ok b := by
  cases x <;> simp [Except.bind]

theorem iter_v2_iff (spec : Json) (route m : String) :
    get_iterable_object_v2 spec route m = .ok true ↔
      v2_data_type spec route m = some (.str "array") := by
  constructor
  · intro h
    simp only [get_iterable_object_v2, bind] at h
    obtain ⟨paths, h1, h⟩ := except_bind_ok.mp h
    obtain ⟨rd, h2, h⟩ := except_bind_ok.mp h
    obtain ⟨md, h3, h⟩ := except_bind_ok.mp h
    obtain ⟨responses, h4, h⟩ := except_bind_ok.mp h
    obtain ⟨code, h5, h⟩ := except_bind_ok.mp h
    obtain ⟨b1, hb1, h⟩ := except_bind_ok.mp h
    cases b1 with
    | false => simp [pure, Except.pure] at h
    | true =>
    obtain ⟨r200, h6, h⟩ := except_bind_ok.mp h
    obtain ⟨b2, hb2, h⟩ := except_bind_ok.mp h
    cases b2 with
    | false => simp [pure, Except.pure] at h
    | true =>
    obtain ⟨schema, h7, h⟩ := except_bind_ok.mp h
    obtain ⟨b3, hb3, h⟩ := except_bind_ok.mp h
    cases b3 with
    | false => simp [pure, Except.pure] at h
    | true =>
    obtain ⟨ref, h8, h⟩ := except_bind_ok.mp h
    cases ref with
    | str r =>
      obtain ⟨objectKey, h9, h⟩ := except_bind_ok.mp h
      simp only [pure, Except.pure, Except.ok.injEq] at h9
      obtain ⟨defs, h10, h⟩ := except_bind_ok.mp h
      obtain ⟨od, h11, h⟩ := except_bind_ok.mp h
      obtain ⟨props, h12, h⟩ := except_bind_ok.mp h
      obtain ⟨ds, h13, h⟩ := except_bind_ok.mp h
      obtain ⟨t, h14, h⟩ := except_bind_ok.mp h
      simp only [pure, Except.pure, Except.ok.injEq] at h
      have ht : t = .str "array" := jsonBeq_eq t (.str "array") h
      obtain ⟨rfs, hrobj, hrgd⟩ := pyDictGet_ok_obj h6
      subst hrobj
      have hrl : lookupField rfs code = some r200 := by
        simp only [pyIn, Except.ok.injEq] at hb1
        cases hl : lookupField rfs code with
        | none => rw [hl] at hb1; simp at hb1
        | some w => rw [hl] at hrgd; simp at hrgd; rw [hrgd]
      obtain ⟨dfs, hdobj, hdgd⟩ := pyDictGet_ok_obj h14
      subst hdobj
      have hdl : lookupField dfs "type" = some (.str "array") := by
        cases hl : lookupField dfs "type" with
        | none => rw [hl] at hdgd; simp at hdgd; rw [← hdgd] at ht; simp at ht
        | some w => rw [hl] at hdgd; simp at hdgd; rw [hdgd, ht]
      subst h9
      have hr6 : (Json.obj rfs).get? code = some r200 := by simp [Json.get?, hrl]
      have hd14 : (Json.obj dfs).get? "type" = some (.str "array") := by
        simp [Json.get?, hdl]
      simp only [v2_data_type, bind, Option.bind, pyGetItem_eq_ok.mp h1,
        pyGetItem_eq_ok.mp h2, pyGetItem_eq_ok.mp h3, pyGetItem_eq_ok.mp h4, h5,
        Except.toOption, hr6, pyGetItem_eq_ok.mp h7, pyGetItem_eq_ok.mp h8,
        pyGetItem_eq_ok.mp h10, pyGetItem_eq_ok.mp h11, pyGetItem_eq_ok.mp h12,
        pyGetItem_eq_ok.mp h13, hd14]
    | null => simp [Except.bind] at h
    | bool b => simp [Except.bind] at h
    | num n => simp [Except.bind] at h
    | arr l => simp [Except.bind] at h
    | obj l => simp [Except.bind] at h
  · intro h
    simp only [v2_data_type, bind, Option.bind_eq_some] at h
    obtain ⟨paths, h1, rd, h2, md, h3, responses, h4, code, h5, r200, h6, schema, h7,
      ref, h8, h⟩ := h
    cases ref with
    | str r =>
      simp only [Option.bind_eq_some, Option.some.injEq] at h
      obtain ⟨refS, h9, defs, h10, od, h11, props, h12, ds, h13, h14⟩ := h
      subst h9
      have hcode : success_code m = .ok code := by
        cases hsc : success_code m with
        | error e => rw [hsc] at h5; simp [Except.toOption] at h5
        | ok c => rw [hsc] at h5; simp [Except.toOption] at h5; rw [h5]
      obtain ⟨rfs, hrobj, hrl⟩ := get?_some_obj h6
      subst hrobj
      obtain ⟨sfs, hsobj, hsl⟩ := get?_some_obj h7
      subst hsobj
      obtain ⟨ffs, hfobj, hfl⟩ := get?_some_obj h8
      subst hfobj
      obtain ⟨dfs, hdobj, hdl⟩ := get?_some_obj h14
      subst hdobj
      have h7g : pyGetItem (Json.obj sfs) "schema" = .ok (.obj ffs) := pyGetItem_eq_ok.mpr h7
      have h8g : pyGetItem (Json.obj ffs) "$ref" = .ok (.str r) := pyGetItem_eq_ok.mpr h8
      simp only [get_iterable_object_v2, bind, Except.bind, pyGetItem_eq_ok.mpr h1,
        pyGetItem_eq_ok.mpr h2, pyGetItem_eq_ok.mpr h3, pyGetItem_eq_ok.mpr h4, hcode,
        pyIn, hrl, hsl, hfl, Option.isSome_some, pyDictGet, Option.getD_some, h7g, h8g,
        pyGetItem_eq_ok.mpr h10, pyGetItem_eq_ok.mpr h11, pyGetItem_eq_ok.mpr h12,
        pyGetItem_eq_ok.mpr h13, hdl, pure, Except.pure]
      simp [pure, Except.pure, jsonBeq_refl]
    | null => simp at h
    | bool b => simp at h
    | num n => simp at h
    | arr l => simp at h
    | obj l => simp at h

theorem pyIn_false_get_none {k : String} {j : Json} (h : pyIn k j = .ok false) :
    j.get? k = none := by
  cases j <;> simp [pyIn, Json.get?] at h ⊢
  cases hl : lookupField _ k with
  | none => rfl
  | some w => rw [hl] at h; simp at h

theorem toOption_some_ok {x : Except PErr Json} {v : Json} (h : x.toOption = some v) :
    x = .ok v := by
  cases x <;> simp [Except.toOption] at h
  rw [h]


theorem opt_resolve_inv (spec x : Json) (cont : Json → Option Json) (target : Json)
    (h : (match x.get? "$ref" with
        | some r => Option.bind (lookup spec r).toOption cont
        | none => Option.bind (some x) cont) = some target) :
    ∃ y, (match x.get? "$ref" with
        | some r => (lookup spec r).toOption
        | none => some x) = some y ∧ cont y = some target := by
  cases hr : x.get? "$ref" with
  | some r =>
    rw [hr] at h
    simp only [Option.bind_eq_some] at h
    obtain ⟨y, hy, hc⟩ := h
    exact ⟨y, by simp [hy], hc⟩
  | none =>
    rw [hr] at h
    simp only [Option.bind_eq_some, Option.some.injEq] at h
    obtain ⟨y, hy, hc⟩ := h
    subst hy
    exact ⟨x, rfl, hc⟩

theorem opt_resolve_fwd (spec x y : Json) (cont : Json → Option Json) (target : Json)
    (hy : (match x.get? "$ref" with
        | some r => (lookup spec r).toOption
        | none => some x) = some y)
    (hc : cont y = some target) :
    (match x.get? "$ref" with
        | some r => Option.bind (lookup spec r).toOption cont
        | none => Option.bind (some x) cont) = some target := by
  cases hr : x.get? "$ref" with
  | some r =>
    rw [hr] at hy
    have hy2 : (lookup spec r).toOption = some y := hy
    show ((lookup spec r).toOption).bind cont = some target
    rw [hy2]
    exact hc
  | none =>
    rw [hr] at hy
    have hy2 : (some x : Option Json) = some y := hy
    show ((some x : Option Json)).bind cont = some target
    simp only [Option.some.injEq] at hy2
    subst hy2
    exact hc

theorem resolve_ref_step (spec x : Json) (cont : Json → Except PErr Bool)
    (h : Except.bind (pyIn "$ref" x) (fun b => match b with
        | true => Except.bind (pyGetItem x "$ref")
            (fun r => Except.bind (lookup spec r) cont)
        | false => Except.bind (pure x) cont) = .ok true) :
    ∃ y, (match x.get? "$ref" with
        | some r => (lookup spec r).toOption
        | none => some x) = some y ∧ cont y = .ok true := by
  obtain ⟨b, hb, h⟩ := except_bind_ok.mp h
  cases b with
  | true =>
    obtain ⟨r, hri, h⟩ := except_bind_ok.mp h
    obtain ⟨y, hlo, h⟩ := except_bind_ok.mp h
    refine ⟨y, ?_, h⟩
    rw [pyGetItem_eq_ok.mp hri]
    simp [hlo, Except.toOption]
  | false =>
    obtain ⟨y, hpure, h⟩ := except_bind_ok.mp h
    simp only [pure, Except.pure, Except.ok.injEq] at hpure
    subst hpure
    refine ⟨x, ?_, h⟩
    rw [pyIn_false_get_none hb]

theorem resolve_ref_step_rev (spec x y : Json) (cont : Json → Except PErr Bool)
    (hobj : ∃ fs, x = Json.obj fs)
    (hy : (match x.get? "$ref" with
        | some r => (lookup spec r).toOption
        | none => some x) = some y)
    (hc : cont y = .ok true) :
    Except.bind (pyIn "$ref" x) (fun b => match b with
        | true => Except.bind (pyGetItem x "$ref")
            (fun r => Except.bind (lookup spec r) cont)
        | false => Except.bind (pure x) cont) = .ok true := by
  obtain ⟨fs, rfl⟩ := hobj
  cases hr : (Json.obj fs).get? "$ref" with
  | some r =>
    rw [hr] at hy
    have hlk := toOption_some_ok hy
    have hg : pyGetItem (Json.obj fs) "$ref" = .ok r := pyGetItem_eq_ok.mpr hr
    simp only [Json.get?] at hr
    simp [pyIn, hr, Except.bind, hg, hlk, hc]
  | none =>
    rw [hr] at hy
    simp only [Option.some.injEq] at hy
    subst hy
    simp only [Json.get?] at hr
    simp [pyIn, hr, Except.bind, pure, Except.pure, hc]

theorem iter_v3_schema_iff (schema : Json) :
    iter_v3_from_schema schema = .ok true ↔
      v3_schema_data_type schema = some (.str "array") := by
  constructor
  · intro h
    simp only [iter_v3_from_schema, bind] at h
    obtain ⟨props, h1, h⟩ := except_bind_ok.mp h
    obtain ⟨ds, h2, h⟩ := except_bind_ok.mp h
    obtain ⟨t, h3, h⟩ := except_bind_ok.mp h
    simp only [pure, Except.pure, Except.ok.injEq] at h
    have ht : t = .str "array" := jsonBeq_eq t (.str "array") h
    obtain ⟨dfs, hdobj, hdgd⟩ := pyDictGet_ok_obj h3
    subst hdobj
    have hdl : lookupField dfs "type" = some (.str "array") := by
      cases hl : lookupField dfs "type" with
      | none => rw [hl] at hdgd; simp at hdgd; rw [← hdgd] at ht; simp at ht
      | some w => rw [hl] at hdgd; simp at hdgd; rw [hdgd, ht]
    have hd : (Json.obj dfs).get? "type" = some (.str "array") := by simp [Json.get?, hdl]
    simp only [v3_schema_data_type, bind, Option.bind, pyGetItem_eq_ok.mp h1,
      pyGetItem_eq_ok.mp h2, hd]
  · intro h
    simp only [v3_schema_data_type, bind, Option.bind_eq_some] at h
    obtain ⟨props, h1, ds, h2, h3⟩ := h
    obtain ⟨dfs, hdobj, hdl⟩ := get?_some_obj h3
    subst hdobj
    simp [iter_v3_from_schema, bind, Except.bind, pyGetItem_eq_ok.mpr h1,
      pyGetItem_eq_ok.mpr h2, pyDictGet, hdl, pure, Except.pure, jsonBeq_refl]

theorem iter_v3_response_iff (spec r0 : Json) :
    iter_v3_from_response spec r0 = .ok true ↔
      v3_response_data_type spec r0 = some (.str "array") := by
  constructor
  · intro h
    simp only [iter_v3_from_response, bind] at h
    obtain ⟨r200, hr0, h⟩ := resolve_ref_step spec r0 _ h
    obtain ⟨content, h1, h⟩ := except_bind_ok.mp h
    obtain ⟨cj, h2, h⟩ := except_bind_ok.mp h
    obtain ⟨b3, hb3, h⟩ := except_bind_ok.mp h
    cases b3 with
    | false => simp [pure, Except.pure] at h
    | true =>
    obtain ⟨schema0, h4, h⟩ := except_bind_ok.mp h
    obtain ⟨schema, hs0, h⟩ := resolve_ref_step spec schema0 _ h
    simp only [v3_response_data_type, bind]
    refine opt_resolve_fwd spec r0 r200 _ _ hr0 ?_
    simp only [pyGetItem_eq_ok.mp h1, pyGetItem_eq_ok.mp h2, pyGetItem_eq_ok.mp h4,
      Option.some_bind]
    refine opt_resolve_fwd spec schema0 schema _ _ hs0 ?_
    exact (iter_v3_schema_iff schema).mp h
  · intro h
    simp only [v3_response_data_type, bind] at h
    obtain ⟨r200, h1, h⟩ := opt_resolve_inv spec r0 _ _ h
    simp only [Option.bind_eq_some] at h
    obtain ⟨content, h2, cj, h3, schema0, h4, h⟩ := h
    obtain ⟨schema, h5, h6⟩ := opt_resolve_inv spec schema0 _ _ h
    obtain ⟨rfs, hrobj, hrl⟩ := get?_some_obj h2
    obtain ⟨jfs, hjobj, hjl⟩ := get?_some_obj h3
    subst hjobj
    obtain ⟨sfs, hsobj, hsl⟩ := get?_some_obj h4
    subst hsobj
    have hs0obj : ∃ fs, schema0 = Json.obj fs := by
      cases hso : schema0.get? "$ref" with
      | some r => exact (get?_some_obj hso).imp (fun fs hfs => hfs.1)
      | none =>
        rw [hso] at h5
        simp only [Option.some.injEq] at h5
        have h6b := h6
        rw [← h5] at h6b
        simp only [v3_schema_data_type, bind, Option.bind_eq_some] at h6b
        obtain ⟨props, hp, -⟩ := h6b
        exact (get?_some_obj hp).imp (fun fs hfs => hfs.1)
    have hr0obj : ∃ fs, r0 = Json.obj fs := by
      cases hr0ref : r0.get? "$ref" with
      | some r => exact (get?_some_obj hr0ref).imp (fun fs hfs => hfs.1)
      | none =>
        rw [hr0ref] at h1
        simp only [Option.some.injEq] at h1
        rw [← h1] at hrobj
        exact ⟨rfs, hrobj⟩
    simp only [iter_v3_from_response, bind]
    apply resolve_ref_step_rev spec r0 r200 _ hr0obj h1
    have hcg : pyGetItem r200 "content" = .ok (.obj jfs) := by
      rw [pyGetItem_eq_ok, hrobj] at *
      exact h2
    simp only [Except.bind, hcg, pyGetItem_eq_ok.mpr h3, pyIn, hsl, Option.isSome_some,
      pyGetItem_eq_ok.mpr h4]
    apply resolve_ref_step_rev spec schema0 schema _ hs0obj h5
    exact (iter_v3_schema_iff schema).mpr h6

theorem iter_v3_iff (spec : Json) (route m : String) :
    get_iterable_object_v3 spec route m = .ok true ↔
      v3_data_type spec route m = some (.str "array") := by
  constructor
  · intro h
    simp only [get_iterable_object_v3, bind] at h
    obtain ⟨paths, h1, h⟩ := except_bind_ok.mp h
    obtain ⟨rd, h2, h⟩ := except_bind_ok.mp h
    obtain ⟨md, h3, h⟩ := except_bind_ok.mp h
    obtain ⟨responses, h4, h⟩ := except_bind_ok.mp h
    obtain ⟨code, h5, h⟩ := except_bind_ok.mp h
    obtain ⟨b1, hb1, h⟩ := except_bind_ok.mp h
    cases b1 with
    | false => simp [pure, Except.pure] at h
    | true =>
    replace h : Except.bind (pyDictGet responses code)
        (fun r0 => iter_v3_from_response spec r0) = .ok true := h
    obtain ⟨r0, h6, h⟩ := except_bind_ok.mp h
    have hresp := (iter_v3_response_iff spec r0).mp h
    clear h
    obtain ⟨rfs, hrobj, hrgd⟩ := pyDictGet_ok_obj h6
    subst hrobj
    have hrl : lookupField rfs code = some r0 := by
      simp only [pyIn, Except.ok.injEq] at hb1
      cases hl : lookupField rfs code with
      | none => rw [hl] at hb1; simp at hb1
      | some w => rw [hl] at hrgd; simp at hrgd; rw [hrgd]
    have hr6 : (Json.obj rfs).get? code = some r0 := by simp [Json.get?, hrl]
    simp only [v3_data_type, bind, Option.bind, pyGetItem_eq_ok.mp h1,
      pyGetItem_eq_ok.mp h2, pyGetItem_eq_ok.mp h3, pyGetItem_eq_ok.mp h4, h5,
      Except.toOption, hr6]
    exact hresp
  · intro h
    simp only [v3_data_type, bind, Option.bind_eq_some] at h
    obtain ⟨paths, h1, rd, h2, md, h3, responses, h4, code, h5, r0, h6, h7⟩ := h
    have hcode : success_code m = .ok code := by
      cases hsc : success_code m with
      | error e => rw [hsc] at h5; simp [Except.toOption] at h5
      | ok c => rw [hsc] at h5; simp [Except.toOption] at h5; rw [h5]
    obtain ⟨rfs, hrobj, hrl⟩ := get?_some_obj h6
    subst hrobj
    simp only [get_iterable_object_v3, bind, Except.bind, pyGetItem_eq_ok.mpr h1,
      pyGetItem_eq_ok.mpr h2, pyGetItem_eq_ok.mpr h3, pyGetItem_eq_ok.mpr h4, hcode,
      pyIn, hrl, Option.isSome_some, pyDictGet, Option.getD_some]
    exact (iter_v3_response_iff spec r0).mpr h7

/-- A v2 spec whose success response schema is declared *inline* (no
`$ref`) with an array-typed `data` property. -/
def c3_spec_v2 : Json :=
  .obj [("paths", .obj [("/x", .obj [("get", .obj [("responses", .obj [("200",
    .obj [("schema", .obj [("properties", .obj [("data",
      .obj [("type", .str "array")])])])])])])])])]

/-- A v3 spec with a POST-only route whose 201 response has an array-typed
`data` property. -/
def c3_spec_v3 : Json :=
  .obj [("paths", .obj [("/y", .obj [("post", .obj [("responses", .obj [("201",
    .obj [("content", .obj [("application/json", .obj [("schema",
      .obj [("properties", .obj [("data",
        .obj [("type", .str "array")])])])])])])])])])])]

/-- C3 counterexample: the claim "`get_iterable_object(route, method)`
returns true iff the success response body schema's `data` property is
declared with type array" fails on the code.  In v2 an *inline* response
schema declaring `data: array` still yields `false` (only `$ref` schemas
are inspected); in v3 a route whose POST success response declares
`data: array` but which has no GET operation raises `KeyError('get')`
instead of returning true, because v3 always reads the `'get'` operation's
responses. -/
theorem iterable_claim_cex :
    get_iterable_object_v2 c3_spec_v2 "/x" "get" = .ok false ∧
    ((((((c3_spec_v2.get? "paths").bind (fun p => p.get? "/x")).bind
        (fun r => r.get? "get")).bind (fun o => o.get? "responses")).bind
        (fun rs => rs.get? "200")).bind (fun r2 => r2.get? "schema")).bind
      (fun s => (s.get? "properties").bind (fun ps => (ps.get? "data").bind
        (fun d => d.get? "type"))) = some (.str "array") ∧
    get_iterable_object_v3 c3_spec_v3 "/y" "post" = .error (.keyErr "get") ∧
    ((((((c3_spec_v3.get? "paths").bind (fun p => p.get? "/y")).bind
        (fun r => r.get? "post")).bind (fun o => o.get? "responses")).bind
        (fun rs => rs.get? "201")).bind (fun r2 => (r2.get? "content").bind
        (fun c => c.get? "application/json"))).bind
      (fun cj => (cj.get? "schema").bind (fun s => (s.get? "properties").bind
        (fun ps => (ps.get? "data").bind (fun d => d.get? "type")))) =
      some (.str "array") := by
  refine ⟨by decide, by decide, by decide, by decide⟩

/-- C3 (amended): `get_iterable_object` returns true exactly when the
`data`-type chain the source actually follows yields `array`: in v2 the
success response schema must be a `$ref` whose resolved definition has an
array-typed `data` property (inline schemas yield false); in v3 the
responses of the route's GET operation are read (keyed by the supplied
method's success code), following optional response/schema `$ref`
indirections and accepting inline schemas. -/
theorem iterable_response_characterization :
    (∀ (spec : Json) (route m : String),
      get_iterable_object_v2 spec route m = .ok true ↔
        v2_data_type spec route m = some (.str "array")) ∧
    (∀ (spec : Json) (route m : String),
      get_iterable_object_v3 spec route m = .ok true ↔
        v3_data_type spec route m = some (.str "array")) :=
  ⟨iter_v2_iff, iter_v3_iff⟩

/-- C5: (v2 and v3) a successful discriminator resolution stores the value
in the cache under the path `"<reference>/<discriminator key>"`, and a
later `filter_json_object` entry for the same reference whose input object
omits the discriminator property resolves through the cached value —
proceeding to the concrete node's property filtering instead of raising
the missing-discriminator error. -/
theorem discriminator_cache_store_and_reuse :
    (∀ (lcF : Nat) (spec : Json) (sl : List (String × Json)) (dk data dv : Json)
        (types : List String) (s2 r : Json) (cache : Cache),
      lookupField sl "discriminator" = some dk →
      pyDictGetKey data dk = .ok dv →
      dv.truthy = true →
      list_concrete_types lcF spec (.obj sl) = .ok types →
      pyMemStrList dv types = true →
      lookup spec (.str ("#/definitions/" ++ pyStr dv)) = .ok s2 →
      disc_step_v2 lcF spec (.obj sl) data r cache =
        .ok (.str ("#/definitions/" ++ pyStr dv), s2,
          pyInsert cache (disc_path r dk) dv)) ∧
    (∀ (fuel lcF : Nat) (spec : Json) (fco : Bool) (sl : List (String × Json)) (dks : String)
        (dl : List (String × Json)) (dv : Json) (types : List String) (s2 r : Json)
        (cache : Cache),
      lookupField sl "discriminator" = some (.str dks) →
      lookupField dl dks = none →
      lookupField cache (disc_path r (.str dks)) = some dv →
      dv.truthy = true →
      list_concrete_types lcF spec (.obj sl) = .ok types →
      pyMemStrList dv types = true →
      lookup spec (.str ("#/definitions/" ++ pyStr dv)) = .ok s2 →
      filter_json_object_v2 (fuel + 1) spec fco lcF (.obj dl) (.obj sl) r cache =
        after_disc_v2 spec fco (filter_json_object_v2 fuel spec fco lcF) (.obj dl) s2
          (.str ("#/definitions/" ++ pyStr dv))
          (pyInsert cache (disc_path r (.str dks)) dv)) ∧
    (∀ (lcF : Nat) (spec : Json) (sl dol : List (String × Json)) (dk data dv : Json)
        (hasA : Bool) (types : List String) (s20 s2 r : Json) (cache : Cache),
      lookupField sl "discriminator" = some (.obj dol) →
      lookupField dol "propertyName" = some dk →
      pyDictGetKey data dk = .ok dv →
      dv.truthy = true →
      lookup spec (.str ("#/components/schemas/" ++ pyStr dv)) = .ok s20 →
      pyIn "allOf" s20 = .ok hasA →
      (if hasA then merge_all lcF spec s20 else .ok s20) = .ok s2 →
      list_concrete_types lcF spec s2 = .ok types →
      pyMemStrList dv types = true →
      disc_step_v3 lcF spec (.obj sl) data r cache =
        .ok (.str ("#/components/schemas/" ++ pyStr dv), s2,
          pyInsert cache (disc_path r dk) dv)) ∧
    (∀ (fuel lcF : Nat) (spec : Json) (fco : Bool) (sl dol : List (String × Json)) (dks : String)
        (dl : List (String × Json)) (dv : Json) (hasA : Bool) (types : List String)
        (s20 s2 r : Json) (cache : Cache),
      lookupField sl "discriminator" = some (.obj dol) →
      lookupField dol "propertyName" = some (.str dks) →
      lookupField dl dks = none →
      lookupField cache (disc_path r (.str dks)) = some dv →
      dv.truthy = true →
      lookup spec (.str ("#/components/schemas/" ++ pyStr dv)) = .ok s20 →
      pyIn "allOf" s20 = .ok hasA →
      (if hasA then merge_all lcF spec s20 else .ok s20) = .ok s2 →
      list_concrete_types lcF spec s2 = .ok types →
      pyMemStrList dv types = true →
      filter_json_object_v3 (fuel + 1) spec fco lcF (.obj dl) (.obj sl) r cache =
        after_disc_v3 lcF spec fco (filter_json_object_v3 fuel spec fco lcF) (.obj dl) s2
          (.str ("#/components/schemas/" ++ pyStr dv))
          (pyInsert cache (disc_path r (.str dks)) dv)) := by
  refine ⟨?_, ?_, ?_, ?_⟩
  · intro lcF spec sl dk data dv types s2 r cache hdk hget hdvt htypes hmem hlk
    simp [disc_step_v2, bind, Except.bind, pyGetItem, hdk, hget, pyOr, hdvt, htypes, hmem,
      hlk, pure, Except.pure]
  · intro fuel lcF spec fco sl dks dl dv types s2 r cache hdk hnot hcache hdvt htypes hmem hlk
    have hnull : Json.truthy .null = false := rfl
    have hstep : disc_step_v2 lcF spec (.obj sl) (.obj dl) r cache =
        .ok (.str ("#/definitions/" ++ pyStr dv), s2,
          pyInsert cache (disc_path r (.str dks)) dv) := by
      simp [disc_step_v2, bind, Except.bind, pyGetItem, hdk, pyDictGetKey, hnot, pyOr,
        hnull, hcache, hdvt, htypes, hmem, hlk, pure, Except.pure]
    simp [filter_json_object_v2, pyIn, hdk, hstep]
  · intro lcF spec sl dol dk data dv hasA types s20 s2 r cache hdk hpk hget hdvt hlk hallof
      hmerge htypes hmem
    cases hasA with
    | false =>
      simp only [if_false, Bool.false_eq_true, Except.ok.injEq] at hmerge
      subst hmerge
      simp [disc_step_v3, bind, Except.bind, pyDictGet, hdk, hpk, hget, pyOr, hdvt, hlk,
        hallof, htypes, hmem, pure, Except.pure]
    | true =>
      simp only [if_true] at hmerge
      simp [disc_step_v3, bind, Except.bind, pyDictGet, hdk, hpk, hget, pyOr, hdvt, hlk,
        hallof, hmerge, htypes, hmem, pure, Except.pure]
  · intro fuel lcF spec fco sl dol dks dl dv hasA types s20 s2 r cache hdk hpk hnot hcache
      hdvt hlk hallof hmerge htypes hmem
    have hnull : Json.truthy .null = false := rfl
    have hstep : disc_step_v3 lcF spec (.obj sl) (.obj dl) r cache =
        .ok (.str ("#/components/schemas/" ++ pyStr dv), s2,
          pyInsert cache (disc_path r (.str dks)) dv) := by
      cases hasA with
      | false =>
        simp only [if_false, Bool.false_eq_true, Except.ok.injEq] at hmerge
        subst hmerge
        simp [disc_step_v3, bind, Except.bind, pyDictGet, hdk, hpk, pyDictGetKey, hnot, pyOr,
          hnull, hcache, hdvt, hlk, hallof, htypes, hmem, pure, Except.pure]
      | true =>
        simp only [if_true] at hmerge
        simp [disc_step_v3, bind, Except.bind, pyDictGet, hdk, hpk, pyDictGetKey, hnot, pyOr,
          hnull, hcache, hdvt, hlk, hallof, hmerge, htypes, hmem, pure, Except.pure]
    simp [filter_json_object_v3, pyIn, hdk, hstep]

/-- C5 witness: concrete v2 and v3 discriminator resolutions store
`None/type ↦ <value>` in the cache, and filtering an object without the
discriminator property against the same reference proceeds through the
cached value. -/
theorem discriminator_cache_store_and_reuse_witness :
    disc_step_v2 3
        (.obj [("definitions", .obj [
          ("Body", .obj [("discriminator", .str "type"),
            ("x-concreteTypes", .arr [.obj [("$ref", .str "#/definitions/LeafA")]])]),
          ("LeafA", .obj [("properties", .obj [("type", .obj [("type", .str "string")]),
            ("name", .obj [("type", .str "string")])])])])])
        (.obj [("discriminator", .str "type"),
          ("x-concreteTypes", .arr [.obj [("$ref", .str "#/definitions/LeafA")]])])
        (.obj [("type", .str "LeafA")]) .null [] =
      .ok (.str "#/definitions/LeafA",
        .obj [("properties", .obj [("type", .obj [("type", .str "string")]),
          ("name", .obj [("type", .str "string")])])],
        [("None/type", .str "LeafA")]) ∧
    filter_json_object_v2 3
        (.obj [("definitions", .obj [
          ("Body", .obj [("discriminator", .str "type"),
            ("x-concreteTypes", .arr [.obj [("$ref", .str "#/definitions/LeafA")]])]),
          ("LeafA", .obj [("properties", .obj [("type", .obj [("type", .str "string")]),
            ("name", .obj [("type", .str "string")])])])])])
        false 3
        (.obj [("name", .str "x")])
        (.obj [("discriminator", .str "type"),
          ("x-concreteTypes", .arr [.obj [("$ref", .str "#/definitions/LeafA")]])])
        .null [("None/type", .str "LeafA")] =
      after_disc_v2
        (.obj [("definitions", .obj [
          ("Body", .obj [("discriminator", .str "type"),
            ("x-concreteTypes", .arr [.obj [("$ref", .str "#/definitions/LeafA")]])]),
          ("LeafA", .obj [("properties", .obj [("type", .obj [("type", .str "string")]),
            ("name", .obj [("type", .str "string")])])])])])
        false
        (filter_json_object_v2 2
          (.obj [("definitions", .obj [
            ("Body", .obj [("discriminator", .str "type"),
              ("x-concreteTypes", .arr [.obj [("$ref", .str "#/definitions/LeafA")]])]),
            ("LeafA", .obj [("properties", .obj [("type", .obj [("type", .str "string")]),
              ("name", .obj [("type", .str "string")])])])])])
          false 3)
        (.obj [("name", .str "x")])
        (.obj [("properties", .obj [("type", .obj [("type", .str "string")]),
          ("name", .obj [("type", .str "string")])])])
        (.str "#/definitions/LeafA") [("None/type", .str "LeafA")] ∧
    disc_step_v3 3
        (.obj [("components", .obj [("schemas", .obj [
          ("Base", .obj [("discriminator", .obj [("propertyName", .str "type")]),
            ("x-concreteTypes", .arr [.obj [("$ref", .str "#/components/schemas/Leaf")]])]),
          ("Leaf", .obj [("allOf", .arr [.obj [("$ref", .str "#/components/schemas/Base")],
            .obj [("properties", .obj [("type", .obj [("type", .str "string")]),
              ("name", .obj [("type", .str "string")])])]])])])])])
        (.obj [("discriminator", .obj [("propertyName", .str "type")]),
          ("x-concreteTypes", .arr [.obj [("$ref", .str "#/components/schemas/Leaf")]])])
        (.obj [("type", .str "Leaf")]) .null [] =
      .ok (.str "#/components/schemas/Leaf",
        .obj [("discriminator", .obj [("propertyName", .str "type")]),
          ("x-concreteTypes", .arr [.obj [("$ref", .str "#/components/schemas/Leaf")]]),
          ("properties", .obj [("type", .obj [("type", .str "string")]),
            ("name", .obj [("type", .str "string")])])],
        [("None/type", .str "Leaf")]) := by
  refine ⟨?_, ?_, ?_⟩
  · exact discriminator_cache_store_and_reuse.1 3
      (.obj [("definitions", .obj [
        ("Body", .obj [("discriminator", .str "type"),
          ("x-concreteTypes", .arr [.obj [("$ref", .str "#/definitions/LeafA")]])]),
        ("LeafA", .obj [("properties", .obj [("type", .obj [("type", .str "string")]),
          ("name", .obj [("type", .str "string")])])])])])
      [("discriminator", .str "type"),
        ("x-concreteTypes", .arr [.obj [("$ref", .str "#/definitions/LeafA")]])]
      (.str "type") (.obj [("type", .str "LeafA")]) (.str "LeafA") ["LeafA"]
      (.obj [("properties", .obj [("type", .obj [("type", .str "string")]),
        ("name", .obj [("type", .str "string")])])])
      .null []
      (by decide) (by decide) (by decide) (by decide) (by decide) (by decide)
  · exact discriminator_cache_store_and_reuse.2.1 2 3
      (.obj [("definitions", .obj [
        ("Body", .obj [("discriminator", .str "type"),
          ("x-concreteTypes", .arr [.obj [("$ref", .str "#/definitions/LeafA")]])]),
        ("LeafA", .obj [("properties", .obj [("type", .obj [("type", .str "string")]),
          ("name", .obj [("type", .str "string")])])])])])
      false
      [("discriminator", .str "type"),
        ("x-concreteTypes", .arr [.obj [("$ref", .str "#/definitions/LeafA")]])]
      "type" [("name", .str "x")] (.str "LeafA") ["LeafA"]
      (.obj [("properties", .obj [("type", .obj [("type", .str "string")]),
        ("name", .obj [("type", .str "string")])])])
      .null [("None/type", .str "LeafA")]
      (by decide) (by decide) (by decide) (by decide) (by decide) (by decide) (by decide)
  · exact discriminator_cache_store_and_reuse.2.2.1 3
      (.obj [("components", .obj [("schemas", .obj [
        ("Base", .obj [("discriminator", .obj [("propertyName", .str "type")]),
          ("x-concreteTypes", .arr [.obj [("$ref", .str "#/components/schemas/Leaf")]])]),
        ("Leaf", .obj [("allOf", .arr [.obj [("$ref", .str "#/components/schemas/Base")],
          .obj [("properties", .obj [("type", .obj [("type", .str "string")]),
            ("name", .obj [("type", .str "string")])])]])])])])])
      [("discriminator", .obj [("propertyName", .str "type")]),
        ("x-concreteTypes", .arr [.obj [("$ref", .str "#/components/schemas/Leaf")]])]
      [("propertyName", .str "type")]
      (.str "type") (.obj [("type", .str "Leaf")]) (.str "Leaf") true ["Leaf"]
      (.obj [("allOf", .arr [.obj [("$ref", .str "#/components/schemas/Base")],
        .obj [("properties", .obj [("type", .obj [("type", .str "string")]),
          ("name", .obj [("type", .str "string")])])]])])
      (.obj [("discriminator", .obj [("propertyName", .str "type")]),
        ("x-concreteTypes", .arr [.obj [("$ref", .str "#/components/schemas/Leaf")]]),
        ("properties", .obj [("type", .obj [("type", .str "string")]),
          ("name", .obj [("type", .str "string")])])])
      .null []
      (by decide) (by decide) (by decide) (by decide) (by decide) (by decide) (by decide)
      (by decide) (by decide)

/-- A v2 spec whose discriminated body resolves to a concrete definition
composed with `allOf`. -/
def c1_spec_v2 : Json :=
  .obj [("definitions", .obj [
    ("Body", .obj [("discriminator", .str "type"),
      ("x-concreteTypes", .arr [.obj [("$ref", .str "#/definitions/LeafA")]])]),
    ("LeafA", .obj [("allOf", .arr [.obj [("properties",
      .obj [("type", .obj [("type", .str "string")]),
        ("name", .obj [("type", .str "string")])])]])])])]

/-- A v3 spec whose discriminated body names a plain (non-`allOf`)
concrete schema. -/
def c1_spec_v3 : Json :=
  .obj [("components", .obj [("schemas", .obj [
    ("Body", .obj [("discriminator", .obj [("propertyName", .str "type")]),
      ("x-concreteTypes", .arr [.obj [("$ref", .str "#/components/schemas/Leaf")]])]),
    ("Leaf", .obj [("properties", .obj [("type", .obj [("type", .str "string")]),
      ("name", .obj [("type", .str "string")])])])])])]

/-- C1 counterexample.  v2: the discriminator value `LeafA` is valid for
the `Body` schema, and merging `LeafA`'s `allOf` yields a `name` property,
yet filtering `\x7b"type": "LeafA", "name": "n"\x7d` returns the empty
object — v2 re-resolves without merging `allOf`, so the concrete node has
no `properties` key and nothing is copied.  v3: the value `Leaf` is among
`list_concrete_types` of the `Body` schema, yet filtering raises the
invalid-discriminator-value `ClickException` — v3 validates against the
re-resolved concrete node, whose own concrete-type list is empty. -/
theorem filter_discriminator_claim_cex :
    filter_json_object_v2 2 c1_spec_v2 false 3
        (.obj [("type", .str "LeafA"), ("name", .str "n")])
        (.obj [("discriminator", .str "type"),
          ("x-concreteTypes", .arr [.obj [("$ref", .str "#/definitions/LeafA")]])])
        .null [] =
      (.ok (.obj []), [("None/type", .str "LeafA")]) ∧
    list_concrete_types 3 c1_spec_v2
        (.obj [("discriminator", .str "type"),
          ("x-concreteTypes", .arr [.obj [("$ref", .str "#/definitions/LeafA")]])]) =
      .ok ["LeafA"] ∧
    (merge_all 2 c1_spec_v2
        (.obj [("allOf", .arr [.obj [("properties",
          .obj [("type", .obj [("type", .str "string")]),
            ("name", .obj [("type", .str "string")])])]])])).bind
      (fun m => .ok ((m.get? "properties").bind (fun p => p.get? "name"))) =
      .ok (some (.obj [("type", .str "string")])) ∧
    filter_json_object_v3 2 c1_spec_v3 false 3
        (.obj [("type", .str "Leaf"), ("name", .str "n")])
        (.obj [("discriminator", .obj [("propertyName", .str "type")]),
          ("x-concreteTypes", .arr [.obj [("$ref", .str "#/components/schemas/Leaf")]])])
        .null [] =
      (.error (.click 1 (invalid_value_msg (.str "type") (.str "Leaf") [])), []) ∧
    list_concrete_types 3 c1_spec_v3
        (.obj [("discriminator", .obj [("propertyName", .str "type")]),
          ("x-concreteTypes", .arr [.obj [("$ref", .str "#/components/schemas/Leaf")]])]) =
      .ok ["Leaf"] ∧
    pyMemStrList (.str "Leaf") ["Leaf"] = true := by
  refine ⟨by decide, by decide, by decide, by decide, by decide, by decide⟩

/-- C1 (amended): v2 validates the supplied discriminator value against
the discriminated schema's own `list_concrete_types` — an invalid value
raises the invalid-discriminator `ClickException` — and on success caches
the value and re-resolves to `#/definitions/<value>` *without* merging
`allOf`, filtering with whatever `properties` that raw node carries.  v3
re-resolves to `#/components/schemas/<value>` first (merging `allOf` when
present) and validates the value against the *resolved concrete node's*
`list_concrete_types`; only then does filtering proceed with the concrete
node's properties. -/
theorem filter_discriminator_behavior :
    (∀ (fuel lcF : Nat) (spec : Json) (fco : Bool) (sl : List (String × Json))
        (dk data dv : Json) (types : List String) (r : Json) (cache : Cache),
      lookupField sl "discriminator" = some dk →
      pyDictGetKey data dk = .ok dv →
      dv.truthy = true →
      list_concrete_types lcF spec (.obj sl) = .ok types →
      pyMemStrList dv types = false →
      filter_json_object_v2 (fuel + 1) spec fco lcF data (.obj sl) r cache =
        (.error (.click 1 (invalid_value_msg dk dv types)), cache)) ∧
    (∀ (fuel lcF : Nat) (spec : Json) (fco : Bool) (sl : List (String × Json))
        (dk data dv : Json) (types : List String) (s2 r : Json) (cache : Cache),
      lookupField sl "discriminator" = some dk →
      pyDictGetKey data dk = .ok dv →
      dv.truthy = true →
      list_concrete_types lcF spec (.obj sl) = .ok types →
      pyMemStrList dv types = true →
      lookup spec (.str ("#/definitions/" ++ pyStr dv)) = .ok s2 →
      filter_json_object_v2 (fuel + 1) spec fco lcF data (.obj sl) r cache =
        after_disc_v2 spec fco (filter_json_object_v2 fuel spec fco lcF) data s2
          (.str ("#/definitions/" ++ pyStr dv)) (pyInsert cache (disc_path r dk) dv)) ∧
    (∀ (fuel lcF : Nat) (spec : Json) (fco : Bool) (sl dol : List (String × Json))
        (dk data dv : Json) (hasA : Bool) (types : List String) (s20 s2 r : Json)
        (cache : Cache),
      lookupField sl "discriminator" = some (.obj dol) →
      lookupField dol "propertyName" = some dk →
      pyDictGetKey data dk = .ok dv →
      dv.truthy = true →
      lookup spec (.str ("#/components/schemas/" ++ pyStr dv)) = .ok s20 →
      pyIn "allOf" s20 = .ok hasA →
      (if hasA then merge_all lcF spec s20 else .ok s20) = .ok s2 →
      list_concrete_types lcF spec s2 = .ok types →
      pyMemStrList dv types = false →
      filter_json_object_v3 (fuel + 1) spec fco lcF data (.obj sl) r cache =
        (.error (.click 1 (invalid_value_msg dk dv types)), cache)) ∧
    (∀ (fuel lcF : Nat) (spec : Json) (fco : Bool) (sl dol : List (String × Json))
        (dk data dv : Json) (hasA : Bool) (types : List String) (s20 s2 r : Json)
        (cache : Cache),
      lookupField sl "discriminator" = some (.obj dol) →
      lookupField dol "propertyName" = some dk →
      pyDictGetKey data dk = .ok dv →
      dv.truthy = true →
      lookup spec (.str ("#/components/schemas/" ++ pyStr dv)) = .ok s20 →
      pyIn "allOf" s20 = .ok hasA →
      (if hasA then merge_all lcF spec s20 else .ok s20) = .ok s2 →
      list_concrete_types lcF spec s2 = .ok types →
      pyMemStrList dv types = true →
      filter_json_object_v3 (fuel + 1) spec fco lcF data (.obj sl) r cache =
        after_disc_v3 lcF spec fco (filter_json_object_v3 fuel spec fco lcF) data s2
          (.str ("#/components/schemas/" ++ pyStr dv))
          (pyInsert cache (disc_path r dk) dv)) := by
  refine ⟨?_, ?_, ?_, ?_⟩
  · intro fuel lcF spec fco sl dk data dv types r cache hdk hget hdvt htypes hmem
    have hstep : disc_step_v2 lcF spec (.obj sl) data r cache =
        .error (.click 1 (invalid_value_msg dk dv types)) := by
      simp [disc_step_v2, bind, Except.bind, pyGetItem, hdk, hget, pyOr, hdvt, htypes, hmem,
        pure, Except.pure]
    simp [filter_json_object_v2, pyIn, hdk, hstep]
  · intro fuel lcF spec fco sl dk data dv types s2 r cache hdk hget hdvt htypes hmem hlk
    have hstep : disc_step_v2 lcF spec (.obj sl) data r cache =
        .ok (.str ("#/definitions/" ++ pyStr dv), s2, pyInsert cache (disc_path r dk) dv) := by
      simp [disc_step_v2, bind, Except.bind, pyGetItem, hdk, hget, pyOr, hdvt, htypes, hmem,
        hlk, pure, Except.pure]
    simp [filter_json_object_v2, pyIn, hdk, hstep]
  · intro fuel lcF spec fco sl dol dk data dv hasA types s20 s2 r cache hdk hpk hget hdvt hlk
      hallof hmerge htypes hmem
    have hstep : disc_step_v3 lcF spec (.obj sl) data r cache =
        .error (.click 1 (invalid_value_msg dk dv types)) := by
      cases hasA with
      | false =>
        simp only [if_false, Bool.false_eq_true, Except.ok.injEq] at hmerge
        subst hmerge
        simp [disc_step_v3, bind, Except.bind, pyDictGet, hdk, hpk, hget, pyOr, hdvt, hlk,
          hallof, htypes, hmem, pure, Except.pure]
      | true =>
        simp only [if_true] at hmerge
        simp [disc_step_v3, bind, Except.bind, pyDictGet, hdk, hpk, hget, pyOr, hdvt, hlk,
          hallof, hmerge, htypes, hmem, pure, Except.pure]
    simp [filter_json_object_v3, pyIn, hdk, hstep]
  · intro fuel lcF spec fco sl dol dk data dv hasA types s20 s2 r cache hdk hpk hget hdvt hlk
      hallof hmerge htypes hmem
    have hstep : disc_step_v3 lcF spec (.obj sl) data r cache =
        .ok (.str ("#/components/schemas/" ++ pyStr dv), s2,
          pyInsert cache (disc_path r dk) dv) := by
      cases hasA with
      | false =>
        simp only [if_false, Bool.false_eq_true, Except.ok.injEq] at hmerge
        subst hmerge
        simp [disc_step_v3, bind, Except.bind, pyDictGet, hdk, hpk, hget, pyOr, hdvt, hlk,
          hallof, htypes, hmem, pure, Except.pure]
      | true =>
        simp only [if_true] at hmerge
        simp [disc_step_v3, bind, Except.bind, pyDictGet, hdk, hpk, hget, pyOr, hdvt, hlk,
          hallof, hmerge, htypes, hmem, pure, Except.pure]
    simp [filter_json_object_v3, pyIn, hdk, hstep]

/-- C1 witness: the amended behaviour applied at the counterexample
specifications — v2 accepting `LeafA` (without merging) and rejecting
`Nope`; v3 rejecting the otherwise-valid `Leaf`. -/
theorem filter_discriminator_behavior_witness :
    filter_json_object_v2 4 c1_spec_v2 false 3
        (.obj [("type", .str "Nope")])
        (.obj [("discriminator", .str "type"),
          ("x-concreteTypes", .arr [.obj [("$ref", .str "#/definitions/LeafA")]])])
        .null [] =
      (.error (.click 1 (invalid_value_msg (.str "type") (.str "Nope") ["LeafA"])), []) ∧
    filter_json_object_v2 4 c1_spec_v2 false 3
        (.obj [("type", .str "LeafA"), ("name", .str "n")])
        (.obj [("discriminator", .str "type"),
          ("x-concreteTypes", .arr [.obj [("$ref", .str "#/definitions/LeafA")]])])
        .null [] =
      after_disc_v2 c1_spec_v2 false (filter_json_object_v2 3 c1_spec_v2 false 3)
        (.obj [("type", .str "LeafA"), ("name", .str "n")])
        (.obj [("allOf", .arr [.obj [("properties",
          .obj [("type", .obj [("type", .str "string")]),
            ("name", .obj [("type", .str "string")])])]])])
        (.str "#/definitions/LeafA") [("None/type", .str "LeafA")] ∧
    filter_json_object_v3 4 c1_spec_v3 false 3
        (.obj [("type", .str "Leaf"), ("name", .str "n")])
        (.obj [("discriminator", .obj [("propertyName", .str "type")]),
          ("x-concreteTypes", .arr [.obj [("$ref", .str "#/components/schemas/Leaf")]])])
        .null [] =
      (.error (.click 1 (invalid_value_msg (.str "type") (.str "Leaf") [])), []) := by
  refine ⟨?_, ?_, ?_⟩
  · exact filter_discriminator_behavior.1 3 3 c1_spec_v2 false
      [("discriminator", .str "type"),
        ("x-concreteTypes", .arr [.obj [("$ref", .str "#/definitions/LeafA")]])]
      (.str "type") (.obj [("type", .str "Nope")]) (.str "Nope") ["LeafA"] .null []
      (by decide) (by decide) (by decide) (by decide) (by decide)
  · exact filter_discriminator_behavior.2.1 3 3 c1_spec_v2 false
      [("discriminator", .str "type"),
        ("x-concreteTypes", .arr [.obj [("$ref", .str "#/definitions/LeafA")]])]
      (.str "type") (.obj [("type", .str "LeafA"), ("name", .str "n")]) (.str "LeafA")
      ["LeafA"]
      (.obj [("allOf", .arr [.obj [("properties",
        .obj [("type", .obj [("type", .str "string")]),
          ("name", .obj [("type", .str "string")])])]])])
      .null []
      (by decide) (by decide) (by decide) (by decide) (by decide) (by decide)
  · exact filter_discriminator_behavior.2.2.1 3 3 c1_spec_v3 false
      [("discriminator", .obj [("propertyName", .str "type")]),
        ("x-concreteTypes", .arr [.obj [("$ref", .str "#/components/schemas/Leaf")]])]
      [("propertyName", .str "type")]
      (.str "type") (.obj [("type", .str "Leaf"), ("name", .str "n")]) (.str "Leaf")
      false []
      (.obj [("properties", .obj [("type", .obj [("type", .str "string")]),
        ("name", .obj [("type", .str "string")])])])
      (.obj [("properties", .obj [("type", .obj [("type", .str "string")]),
        ("name", .obj [("type", .str "string")])])])
      .null []
      (by decide) (by decide) (by decide) (by decide) (by decide) (by decide) (by decide)
      (by decide) (by decide)

/-- Is the entry's value a JSON object (a schema property declaration)? -/
def isObjEntry (kv : String × Json) : Bool :=
  match kv.2 with
  | .obj _ => true
  | _ => false

/-- Truthiness of a property declaration's `readOnly` flag. -/
def roB (pd : Json) : Bool :=
  ((pd.get? "readOnly").getD .null).truthy

/-- The claim-side inclusion condition on a data entry: its key is a
declared property and that property is not read-only. -/
def condS (props : List (String × Json)) (kv : String × Json) : Bool :=
  match lookupField props kv.1 with
  | some pd => !roB pd
  | none => false

/-- The code-side inclusion condition on a schema property entry: the key
occurs in the data and the declaration is not read-only. -/
def condC (dl : List (String × Json)) (kv : String × Json) : Bool :=
  (lookupField dl kv.1).isSome && !roB kv.2

mutual

/-- Well-formed JSON: every object in the tree has pairwise-distinct keys
(guaranteed by Python dicts after `json.loads`). -/
def json_wf : Json → Bool
  | .obj fs => nodup_keys fs && json_wf_fields fs
  | .arr l => json_wf_list l
  | _ => true

def json_wf_list : List Json → Bool
  | [] => true
  | x :: xs => json_wf x && json_wf_list xs

def json_wf_fields : List (String × Json) → Bool
  | [] => true
  | (_, v) :: rest => json_wf v && json_wf_fields rest

end

mutual

/-- Key-order-insensitive JSON equality ("exactly the key/value pairs"):
objects must have the same size and each first binding of the left object
must be matched by the binding of the same key on the right. -/
def jeq : Json → Json → Bool
  | .obj a, .obj b => (a.length == b.length) && jeqFields a b
  | .arr a, .arr b => jeqList a b
  | a, b => jsonBeq a b

def jeqList : List Json → List Json → Bool
  | [], [] => true
  | x :: xs, y :: ys => jeq x y && jeqList xs ys
  | _, _ => false

def jeqFields : List (String × Json) → List (String × Json) → Bool
  | [], _ => true
  | (k, v) :: rest, b =>
    (match lookupField b k with
     | some w => jeq v w
     | none => false) && jeqFields rest b

end

/-- Does the declaration carry a `$ref` while the data value is a nested
object?  When so, returns the reference and the nested object's fields. -/
def ref_case (pd v : Json) : Option (Json × List (String × Json)) :=
  match pd.get? "$ref", v with
  | some r, .obj dl2 => some (r, dl2)
  | _, _ => none

/-- The filtering discipline in the claim's words, one level: walk the
key/value pairs of the data object in order; drop a pair whose key is not
a declared property or whose declaration is read-only; when the
declaration carries a `$ref` and the value is a nested object, resolve the
reference (`lookupSub`) and recurse (`recf`); otherwise copy the value. -/
def spec_filter_go (lookupSub : Json → Except PErr Json)
    (recf : Json → Json → Except PErr Json) (props : List (String × Json)) :
    List (String × Json) → Except PErr (List (String × Json))
  | [] => .ok []
  | (k, v) :: rest =>
    match lookupField props k with
    | none => spec_filter_go lookupSub recf props rest
    | some pd =>
      if roB pd then spec_filter_go lookupSub recf props rest
      else
        match ref_case pd v with
        | some (r, dl2) => do
          let sub ← lookupSub r
          let fv ← recf (.obj dl2) sub
          let out ← spec_filter_go lookupSub recf props rest
          .ok ((k, fv) :: out)
        | none => do
          let out ← spec_filter_go lookupSub recf props rest
          .ok ((k, v) :: out)

/-- The claim's filter ("returns exactly the key/value pairs of O whose
keys are declared properties of S and are not marked readOnly, recursing
into a property when its declaration carries a $ref and its value in O is
a nested object"), v2 sub-schema resolution (a plain reference lookup).
Out-of-scope inputs (discriminated schema, schema without a `properties`
object, non-object data, duplicate keys, non-object property declarations)
are rejected so that the statement stays within the claim's scope. -/
def spec_filter_v2 : Nat → Json → Json → Json → Except PErr Json
  | 0, _, _, _ => .error .fuelOut
  | fuel + 1, spec, data, schema =>
    match data, schema with
    | .obj dl, .obj sl =>
      if json_wf (.obj dl) && (lookupField sl "discriminator").isNone then
        match lookupField sl "properties" with
        | some (.obj props) =>
          if nodup_keys props && props.all isObjEntry then
            match spec_filter_go (fun r => lookup spec r)
                (fun d s => spec_filter_v2 fuel spec d s) props dl with
            | .ok out => .ok (.obj out)
            | .error e => .error e
          else .error (.typeErr "property declarations out of scope")
        | _ => .error (.typeErr "schema without properties")
      else .error (.typeErr "out of scope")
    | _, _ => .error (.typeErr "out of scope")

/-- v3 resolution of a property's `$ref`: reference lookup followed by an
`allOf` merge when the target carries one (lines 1264-1270). -/
def resolve_sub_v3 (lcF : Nat) (spec r : Json) : Except PErr Json := do
  let s0 ← lookup spec r
  match ← pyIn "allOf" s0 with
  | true => merge_all lcF spec s0
  | false => pure s0

/-- The claim's filter with v3 sub-schema resolution (`allOf`-merging). -/
def spec_filter_v3 : Nat → Nat → Json → Json → Json → Except PErr Json
  | 0, _, _, _, _ => .error .fuelOut
  | fuel + 1, lcF, spec, data, schema =>
    match data, schema with
    | .obj dl, .obj sl =>
      if json_wf (.obj dl) && (lookupField sl "discriminator").isNone then
        match lookupField sl "properties" with
        | some (.obj props) =>
          if nodup_keys props && props.all isObjEntry then
            match spec_filter_go (resolve_sub_v3 lcF spec)
                (fun d s => spec_filter_v3 fuel lcF spec d s) props dl with
            | .ok out => .ok (.obj out)
            | .error e => .error e
          else .error (.typeErr "property declarations out of scope")
        | _ => .error (.typeErr "schema without properties")
      else .error (.typeErr "out of scope")
    | _, _ => .error (.typeErr "out of scope")

/-- One level of the round-trip premise: every key of the data object is a
declared, non-read-only property, and a `$ref`-declared key whose value is
an object conforms recursively to the resolved sub-schema. -/
def conforms_go (lookupSub : Json → Except PErr Json)
    (recf : Json → Json → Bool) (props : List (String × Json)) :
    List (String × Json) → Bool
  | [] => true
  | (k, v) :: rest =>
    (match lookupField props k with
     | some (.obj pdl) =>
       !roB (.obj pdl) &&
       (match ref_case (.obj pdl) v with
        | some (r, _) =>
          (match lookupSub r with
           | .ok sub => recf v sub
           | .error _ => false)
        | none => true)
     | _ => false) &&
    conforms_go lookupSub recf props rest

/-- The round-trip premise of the claim for v2: the (well-formed) data
object contains only schema-declared, non-read-only keys, recursively
through `$ref`-declared object values. -/
def conforms_v2 : Nat → Json → Json → Json → Bool
  | 0, _, _, _ => false
  | fuel + 1, spec, data, schema =>
    match data, schema with
    | .obj dl, .obj sl =>
      json_wf (.obj dl) && (lookupField sl "discriminator").isNone &&
      (match lookupField sl "properties" with
       | some (.obj props) =>
         nodup_keys props && props.all isObjEntry &&
         conforms_go (fun r => lookup spec r) (conforms_v2 fuel spec) props dl
       | _ => false)
    | _, _ => false

/-- The round-trip premise of the claim for v3. -/
def conforms_v3 : Nat → Nat → Json → Json → Json → Bool
  | 0, _, _, _, _ => false
  | fuel + 1, lcF, spec, data, schema =>
    match data, schema with
    | .obj dl, .obj sl =>
      json_wf (.obj dl) && (lookupField sl "discriminator").isNone &&
      (match lookupField sl "properties" with
       | some (.obj props) =>
         nodup_keys props && props.all isObjEntry &&
         conforms_go (resolve_sub_v3 lcF spec) (conforms_v3 fuel lcF spec) props dl
       | _ => false)
    | _, _ => false

theorem lookupField_some_mem : ∀ {l : List (String × Json)} {k : String} {v : Json},
    lookupField l k = some v → (k, v) ∈ l := by
  intro l
  induction l with
  | nil => intro k v h; simp [lookupField] at h
  | cons kv rest ih =>
    intro k v h
    obtain ⟨k0, v0⟩ := kv
    simp only [lookupField] at h
    by_cases hk : k0 = k
    · rw [if_pos hk] at h
      cases h
      subst hk
      exact List.mem_cons_self _ _
    · rw [if_neg hk] at h
      exact List.mem_cons_of_mem _ (ih h)

theorem lookupField_isSome_iff {l : List (String × Json)} {k : String} :
    (lookupField l k).isSome = true ↔ ∃ v, (k, v) ∈ l := by
  induction l with
  | nil => simp [lookupField]
  | cons kv rest ih =>
    obtain ⟨k0, v0⟩ := kv
    simp only [lookupField]
    by_cases hk : k0 = k
    · subst hk
      simp
    · rw [if_neg hk]
      rw [ih]
      constructor
      · rintro ⟨v, hv⟩
        exact ⟨v, List.mem_cons_of_mem _ hv⟩
      · rintro ⟨v, hv⟩
        rcases List.mem_cons.mp hv with h | h
        · cases h; exact absurd rfl hk
        · exact ⟨v, h⟩

theorem mem_nodup_lookupField : ∀ {l : List (String × Json)} {k : String} {v : Json},
    nodup_keys l = true → (k, v) ∈ l → lookupField l k = some v := by
  intro l
  induction l with
  | nil => intro k v _ h; simp at h
  | cons kv rest ih =>
    intro k v hnd hmem
    obtain ⟨k0, v0⟩ := kv
    simp only [nodup_keys, Bool.and_eq_true, Bool.not_eq_true'] at hnd
    obtain ⟨hany, hnd2⟩ := hnd
    rcases List.mem_cons.mp hmem with h | h
    · cases h
      simp [lookupField]
    · have hne : k0 ≠ k := by
        intro he
        subst he
        have : rest.any (fun kv2 => kv2.1 == k0) = true :=
          List.any_eq_true.mpr ⟨(k0, v), h, by simp⟩
        rw [this] at hany
        cases hany
      simp only [lookupField]
      rw [if_neg hne]
      exact ih hnd2 h

theorem lookup_ok_str {spec r s : Json} (h : lookup spec r = .ok s) :
    ∃ rs, r = Json.str rs := by
  cases r with
  | str rs => exact ⟨rs, rfl⟩
  | null => simp [lookup] at h
  | bool b => simp [lookup] at h
  | num n => simp [lookup] at h
  | arr l => simp [lookup] at h
  | obj l => simp [lookup] at h

theorem wf_nodup {dl : List (String × Json)} (h : json_wf (.obj dl) = true) :
    nodup_keys dl = true := by
  simp only [json_wf, Bool.and_eq_true] at h
  exact h.1

theorem wf_fields_mem : ∀ {dl : List (String × Json)} {k : String} {v : Json},
    json_wf_fields dl = true → (k, v) ∈ dl → json_wf v = true := by
  intro dl
  induction dl with
  | nil => intro k v _ h; simp at h
  | cons kv rest ih =>
    intro k v hwf hmem
    obtain ⟨k0, v0⟩ := kv
    simp only [json_wf_fields, Bool.and_eq_true] at hwf
    rcases List.mem_cons.mp hmem with h | h
    · cases h; exact hwf.1
    · exact ih hwf.2 h

theorem wf_mem_val {dl : List (String × Json)} {k : String} {v : Json}
    (h : json_wf (.obj dl) = true) (hmem : (k, v) ∈ dl) : json_wf v = true := by
  simp only [json_wf, Bool.and_eq_true] at h
  exact wf_fields_mem h.2 hmem

mutual

theorem jeq_refl_wf : ∀ (j : Json), json_wf j = true → jeq j j = true
  | .null, _ => rfl
  | .bool b, _ => by cases b <;> rfl
  | .num n, _ => by simp [jeq, jsonBeq]
  | .str s, _ => by simp [jeq, jsonBeq]
  | .arr l, h => by
    simp only [json_wf] at h
    simp only [jeq]
    exact jeqList_refl_wf l h
  | .obj fs, h => by
    simp only [json_wf, Bool.and_eq_true] at h
    simp only [jeq, Bool.and_eq_true, beq_iff_eq]
    exact ⟨trivial, jeqFields_refl_wf fs fs h.1 h.2 (fun k v hv => hv)⟩

theorem jeqList_refl_wf : ∀ (l : List Json), json_wf_list l = true → jeqList l l = true
  | [], _ => rfl
  | x :: xs, h => by
    simp only [json_wf_list, Bool.and_eq_true] at h
    simp only [jeqList, Bool.and_eq_true]
    exact ⟨jeq_refl_wf x h.1, jeqList_refl_wf xs h.2⟩

theorem jeqFields_refl_wf : ∀ (a b : List (String × Json)),
    nodup_keys b = true → json_wf_fields a = true →
    (∀ k v, (k, v) ∈ a → (k, v) ∈ b) → jeqFields a b = true
  | [], _, _, _, _ => rfl
  | (k, v) :: rest, b, hnd, hwf, hsub => by
    simp only [json_wf_fields, Bool.and_eq_true] at hwf
    simp only [jeqFields, Bool.and_eq_true]
    refine ⟨?_, jeqFields_refl_wf rest b hnd hwf.2
      (fun k2 v2 hv2 => hsub k2 v2 (List.mem_cons_of_mem _ hv2))⟩
    have hb : lookupField b k = some v :=
      mem_nodup_lookupField hnd (hsub k v (List.mem_cons_self _ _))
    rw [hb]
    exact jeq_refl_wf v hwf.1

end

theorem keyPathE_ok (reference : Json) (k : String)
    (h : reference = Json.null ∨ ∃ s, reference = Json.str s) :
    ∃ kp, keyPathE reference k = .ok kp := by
  rcases h with h | ⟨s, h⟩
  · subst h; exact ⟨k, rfl⟩
  · subst h
    simp only [keyPathE]
    by_cases hs : (Json.str s).truthy = true
    · rw [if_pos hs]; exact ⟨lastSegment s ++ "." ++ k, rfl⟩
    · rw [if_neg (by simpa using hs)]; exact ⟨k, rfl⟩

theorem jeq_build {X out2l : List (String × Json)}
    (hlen : X.length = out2l.length)
    (hpt : ∀ k v, (k, v) ∈ X → ∃ w, lookupField out2l k = some w ∧ jeq v w = true) :
    jeq (.obj X) (.obj out2l) = true := by
  simp only [jeq, Bool.and_eq_true, beq_iff_eq]
  refine ⟨hlen, ?_⟩
  clear hlen
  induction X with
  | nil => rfl
  | cons kv rest ih =>
    obtain ⟨k, v⟩ := kv
    simp only [jeqFields, Bool.and_eq_true]
    obtain ⟨w, hw, hjw⟩ := hpt k v (List.mem_cons_self _ _)
    refine ⟨by rw [hw]; exact hjw, ih (fun k2 v2 h2 => hpt k2 v2 (List.mem_cons_of_mem _ h2))⟩

theorem lookupField_eq_none_of_no_key : ∀ {l : List (String × Json)} {k : String},
    (l.any (fun p => p.1 == k)) = false → lookupField l k = none := by
  intro l
  induction l with
  | nil => intro k _; rfl
  | cons p ps ih =>
    intro k h
    simp only [List.any_cons, Bool.or_eq_false_iff] at h
    simp only [lookupField]
    rw [if_neg (by simpa using h.1)]
    exact ih h.2

theorem condC_irrel : ∀ (l : List (String × Json)) (k : String) (v : Json)
    (rest : List (String × Json)), (∀ p ∈ l, p.1 ≠ k) →
    l.countP (condC ((k, v) :: rest)) = l.countP (condC rest) := by
  intro l
  induction l with
  | nil => intro k v rest _; rfl
  | cons p ps ih =>
    intro k v rest h
    have hp : p.1 ≠ k := h p (List.mem_cons_self _ _)
    have hcond : condC ((k, v) :: rest) p = condC rest p := by
      simp only [condC, lookupField]
      rw [if_neg (fun he => hp he.symm)]
    simp only [List.countP_cons, hcond,
      ih k v rest (fun q hq => h q (List.mem_cons_of_mem _ hq))]

theorem countP_shift : ∀ (props : List (String × Json)) (k : String) (v : Json)
    (rest : List (String × Json)), nodup_keys props = true → lookupField rest k = none →
    props.countP (condC ((k, v) :: rest)) =
      props.countP (condC rest) +
        (match lookupField props k with
         | some pd => if roB pd then 0 else 1
         | none => 0) := by
  intro props
  induction props with
  | nil => intro k v rest _ _; rfl
  | cons p ps ih =>
    intro k v rest hnd hrk
    simp only [nodup_keys, Bool.and_eq_true, Bool.not_eq_true'] at hnd
    obtain ⟨hany, hnd2⟩ := hnd
    by_cases hpk : p.1 = k
    · have hlk : lookupField (p :: ps) k = some p.2 := by
        simp only [lookupField]
        rw [if_pos hpk]
      have hc1 : condC ((k, v) :: rest) p = !roB p.2 := by
        simp only [condC, lookupField]
        rw [if_pos hpk.symm]
        simp
      have hc2 : condC rest p = false := by
        simp only [condC]
        rw [hpk, hrk]
        simp
      have hps : ps.countP (condC ((k, v) :: rest)) = ps.countP (condC rest) := by
        refine condC_irrel ps k v rest ?_
        intro q hq he
        have : ps.any (fun kv2 => kv2.1 == p.1) = true :=
          List.any_eq_true.mpr ⟨q, hq, by simp [he, hpk]⟩
        rw [this] at hany
        cases hany
      simp only [List.countP_cons, hc1, hc2, hps, hlk]
      cases hro : roB p.2 <;> simp
    · have hlk : lookupField (p :: ps) k = lookupField ps k := by
        simp only [lookupField]
        rw [if_neg hpk]
      have hc : condC ((k, v) :: rest) p = condC rest p := by
        simp only [condC, lookupField]
        rw [if_neg (fun he => hpk he.symm)]
      simp only [List.countP_cons, hc, hlk, ih k v rest hnd2 hrk]
      omega

theorem count_main : ∀ (dl props : List (String × Json)),
    nodup_keys dl = true → nodup_keys props = true →
    dl.countP (condS props) = props.countP (condC dl) := by
  intro dl
  induction dl with
  | nil =>
    intro props _ _
    have : props.countP (condC []) = 0 := by
      refine List.countP_eq_zero.mpr ?_
      intro p _
      simp [condC, lookupField]
    simp [this]
  | cons kv rest ih =>
    intro props hnd hndp
    obtain ⟨k, v⟩ := kv
    simp only [nodup_keys, Bool.and_eq_true, Bool.not_eq_true'] at hnd
    obtain ⟨hany, hnd2⟩ := hnd
    have hrk : lookupField rest k = none := lookupField_eq_none_of_no_key hany
    rw [countP_shift props k v rest hndp hrk]
    simp only [List.countP_cons]
    rw [ih props hnd2 hndp]
    have hcond : condS props (k, v) = (match lookupField props k with
      | some pd => !roB pd
      | none => false) := rfl
    cases hpk : lookupField props k with
    | none =>
      rw [hcond, hpk]
      simp
    | some pd =>
      rw [hcond, hpk]
      cases hro : roB pd <;> simp [hro]

theorem master_fold_v2 (spec : Json) (recf : RecFilter) (reference cop : Json)
    (dl : List (String × Json)) (c : Cache) (R : String → Json → Json → Prop) :
    ∀ (props acc : List (String × Json)),
    (reference = Json.null ∨ ∃ s, reference = Json.str s) →
    nodup_keys props = true →
    (∀ kv ∈ props, ∃ pdl, kv.2 = Json.obj pdl) →
    (∀ a ∈ acc, ∀ kv ∈ props, kv.1 ≠ a.1) →
    (∀ k pdl v, (k, Json.obj pdl) ∈ props → lookupField dl k = some v →
      roB (Json.obj pdl) = false →
      ∃ w, R k v w ∧
        ((∃ r dl2 sub, lookupField pdl "$ref" = some r ∧ v = Json.obj dl2 ∧
            lookup spec r = .ok sub ∧ recf (Json.obj dl2) sub r c = (.ok w, c)) ∨
         ((lookupField pdl "$ref" = none ∨ ∀ dl2, v ≠ Json.obj dl2) ∧ w = v))) →
    ∃ out, props.foldl (loop_step_v2 spec false recf (.obj dl) reference cop) (.ok acc, c) =
        (.ok (acc ++ out), c) ∧
      out.map Prod.fst = (props.filter (condC dl)).map Prod.fst ∧
      (∀ k w, (k, w) ∈ out → ∃ v, lookupField dl k = some v ∧ R k v w) := by
  intro props
  induction props with
  | nil =>
    intro acc _ _ _ _ _
    exact ⟨[], by simp, by simp, fun k w h => absurd h (List.not_mem_nil _)⟩
  | cons kvp rest ih =>
    intro acc href hnd hpd hdisj hstep
    obtain ⟨k, pd⟩ := kvp
    obtain ⟨pdl, hpdl⟩ := hpd (k, pd) (List.mem_cons_self _ _)
    simp only at hpdl
    subst hpdl
    simp only [nodup_keys, Bool.and_eq_true, Bool.not_eq_true'] at hnd
    obtain ⟨hany, hnd2⟩ := hnd
    obtain ⟨kp, hkp⟩ := keyPathE_ok reference k href
    simp only [List.foldl_cons]
    cases hdl : lookupField dl k with
    | none =>
      have hstepeval : loop_step_v2 spec false recf (.obj dl) reference cop
          (.ok acc, c) (k, .obj pdl) = (.ok acc, c) := by
        simp [loop_step_v2, hkp, pyIn, hdl]
      rw [hstepeval]
      obtain ⟨out, hfold, hmap, hpt⟩ := ih acc href hnd2
        (fun kv hkv => hpd kv (List.mem_cons_of_mem _ hkv))
        (fun a ha kv hkv => hdisj a ha kv (List.mem_cons_of_mem _ hkv))
        (fun k2 pdl2 v2 hm hl hr => hstep k2 pdl2 v2 (List.mem_cons_of_mem _ hm) hl hr)
      refine ⟨out, hfold, ?_, hpt⟩
      have hcC : condC dl (k, Json.obj pdl) = false := by simp [condC, hdl]
      simp [List.filter_cons, hcC, hmap]
    | some v =>
      have hroeq : roB (Json.obj pdl) = ((lookupField pdl "readOnly").getD Json.null).truthy :=
        rfl
      cases hro : roB (Json.obj pdl) with
      | true =>
        have hro' : ((lookupField pdl "readOnly").getD Json.null).truthy = true := by
          rw [← hroeq]; exact hro
        have hstepeval : loop_step_v2 spec false recf (.obj dl) reference cop
            (.ok acc, c) (k, .obj pdl) = (.ok acc, c) := by
          simp [loop_step_v2, hkp, pyIn, hdl, pyDictGet, hro']
        rw [hstepeval]
        obtain ⟨out, hfold, hmap, hpt⟩ := ih acc href hnd2
          (fun kv hkv => hpd kv (List.mem_cons_of_mem _ hkv))
          (fun a ha kv hkv => hdisj a ha kv (List.mem_cons_of_mem _ hkv))
          (fun k2 pdl2 v2 hm hl hr => hstep k2 pdl2 v2 (List.mem_cons_of_mem _ hm) hl hr)
        refine ⟨out, hfold, ?_, hpt⟩
        have hcC : condC dl (k, Json.obj pdl) = false := by simp [condC, hdl, hro]
        simp [List.filter_cons, hcC, hmap]
      | false =>
        have hro' : ((lookupField pdl "readOnly").getD Json.null).truthy = false := by
          rw [← hroeq]; exact hro
        obtain ⟨w, hR, hbr⟩ := hstep k pdl v (List.mem_cons_self _ _) hdl hro
        have haccany : (acc.any fun a => a.1 == k) = false := by
          rw [List.any_eq_false]
          intro a ha
          simp only [beq_iff_eq]
          exact fun he => hdisj a ha (k, Json.obj pdl) (List.mem_cons_self _ _) he.symm
        have hins : ∃ w', R k v w' ∧ loop_step_v2 spec false recf (.obj dl) reference cop
            (.ok acc, c) (k, .obj pdl) = (.ok (pyInsert acc k w'), c) := by
          rcases hbr with ⟨r, dl2, sub, hr, hveq, hlk, hrec⟩ | ⟨hcond, hwv⟩
          · subst hveq
            refine ⟨w, hR, ?_⟩
            simp [loop_step_v2, hkp, pyIn, hdl, pyDictGet, hro', hr, pyGetItem, hlk, hrec]
          · refine ⟨v, hwv ▸ hR, ?_⟩
            rcases hcond with href0 | hnobj
            · cases v <;>
                simp [loop_step_v2, hkp, pyIn, hdl, pyDictGet, hro', href0, pyGetItem]
            · cases hrr : lookupField pdl "$ref" with
              | none =>
                cases v <;>
                  simp [loop_step_v2, hkp, pyIn, hdl, pyDictGet, hro', hrr, pyGetItem]
              | some r =>
                cases v with
                | obj dl2 => exact absurd rfl (hnobj dl2)
                | null =>
                  simp [loop_step_v2, hkp, pyIn, hdl, pyDictGet, hro', hrr, pyGetItem]
                | bool b =>
                  simp [loop_step_v2, hkp, pyIn, hdl, pyDictGet, hro', hrr, pyGetItem]
                | num n =>
                  simp [loop_step_v2, hkp, pyIn, hdl, pyDictGet, hro', hrr, pyGetItem]
                | str s =>
                  simp [loop_step_v2, hkp, pyIn, hdl, pyDictGet, hro', hrr, pyGetItem]
                | arr l =>
                  simp [loop_step_v2, hkp, pyIn, hdl, pyDictGet, hro', hrr, pyGetItem]
        obtain ⟨w', hR', hstepeval⟩ := hins
        rw [hstepeval, pyInsert_not_mem acc k w' haccany]
        obtain ⟨out, hfold, hmap, hpt⟩ := ih (acc ++ [(k, w')]) href hnd2
          (fun kv hkv => hpd kv (List.mem_cons_of_mem _ hkv))
          (fun a ha kv hkv => by
            rcases List.mem_append.mp ha with ha2 | ha2
            · exact hdisj a ha2 kv (List.mem_cons_of_mem _ hkv)
            · have : a = (k, w') := by simpa using ha2
              subst this
              intro he
              have : rest.any (fun kv2 => kv2.1 == k) = true :=
                List.any_eq_true.mpr ⟨kv, hkv, by simp [he]⟩
              rw [this] at hany
              cases hany)
          (fun k2 pdl2 v2 hm hl hr => hstep k2 pdl2 v2 (List.mem_cons_of_mem _ hm) hl hr)
        refine ⟨(k, w') :: out, ?_, ?_, ?_⟩
        · rw [hfold]
          simp
        · have hcC : condC dl (k, Json.obj pdl) = true := by simp [condC, hdl, hro]
          simp [List.filter_cons, hcC, hmap]
        · intro k2 w2 hmem
          rcases List.mem_cons.mp hmem with h2 | h2
          · cases h2
            exact ⟨v, hdl, hR'⟩
          · exact hpt k2 w2 h2

theorem master_fold_v3 (lcF : Nat) (spec : Json) (recf : RecFilter) (reference cop : Json)
    (dl : List (String × Json)) (c : Cache) (R : String → Json → Json → Prop) :
    ∀ (props acc : List (String × Json)),
    (reference = Json.null ∨ ∃ s, reference = Json.str s) →
    nodup_keys props = true →
    (∀ kv ∈ props, ∃ pdl, kv.2 = Json.obj pdl) →
    (∀ a ∈ acc, ∀ kv ∈ props, kv.1 ≠ a.1) →
    (∀ k pdl v, (k, Json.obj pdl) ∈ props → lookupField dl k = some v →
      roB (Json.obj pdl) = false →
      ∃ w, R k v w ∧
        ((∃ r dl2 sub0 hasA sub, lookupField pdl "$ref" = some r ∧ v = Json.obj dl2 ∧
            lookup spec r = .ok sub0 ∧ pyIn "allOf" sub0 = .ok hasA ∧
            (if hasA then merge_all lcF spec sub0 else .ok sub0) = .ok sub ∧
            recf (Json.obj dl2) sub r c = (.ok w, c)) ∨
         ((lookupField pdl "$ref" = none ∨ ∀ dl2, v ≠ Json.obj dl2) ∧ w = v))) →
    ∃ out, props.foldl (loop_step_v3 lcF spec false recf (.obj dl) reference cop) (.ok acc, c) =
        (.ok (acc ++ out), c) ∧
      out.map Prod.fst = (props.filter (condC dl)).map Prod.fst ∧
      (∀ k w, (k, w) ∈ out → ∃ v, lookupField dl k = some v ∧ R k v w) := by
  intro props
  induction props with
  | nil =>
    intro acc _ _ _ _ _
    exact ⟨[], by simp, by simp, fun k w h => absurd h (List.not_mem_nil _)⟩
  | cons kvp rest ih =>
    intro acc href hnd hpd hdisj hstep
    obtain ⟨k, pd⟩ := kvp
    obtain ⟨pdl, hpdl⟩ := hpd (k, pd) (List.mem_cons_self _ _)
    simp only at hpdl
    subst hpdl
    simp only [nodup_keys, Bool.and_eq_true, Bool.not_eq_true'] at hnd
    obtain ⟨hany, hnd2⟩ := hnd
    obtain ⟨kp, hkp⟩ := keyPathE_ok reference k href
    simp only [List.foldl_cons]
    cases hdl : lookupField dl k with
    | none =>
      have hstepeval : loop_step_v3 lcF spec false recf (.obj dl) reference cop
          (.ok acc, c) (k, .obj pdl) = (.ok acc, c) := by
        simp [loop_step_v3, hkp, pyIn, hdl]
      rw [hstepeval]
      obtain ⟨out, hfold, hmap, hpt⟩ := ih acc href hnd2
        (fun kv hkv => hpd kv (List.mem_cons_of_mem _ hkv))
        (fun a ha kv hkv => hdisj a ha kv (List.mem_cons_of_mem _ hkv))
        (fun k2 pdl2 v2 hm hl hr => hstep k2 pdl2 v2 (List.mem_cons_of_mem _ hm) hl hr)
      refine ⟨out, hfold, ?_, hpt⟩
      have hcC : condC dl (k, Json.obj pdl) = false := by simp [condC, hdl]
      simp [List.filter_cons, hcC, hmap]
    | some v =>
      have hroeq : roB (Json.obj pdl) = ((lookupField pdl "readOnly").getD Json.null).truthy :=
        rfl
      cases hro : roB (Json.obj pdl) with
      | true =>
        have hro' : ((lookupField pdl "readOnly").getD Json.null).truthy = true := by
          rw [← hroeq]; exact hro
        have hstepeval : loop_step_v3 lcF spec false recf (.obj dl) reference cop
            (.ok acc, c) (k, .obj pdl) = (.ok acc, c) := by
          simp [loop_step_v3, hkp, pyIn, hdl, pyDictGet, hro']
        rw [hstepeval]
        obtain ⟨out, hfold, hmap, hpt⟩ := ih acc href hnd2
          (fun kv hkv => hpd kv (List.mem_cons_of_mem _ hkv))
          (fun a ha kv hkv => hdisj a ha kv (List.mem_cons_of_mem _ hkv))
          (fun k2 pdl2 v2 hm hl hr => hstep k2 pdl2 v2 (List.mem_cons_of_mem _ hm) hl hr)
        refine ⟨out, hfold, ?_, hpt⟩
        have hcC : condC dl (k, Json.obj pdl) = false := by simp [condC, hdl, hro]
        simp [List.filter_cons, hcC, hmap]
      | false =>
        have hro' : ((lookupField pdl "readOnly").getD Json.null).truthy = false := by
          rw [← hroeq]; exact hro
        obtain ⟨w, hR, hbr⟩ := hstep k pdl v (List.mem_cons_self _ _) hdl hro
        have haccany : (acc.any fun a => a.1 == k) = false := by
          rw [List.any_eq_false]
          intro a ha
          simp only [beq_iff_eq]
          exact fun he => hdisj a ha (k, Json.obj pdl) (List.mem_cons_self _ _) he.symm
        have hins : ∃ w', R k v w' ∧ loop_step_v3 lcF spec false recf (.obj dl) reference cop
            (.ok acc, c) (k, .obj pdl) = (.ok (pyInsert acc k w'), c) := by
          rcases hbr with ⟨r, dl2, sub0, hasA, sub, hr, hveq, hlk, hallof, hmerge, hrec⟩ |
            ⟨hcond, hwv⟩
          · subst hveq
            refine ⟨w, hR, ?_⟩
            have hin1 : pyIn k (Json.obj dl) = .ok true := by simp [pyIn, hdl]
            have hin2 : pyIn "$ref" (Json.obj pdl) = .ok true := by simp [pyIn, hr]
            simp [loop_step_v3, hkp, hin1, hdl, pyDictGet, hro', hr, hin2, pyGetItem, hlk,
              hallof, hmerge, hrec]
          · refine ⟨v, hwv ▸ hR, ?_⟩
            rcases hcond with href0 | hnobj
            · cases v <;>
                simp [loop_step_v3, hkp, pyIn, hdl, pyDictGet, hro', href0, pyGetItem]
            · cases hrr : lookupField pdl "$ref" with
              | none =>
                cases v <;>
                  simp [loop_step_v3, hkp, pyIn, hdl, pyDictGet, hro', hrr, pyGetItem]
              | some r =>
                cases v with
                | obj dl2 => exact absurd rfl (hnobj dl2)
                | null =>
                  simp [loop_step_v3, hkp, pyIn, hdl, pyDictGet, hro', hrr, pyGetItem]
                | bool b =>
                  simp [loop_step_v3, hkp, pyIn, hdl, pyDictGet, hro', hrr, pyGetItem]
                | num n =>
                  simp [loop_step_v3, hkp, pyIn, hdl, pyDictGet, hro', hrr, pyGetItem]
                | str s =>
                  simp [loop_step_v3, hkp, pyIn, hdl, pyDictGet, hro', hrr, pyGetItem]
                | arr l =>
                  simp [loop_step_v3, hkp, pyIn, hdl, pyDictGet, hro', hrr, pyGetItem]
        obtain ⟨w', hR', hstepeval⟩ := hins
        rw [hstepeval, pyInsert_not_mem acc k w' haccany]
        obtain ⟨out, hfold, hmap, hpt⟩ := ih (acc ++ [(k, w')]) href hnd2
          (fun kv hkv => hpd kv (List.mem_cons_of_mem _ hkv))
          (fun a ha kv hkv => by
            rcases List.mem_append.mp ha with ha2 | ha2
            · exact hdisj a ha2 kv (List.mem_cons_of_mem _ hkv)
            · have : a = (k, w') := by simpa using ha2
              subst this
              intro he
              have : rest.any (fun kv2 => kv2.1 == k) = true :=
                List.any_eq_true.mpr ⟨kv, hkv, by simp [he]⟩
              rw [this] at hany
              cases hany)
          (fun k2 pdl2 v2 hm hl hr => hstep k2 pdl2 v2 (List.mem_cons_of_mem _ hm) hl hr)
        refine ⟨(k, w') :: out, ?_, ?_, ?_⟩
        · rw [hfold]
          simp
        · have hcC : condC dl (k, Json.obj pdl) = true := by simp [condC, hdl, hro]
          simp [List.filter_cons, hcC, hmap]
        · intro k2 w2 hmem
          rcases List.mem_cons.mp hmem with h2 | h2
          · cases h2
            exact ⟨v, hdl, hR'⟩
          · exact hpt k2 w2 h2

theorem ref_case_some_iff {pd v : Json} {r : Json} {dl2 : List (String × Json)} :
    ref_case pd v = some (r, dl2) ↔ pd.get? "$ref" = some r ∧ v = Json.obj dl2 := by
  cases hg : pd.get? "$ref" with
  | none => cases v <;> simp [ref_case, hg]
  | some r0 => cases v <;> simp [ref_case, hg]

theorem ref_case_none_iff {pd v : Json} :
    ref_case pd v = none ↔ (pd.get? "$ref" = none ∨ ∀ dl2, v ≠ Json.obj dl2) := by
  cases hg : pd.get? "$ref" with
  | none => cases v <;> simp [ref_case, hg]
  | some r0 => cases v <;> simp [ref_case, hg]

theorem go_spec (lsub : Json → Except PErr Json) (recS : Json → Json → Except PErr Json)
    (props : List (String × Json)) :
    ∀ (dl outl : List (String × Json)),
    spec_filter_go lsub recS props dl = .ok outl →
    outl.map Prod.fst = (dl.filter (condS props)).map Prod.fst ∧
    (∀ k v pd, lookupField dl k = some v → lookupField props k = some pd →
      roB pd = false →
      ∃ fv, lookupField outl k = some fv ∧
        ((∃ r dl2 sub, ref_case pd v = some (r, dl2) ∧
            lsub r = .ok sub ∧ recS (Json.obj dl2) sub = .ok fv) ∨
         (ref_case pd v = none ∧ fv = v))) := by
  intro dl
  induction dl with
  | nil =>
    intro outl hgo
    simp only [spec_filter_go] at hgo
    cases hgo
    exact ⟨rfl, fun k v pd h => by simp [lookupField] at h⟩
  | cons kv0 rest ih =>
    intro outl hgo
    obtain ⟨k0, v0⟩ := kv0
    simp only [spec_filter_go] at hgo
    rw [show lookupField props (k0, v0).1 = lookupField props k0 from rfl] at hgo
    cases hpk0 : lookupField props k0 with
    | none =>
      rw [hpk0] at hgo
      obtain ⟨hmap, hpt⟩ := ih outl hgo
      constructor
      · have hcS : condS props (k0, v0) = false := by simp [condS, hpk0]
        simp [List.filter_cons, hcS, hmap]
      · intro k v pd hdlk hpk hro
        simp only [lookupField] at hdlk
        by_cases hk : k0 = k
        · subst hk
          rw [hpk0] at hpk
          cases hpk
        · rw [if_neg hk] at hdlk
          exact hpt k v pd hdlk hpk hro
    | some pd0 =>
      simp only [hpk0] at hgo
      cases hro0 : roB pd0 with
      | true =>
        rw [if_pos hro0] at hgo
        obtain ⟨hmap, hpt⟩ := ih outl hgo
        constructor
        · have hcS : condS props (k0, v0) = false := by simp [condS, hpk0, hro0]
          simp [List.filter_cons, hcS, hmap]
        · intro k v pd hdlk hpk hro
          simp only [lookupField] at hdlk
          by_cases hk : k0 = k
          · subst hk
            rw [hpk0] at hpk
            cases hpk
            rw [hro0] at hro
            cases hro
          · rw [if_neg hk] at hdlk
            exact hpt k v pd hdlk hpk hro
      | false =>
        rw [if_neg (by simp [hro0])] at hgo
        have hcS : condS props (k0, v0) = true := by simp [condS, hpk0, hro0]
        cases hrc : ref_case pd0 v0 with
        | some rdl =>
          obtain ⟨r, dl2⟩ := rdl
          rw [hrc] at hgo
          simp only [bind] at hgo
          obtain ⟨sub, hsub, hgo⟩ := except_bind_ok.mp hgo
          obtain ⟨fv0, hrec, hgo⟩ := except_bind_ok.mp hgo
          obtain ⟨outr, hrest, hgo⟩ := except_bind_ok.mp hgo
          simp only [Except.ok.injEq] at hgo
          subst hgo
          obtain ⟨hmap, hpt⟩ := ih outr hrest
          constructor
          · simp [List.filter_cons, hcS, hmap]
          · intro k v pd hdlk hpk hro
            simp only [lookupField] at hdlk ⊢
            by_cases hk : k0 = k
            · subst hk
              rw [if_pos rfl] at hdlk ⊢
              cases hdlk
              rw [hpk0] at hpk
              cases hpk
              exact ⟨fv0, rfl, .inl ⟨r, dl2, sub, hrc, hsub, hrec⟩⟩
            · rw [if_neg hk] at hdlk ⊢
              exact hpt k v pd hdlk hpk hro
        | none =>
          rw [hrc] at hgo
          simp only [bind] at hgo
          obtain ⟨outr, hrest, hgo⟩ := except_bind_ok.mp hgo
          simp only [Except.ok.injEq] at hgo
          subst hgo
          obtain ⟨hmap, hpt⟩ := ih outr hrest
          constructor
          · simp [List.filter_cons, hcS, hmap]
          · intro k v pd hdlk hpk hro
            simp only [lookupField] at hdlk ⊢
            by_cases hk : k0 = k
            · subst hk
              rw [if_pos rfl] at hdlk ⊢
              cases hdlk
              rw [hpk0] at hpk
              cases hpk
              exact ⟨v0, rfl, .inr ⟨hrc, rfl⟩⟩
            · rw [if_neg hk] at hdlk ⊢
              exact hpt k v pd hdlk hpk hro

theorem conf_mem (lsub : Json → Except PErr Json) (recC : Json → Json → Bool)
    (props : List (String × Json)) :
    ∀ (dl : List (String × Json)), conforms_go lsub recC props dl = true →
    ∀ k v, (k, v) ∈ dl →
      ∃ pdl, lookupField props k = some (Json.obj pdl) ∧ roB (Json.obj pdl) = false ∧
        ((∃ r dl2 sub, ref_case (Json.obj pdl) v = some (r, dl2) ∧
            lsub r = .ok sub ∧ recC v sub = true) ∨
         ref_case (Json.obj pdl) v = none) := by
  intro dl
  induction dl with
  | nil => intro _ k v h; simp at h
  | cons kv0 rest ih =>
    intro hconf k v hmem
    obtain ⟨k0, v0⟩ := kv0
    simp only [conforms_go, Bool.and_eq_true] at hconf
    obtain ⟨hhead, htail⟩ := hconf
    rcases List.mem_cons.mp hmem with h | h
    · cases h
      cases hpk0 : lookupField props k with
      | none => rw [hpk0] at hhead; cases hhead
      | some pd0 =>
        rw [hpk0] at hhead
        cases pd0 with
        | obj pdl =>
          simp only [Bool.and_eq_true, Bool.not_eq_true'] at hhead
          obtain ⟨hro, hbr⟩ := hhead
          refine ⟨pdl, rfl, hro, ?_⟩
          cases hrc : ref_case (Json.obj pdl) v with
          | some rdl =>
            obtain ⟨r, dl2⟩ := rdl
            simp only [hrc] at hbr
            cases hsub : lsub r with
            | error e =>
              simp only [hsub] at hbr
              cases hbr
            | ok sub =>
              simp only [hsub] at hbr
              exact .inl ⟨r, dl2, sub, rfl, hsub, hbr⟩
          | none => exact .inr rfl
        | null => cases hhead
        | bool b => cases hhead
        | num n => cases hhead
        | str s => cases hhead
        | arr l => cases hhead
    · exact ih htail k v h

theorem resolve_sub_ok {lcF : Nat} {spec r sub : Json} :
    resolve_sub_v3 lcF spec r = .ok sub ↔
      ∃ s0 hasA, lookup spec r = .ok s0 ∧ pyIn "allOf" s0 = .ok hasA ∧
        (if hasA then merge_all lcF spec s0 else .ok s0) = .ok sub := by
  simp only [resolve_sub_v3, bind]
  constructor
  · intro h
    obtain ⟨s0, h1, h⟩ := except_bind_ok.mp h
    obtain ⟨hasA, h2, h⟩ := except_bind_ok.mp h
    refine ⟨s0, hasA, h1, h2, ?_⟩
    cases hasA
    · simpa [pure, Except.pure] using h
    · simpa using h
  · rintro ⟨s0, hasA, h1, h2, h3⟩
    rw [except_bind_ok]
    refine ⟨s0, h1, ?_⟩
    rw [except_bind_ok]
    refine ⟨hasA, h2, ?_⟩
    cases hasA
    · simpa [pure, Except.pure] using h3
    · simpa using h3

theorem any_key_congr : ∀ {l1 l2 : List (String × Json)} (k : String),
    l1.map Prod.fst = l2.map Prod.fst →
    (l1.any fun kv => kv.1 == k) = (l2.any fun kv => kv.1 == k) := by
  intro l1
  induction l1 with
  | nil =>
    intro l2 k h
    cases l2 with
    | nil => rfl
    | cons b t => simp at h
  | cons a t1 ih =>
    intro l2 k h
    cases l2 with
    | nil => simp at h
    | cons b t2 =>
      simp only [List.map_cons, List.cons.injEq] at h
      simp only [List.any_cons, h.1, ih k h.2]

theorem nodup_keys_congr : ∀ {l1 l2 : List (String × Json)},
    l1.map Prod.fst = l2.map Prod.fst → nodup_keys l1 = nodup_keys l2 := by
  intro l1
  induction l1 with
  | nil =>
    intro l2 h
    cases l2 with
    | nil => rfl
    | cons b t => simp at h
  | cons a t1 ih =>
    intro l2 h
    cases l2 with
    | nil => simp at h
    | cons b t2 =>
      simp only [List.map_cons, List.cons.injEq] at h
      simp only [nodup_keys, ih h.2, h.1, any_key_congr b.1 h.2]

theorem any_filter_false {l : List (String × Json)} {q : String × Json → Bool}
    {p : String × Json → Bool} (h : l.any q = false) : (l.filter p).any q = false := by
  rw [List.any_eq_false] at h ⊢
  intro a ha
  exact h a (List.mem_of_mem_filter ha)

theorem nodup_keys_filter : ∀ {l : List (String × Json)} (p : String × Json → Bool),
    nodup_keys l = true → nodup_keys (l.filter p) = true := by
  intro l
  induction l with
  | nil => intro p _; rfl
  | cons kv rest ih =>
    intro p h
    simp only [nodup_keys, Bool.and_eq_true, Bool.not_eq_true'] at h
    obtain ⟨hany, hrest⟩ := h
    rw [List.filter_cons]
    cases hp : p kv
    · simp only [Bool.false_eq_true, if_false]
      exact ih p hrest
    · simp only [if_true]
      simp only [nodup_keys, Bool.and_eq_true, Bool.not_eq_true']
      exact ⟨any_filter_false hany, ih p hrest⟩

theorem agree_v2 : ∀ (fuel lcF : Nat) (spec data schema reference : Json) (cache : Cache)
    (out : Json), spec_filter_v2 fuel spec data schema = .ok out →
    (reference = Json.null ∨ ∃ s, reference = Json.str s) →
    ∃ out2, filter_json_object_v2 fuel spec false lcF data schema reference cache =
      (.ok out2, cache) ∧ jeq out out2 = true := by
  intro fuel
  induction fuel with
  | zero =>
    intro lcF spec data schema reference cache out hs href
    simp [spec_filter_v2] at hs
  | succ fuel ih =>
    intro lcF spec data schema reference cache out hs href
    cases data with
    | null => simp [spec_filter_v2] at hs
    | bool b => simp [spec_filter_v2] at hs
    | num n => simp [spec_filter_v2] at hs
    | str s => simp [spec_filter_v2] at hs
    | arr l => simp [spec_filter_v2] at hs
    | obj dl =>
      cases schema with
      | null => simp [spec_filter_v2] at hs
      | bool b => simp [spec_filter_v2] at hs
      | num n => simp [spec_filter_v2] at hs
      | str s => simp [spec_filter_v2] at hs
      | arr l => simp [spec_filter_v2] at hs
      | obj sl =>
        simp only [spec_filter_v2] at hs
        cases hc : (json_wf (Json.obj dl) && (lookupField sl "discriminator").isNone) with
        | false => rw [hc] at hs; simp at hs
        | true =>
          rw [hc] at hs
          rw [if_pos rfl] at hs
          simp only [Bool.and_eq_true] at hc
          obtain ⟨hwf, hdiscN⟩ := hc
          have hdisc : lookupField sl "discriminator" = none :=
            Option.isNone_iff_eq_none.mp hdiscN
          cases hprops : lookupField sl "properties" with
          | none => simp [hprops] at hs
          | some p =>
            cases p with
            | null => simp [hprops] at hs
            | bool b => simp [hprops] at hs
            | num n => simp [hprops] at hs
            | str s => simp [hprops] at hs
            | arr l => simp [hprops] at hs
            | obj props =>
              simp only [hprops] at hs
              cases hnd : (nodup_keys props && props.all isObjEntry) with
              | false => rw [hnd] at hs; simp at hs
              | true =>
                rw [hnd] at hs
                rw [if_pos rfl] at hs
                simp only [Bool.and_eq_true] at hnd
                obtain ⟨hndp, hall⟩ := hnd
                cases hgo : spec_filter_go (fun r => lookup spec r)
                    (fun d s => spec_filter_v2 fuel spec d s) props dl with
                | error e => simp [hgo] at hs
                | ok outl =>
                  simp only [hgo, Except.ok.injEq] at hs
                  subst hs
                  obtain ⟨hmap, hpt⟩ := go_spec (fun r => lookup spec r)
                    (fun d s => spec_filter_v2 fuel spec d s) props dl outl hgo
                  have hnddl : nodup_keys dl = true := wf_nodup hwf
                  have hpdobj : ∀ kv ∈ props, ∃ pdl, kv.2 = Json.obj pdl := by
                    intro kv hkv
                    have h2 := List.all_eq_true.mp hall kv hkv
                    cases hkv2 : kv.2 with
                    | obj pdl => exact ⟨pdl, rfl⟩
                    | null => rw [isObjEntry, hkv2] at h2; cases h2
                    | bool b => rw [isObjEntry, hkv2] at h2; cases h2
                    | num n => rw [isObjEntry, hkv2] at h2; cases h2
                    | str s => rw [isObjEntry, hkv2] at h2; cases h2
                    | arr l => rw [isObjEntry, hkv2] at h2; cases h2
                  obtain ⟨out2l, hfold, hmapC, hptC⟩ := master_fold_v2 spec
                    (filter_json_object_v2 fuel spec false lcF) reference
                    ((lookupField sl "x-createOnly").getD (Json.str "")) dl cache
                    (fun k v w => ∃ fv, lookupField outl k = some fv ∧ jeq fv w = true)
                    props [] href hndp hpdobj (by simp)
                    (by
                      intro k pdl v hm hdl hro
                      have hlkp : lookupField props k = some (.obj pdl) :=
                        mem_nodup_lookupField hndp hm
                      obtain ⟨fv, hfvl, hbr⟩ := hpt k v (.obj pdl) hdl hlkp hro
                      rcases hbr with ⟨r, dl2, sub, hrcase, hsub, hrecS⟩ | ⟨hrcnone, hfveq⟩
                      · obtain ⟨hrefl, hveq⟩ := ref_case_some_iff.mp hrcase
                        have hsub2 : lookup spec r = .ok sub := hsub
                        obtain ⟨w, hfw, hjeq⟩ := ih lcF spec (Json.obj dl2) sub r cache fv
                          hrecS (.inr (lookup_ok_str hsub2))
                        exact ⟨w, ⟨fv, hfvl, hjeq⟩,
                          .inl ⟨r, dl2, sub, hrefl, hveq, hsub2, hfw⟩⟩
                      · have hwfv : json_wf v = true :=
                          wf_mem_val hwf (lookupField_some_mem hdl)
                        exact ⟨v, ⟨fv, hfvl, by rw [hfveq]; exact jeq_refl_wf v hwfv⟩,
                          .inr ⟨ref_case_none_iff.mp hrcnone, rfl⟩⟩)
                  rw [List.nil_append] at hfold
                  have hsl : (Json.obj sl).truthy = true := by
                    cases sl with
                    | nil => simp [lookupField] at hprops
                    | cons a t => simp [Json.truthy]
                  have hin : pyIn "properties" (Json.obj sl) = .ok true := by
                    simp [pyIn, hprops]
                  have hafter : after_disc_v2 spec false
                      (filter_json_object_v2 fuel spec false lcF) (.obj dl) (.obj sl)
                      reference cache = (.ok (.obj out2l), cache) := by
                    have hget : pyGetItem (Json.obj sl) "properties" = .ok (.obj props) := by
                      simp [pyGetItem, hprops]
                    simp [after_disc_v2, hsl, hin, pyDictGetD, hget, hfold]
                  have hpy : pyIn "discriminator" (Json.obj sl) = .ok false := by
                    simp [pyIn, hdisc]
                  have hfilter : filter_json_object_v2 (fuel + 1) spec false lcF (.obj dl)
                      (.obj sl) reference cache = (.ok (.obj out2l), cache) := by
                    simp only [filter_json_object_v2, hpy]
                    exact hafter
                  refine ⟨.obj out2l, hfilter, ?_⟩
                  have hnodout : nodup_keys outl = true := by
                    rw [nodup_keys_congr hmap]
                    exact nodup_keys_filter _ hnddl
                  have hnodout2 : nodup_keys out2l = true := by
                    rw [nodup_keys_congr hmapC]
                    exact nodup_keys_filter _ hndp
                  have hlen : outl.length = out2l.length := by
                    have h1 := congrArg List.length hmap
                    have h2 := congrArg List.length hmapC
                    simp only [List.length_map] at h1 h2
                    have h3 := count_main dl props hnddl hndp
                    rw [List.countP_eq_length_filter, List.countP_eq_length_filter] at h3
                    omega
                  refine jeq_build hlen ?_
                  intro k fv2 hmem
                  have hkout : k ∈ outl.map Prod.fst := List.mem_map.mpr ⟨(k, fv2), hmem, rfl⟩
                  rw [hmap] at hkout
                  obtain ⟨⟨k1, v⟩, hmemf, hkeq⟩ := List.mem_map.mp hkout
                  simp only at hkeq
                  symm at hkeq
                  subst hkeq
                  obtain ⟨hmdl, hcS⟩ := List.mem_filter.mp hmemf
                  cases hpk : lookupField props k with
                  | none => exact absurd hcS (by simp [condS, hpk])
                  | some pd =>
                    simp only [condS, hpk, Bool.not_eq_true'] at hcS
                    have hro2 : roB pd = false := hcS
                    have hkc : k ∈ (props.filter (condC dl)).map Prod.fst := by
                      refine List.mem_map.mpr ⟨(k, pd), List.mem_filter.mpr
                        ⟨lookupField_some_mem hpk, ?_⟩, rfl⟩
                      simp only [condC, Bool.and_eq_true, Bool.not_eq_true']
                      exact ⟨lookupField_isSome_iff.mpr ⟨v, hmdl⟩, hro2⟩
                    rw [← hmapC] at hkc
                    obtain ⟨⟨k2, w⟩, hmemw, hkeq2⟩ := List.mem_map.mp hkc
                    simp only at hkeq2
                    symm at hkeq2
                    subst hkeq2
                    obtain ⟨v', hdl', ⟨fv', hfvl', hjw⟩⟩ := hptC k w hmemw
                    have hl2 : lookupField outl k = some fv2 :=
                      mem_nodup_lookupField hnodout hmem
                    rw [hl2] at hfvl'
                    cases hfvl'
                    exact ⟨w, mem_nodup_lookupField hnodout2 hmemw, hjw⟩

theorem round_v2 : ∀ (fuel lcF : Nat) (spec data schema reference : Json) (cache : Cache),
    conforms_v2 fuel spec data schema = true →
    (reference = Json.null ∨ ∃ s, reference = Json.str s) →
    ∃ out2, filter_json_object_v2 fuel spec false lcF data schema reference cache =
      (.ok out2, cache) ∧ jeq data out2 = true := by
  intro fuel
  induction fuel with
  | zero =>
    intro lcF spec data schema reference cache hs href
    simp [conforms_v2] at hs
  | succ fuel ih =>
    intro lcF spec data schema reference cache hs href
    cases data with
    | null => simp [conforms_v2] at hs
    | bool b => simp [conforms_v2] at hs
    | num n => simp [conforms_v2] at hs
    | str s => simp [conforms_v2] at hs
    | arr l => simp [conforms_v2] at hs
    | obj dl =>
      cases schema with
      | null => simp [conforms_v2] at hs
      | bool b => simp [conforms_v2] at hs
      | num n => simp [conforms_v2] at hs
      | str s => simp [conforms_v2] at hs
      | arr l => simp [conforms_v2] at hs
      | obj sl =>
        simp only [conforms_v2, Bool.and_eq_true] at hs
        obtain ⟨⟨hwf, hdiscN⟩, hmatch⟩ := hs
        have hdisc : lookupField sl "discriminator" = none :=
          Option.isNone_iff_eq_none.mp hdiscN
        cases hprops : lookupField sl "properties" with
        | none => rw [hprops] at hmatch; cases hmatch
        | some p =>
          cases p with
          | null => rw [hprops] at hmatch; cases hmatch
          | bool b => rw [hprops] at hmatch; cases hmatch
          | num n => rw [hprops] at hmatch; cases hmatch
          | str s => rw [hprops] at hmatch; cases hmatch
          | arr l => rw [hprops] at hmatch; cases hmatch
          | obj props =>
            rw [hprops] at hmatch
            simp only [Bool.and_eq_true] at hmatch
            obtain ⟨⟨hndp, hall⟩, hconf⟩ := hmatch
            have hnddl : nodup_keys dl = true := wf_nodup hwf
            have hpdobj : ∀ kv ∈ props, ∃ pdl, kv.2 = Json.obj pdl := by
              intro kv hkv
              have h2 := List.all_eq_true.mp hall kv hkv
              cases hkv2 : kv.2 with
              | obj pdl => exact ⟨pdl, rfl⟩
              | null => rw [isObjEntry, hkv2] at h2; cases h2
              | bool b => rw [isObjEntry, hkv2] at h2; cases h2
              | num n => rw [isObjEntry, hkv2] at h2; cases h2
              | str s => rw [isObjEntry, hkv2] at h2; cases h2
              | arr l => rw [isObjEntry, hkv2] at h2; cases h2
            have hcm := conf_mem (fun r => lookup spec r) (conforms_v2 fuel spec) props dl hconf
            obtain ⟨out2l, hfold, hmapC, hptC⟩ := master_fold_v2 spec
              (filter_json_object_v2 fuel spec false lcF) reference
              ((lookupField sl "x-createOnly").getD (Json.str "")) dl cache
              (fun _ v w => jeq v w = true)
              props [] href hndp hpdobj (by simp)
              (by
                intro k pdl v hm hdl hro
                obtain ⟨pdl2, hlkp2, hro2, hbr⟩ := hcm k v (lookupField_some_mem hdl)
                have hlkp : lookupField props k = some (.obj pdl) :=
                  mem_nodup_lookupField hndp hm
                rw [hlkp] at hlkp2
                cases hlkp2
                rcases hbr with ⟨r, dl2, sub, hrc, hsub, hrecC⟩ | hrcnone
                · obtain ⟨hrefl, hveq⟩ := ref_case_some_iff.mp hrc
                  have hsub2 : lookup spec r = .ok sub := hsub
                  obtain ⟨w, hfw, hjeq⟩ := ih lcF spec v sub r cache hrecC
                    (.inr (lookup_ok_str hsub2))
                  subst hveq
                  exact ⟨w, hjeq, .inl ⟨r, dl2, sub, hrefl, rfl, hsub2, hfw⟩⟩
                · have hwfv : json_wf v = true :=
                    wf_mem_val hwf (lookupField_some_mem hdl)
                  exact ⟨v, jeq_refl_wf v hwfv,
                    .inr ⟨ref_case_none_iff.mp hrcnone, rfl⟩⟩)
            rw [List.nil_append] at hfold
            have hsl : (Json.obj sl).truthy = true := by
              cases sl with
              | nil => simp [lookupField] at hprops
              | cons a t => simp [Json.truthy]
            have hin : pyIn "properties" (Json.obj sl) = .ok true := by
              simp [pyIn, hprops]
            have hafter : after_disc_v2 spec false
                (filter_json_object_v2 fuel spec false lcF) (.obj dl) (.obj sl)
                reference cache = (.ok (.obj out2l), cache) := by
              have hget : pyGetItem (Json.obj sl) "properties" = .ok (.obj props) := by
                simp [pyGetItem, hprops]
              simp [after_disc_v2, hsl, hin, pyDictGetD, hget, hfold]
            have hpy : pyIn "discriminator" (Json.obj sl) = .ok false := by
              simp [pyIn, hdisc]
            have hfilter : filter_json_object_v2 (fuel + 1) spec false lcF (.obj dl)
                (.obj sl) reference cache = (.ok (.obj out2l), cache) := by
              simp only [filter_json_object_v2, hpy]
              exact hafter
            refine ⟨.obj out2l, hfilter, ?_⟩
            have hnodout2 : nodup_keys out2l = true := by
              rw [nodup_keys_congr hmapC]
              exact nodup_keys_filter _ hndp
            have hfS : dl.filter (condS props) = dl := by
              refine List.filter_eq_self.mpr ?_
              intro kv hkv
              obtain ⟨k0, v0⟩ := kv
              obtain ⟨pdl2, hlkp2, hro2, _⟩ := hcm k0 v0 hkv
              simp [condS, hlkp2, hro2]
            have hlen : dl.length = out2l.length := by
              have h2 := congrArg List.length hmapC
              simp only [List.length_map] at h2
              have h3 := count_main dl props hnddl hndp
              rw [List.countP_eq_length_filter, List.countP_eq_length_filter, hfS] at h3
              omega
            refine jeq_build hlen ?_
            intro k v hmem
            obtain ⟨pdl2, hlkp2, hro2, _⟩ := hcm k v hmem
            have hkc : k ∈ (props.filter (condC dl)).map Prod.fst := by
              refine List.mem_map.mpr ⟨(k, .obj pdl2), List.mem_filter.mpr
                ⟨lookupField_some_mem hlkp2, ?_⟩, rfl⟩
              simp only [condC, Bool.and_eq_true, Bool.not_eq_true']
              exact ⟨lookupField_isSome_iff.mpr ⟨v, hmem⟩, hro2⟩
            rw [← hmapC] at hkc
            obtain ⟨⟨k2, w⟩, hmemw, hkeq2⟩ := List.mem_map.mp hkc
            simp only at hkeq2
            symm at hkeq2
            subst hkeq2
            obtain ⟨v', hdl', hjw⟩ := hptC k w hmemw
            have hl2 : lookupField dl k = some v := mem_nodup_lookupField hnddl hmem
            rw [hl2] at hdl'
            cases hdl'
            exact ⟨w, mem_nodup_lookupField hnodout2 hmemw, hjw⟩

theorem agree_v3 : ∀ (fuel lcF : Nat) (spec data schema reference : Json) (cache : Cache)
    (out : Json), spec_filter_v3 fuel lcF spec data schema = .ok out →
    (reference = Json.null ∨ ∃ s, reference = Json.str s) →
    ∃ out2, filter_json_object_v3 fuel spec false lcF data schema reference cache =
      (.ok out2, cache) ∧ jeq out out2 = true := by
  intro fuel
  induction fuel with
  | zero =>
    intro lcF spec data schema reference cache out hs href
    simp [spec_filter_v3] at hs
  | succ fuel ih =>
    intro lcF spec data schema reference cache out hs href
    cases data with
    | null => simp [spec_filter_v3] at hs
    | bool b => simp [spec_filter_v3] at hs
    | num n => simp [spec_filter_v3] at hs
    | str s => simp [spec_filter_v3] at hs
    | arr l => simp [spec_filter_v3] at hs
    | obj dl =>
      cases schema with
      | null => simp [spec_filter_v3] at hs
      | bool b => simp [spec_filter_v3] at hs
      | num n => simp [spec_filter_v3] at hs
      | str s => simp [spec_filter_v3] at hs
      | arr l => simp [spec_filter_v3] at hs
      | obj sl =>
        simp only [spec_filter_v3] at hs
        cases hc : (json_wf (Json.obj dl) && (lookupField sl "discriminator").isNone) with
        | false => rw [hc] at hs; simp at hs
        | true =>
          rw [hc] at hs
          rw [if_pos rfl] at hs
          simp only [Bool.and_eq_true] at hc
          obtain ⟨hwf, hdiscN⟩ := hc
          have hdisc : lookupField sl "discriminator" = none :=
            Option.isNone_iff_eq_none.mp hdiscN
          cases hprops : lookupField sl "properties" with
          | none => simp [hprops] at hs
          | some p =>
            cases p with
            | null => simp [hprops] at hs
            | bool b => simp [hprops] at hs
            | num n => simp [hprops] at hs
            | str s => simp [hprops] at hs
            | arr l => simp [hprops] at hs
            | obj props =>
              simp only [hprops] at hs
              cases hnd : (nodup_keys props && props.all isObjEntry) with
              | false => rw [hnd] at hs; simp at hs
              | true =>
                rw [hnd] at hs
                rw [if_pos rfl] at hs
                simp only [Bool.and_eq_true] at hnd
                obtain ⟨hndp, hall⟩ := hnd
                cases hgo : spec_filter_go (resolve_sub_v3 lcF spec)
                    (fun d s => spec_filter_v3 fuel lcF spec d s) props dl with
                | error e => simp [hgo] at hs
                | ok outl =>
                  simp only [hgo, Except.ok.injEq] at hs
                  subst hs
                  obtain ⟨hmap, hpt⟩ := go_spec (resolve_sub_v3 lcF spec)
                    (fun d s => spec_filter_v3 fuel lcF spec d s) props dl outl hgo
                  have hnddl : nodup_keys dl = true := wf_nodup hwf
                  have hpdobj : ∀ kv ∈ props, ∃ pdl, kv.2 = Json.obj pdl := by
                    intro kv hkv
                    have h2 := List.all_eq_true.mp hall kv hkv
                    cases hkv2 : kv.2 with
                    | obj pdl => exact ⟨pdl, rfl⟩
                    | null => rw [isObjEntry, hkv2] at h2; cases h2
                    | bool b => rw [isObjEntry, hkv2] at h2; cases h2
                    | num n => rw [isObjEntry, hkv2] at h2; cases h2
                    | str s => rw [isObjEntry, hkv2] at h2; cases h2
                    | arr l => rw [isObjEntry, hkv2] at h2; cases h2
                  obtain ⟨out2l, hfold, hmapC, hptC⟩ := master_fold_v3 lcF spec
                    (filter_json_object_v3 fuel spec false lcF) reference
                    ((lookupField sl "x-createOnly").getD (Json.str "")) dl cache
                    (fun k v w => ∃ fv, lookupField outl k = some fv ∧ jeq fv w = true)
                    props [] href hndp hpdobj (by simp)
                    (by
                      intro k pdl v hm hdl hro
                      have hlkp : lookupField props k = some (.obj pdl) :=
                        mem_nodup_lookupField hndp hm
                      obtain ⟨fv, hfvl, hbr⟩ := hpt k v (.obj pdl) hdl hlkp hro
                      rcases hbr with ⟨r, dl2, sub, hrcase, hsub, hrecS⟩ | ⟨hrcnone, hfveq⟩
                      · obtain ⟨hrefl, hveq⟩ := ref_case_some_iff.mp hrcase
                        have hsub2 : resolve_sub_v3 lcF spec r = .ok sub := hsub
                        obtain ⟨s0, hasA, h1, h2, h3⟩ := resolve_sub_ok.mp hsub2
                        obtain ⟨w, hfw, hjeq⟩ := ih lcF spec (Json.obj dl2) sub r cache fv
                          hrecS (.inr (lookup_ok_str h1))
                        exact ⟨w, ⟨fv, hfvl, hjeq⟩,
                          .inl ⟨r, dl2, s0, hasA, sub, hrefl, hveq, h1, h2, h3, hfw⟩⟩
                      · have hwfv : json_wf v = true :=
                          wf_mem_val hwf (lookupField_some_mem hdl)
                        exact ⟨v, ⟨fv, hfvl, by rw [hfveq]; exact jeq_refl_wf v hwfv⟩,
                          .inr ⟨ref_case_none_iff.mp hrcnone, rfl⟩⟩)
                  rw [List.nil_append] at hfold
                  have hsl : (Json.obj sl).truthy = true := by
                    cases sl with
                    | nil => simp [lookupField] at hprops
                    | cons a t => simp [Json.truthy]
                  have hin : pyIn "properties" (Json.obj sl) = .ok true := by
                    simp [pyIn, hprops]
                  have hafter : after_disc_v3 lcF spec false
                      (filter_json_object_v3 fuel spec false lcF) (.obj dl) (.obj sl)
                      reference cache = (.ok (.obj out2l), cache) := by
                    have hget : pyGetItem (Json.obj sl) "properties" = .ok (.obj props) := by
                      simp [pyGetItem, hprops]
                    simp [after_disc_v3, hsl, hin, pyDictGetD, hget, hfold]
                  have hpy : pyIn "discriminator" (Json.obj sl) = .ok false := by
                    simp [pyIn, hdisc]
                  have hfilter : filter_json_object_v3 (fuel + 1) spec false lcF (.obj dl)
                      (.obj sl) reference cache = (.ok (.obj out2l), cache) := by
                    simp only [filter_json_object_v3, hpy]
                    exact hafter
                  refine ⟨.obj out2l, hfilter, ?_⟩
                  have hnodout : nodup_keys outl = true := by
                    rw [nodup_keys_congr hmap]
                    exact nodup_keys_filter _ hnddl
                  have hnodout2 : nodup_keys out2l = true := by
                    rw [nodup_keys_congr hmapC]
                    exact nodup_keys_filter _ hndp
                  have hlen : outl.length = out2l.length := by
                    have h1 := congrArg List.length hmap
                    have h2 := congrArg List.length hmapC
                    simp only [List.length_map] at h1 h2
                    have h3 := count_main dl props hnddl hndp
                    rw [List.countP_eq_length_filter, List.countP_eq_length_filter] at h3
                    omega
                  refine jeq_build hlen ?_
                  intro k fv2 hmem
                  have hkout : k ∈ outl.map Prod.fst := List.mem_map.mpr ⟨(k, fv2), hmem, rfl⟩
                  rw [hmap] at hkout
                  obtain ⟨⟨k1, v⟩, hmemf, hkeq⟩ := List.mem_map.mp hkout
                  simp only at hkeq
                  symm at hkeq
                  subst hkeq
                  obtain ⟨hmdl, hcS⟩ := List.mem_filter.mp hmemf
                  cases hpk : lookupField props k with
                  | none => exact absurd hcS (by simp [condS, hpk])
                  | some pd =>
                    simp only [condS, hpk, Bool.not_eq_true'] at hcS
                    have hro2 : roB pd = false := hcS
                    have hkc : k ∈ (props.filter (condC dl)).map Prod.fst := by
                      refine List.mem_map.mpr ⟨(k, pd), List.mem_filter.mpr
                        ⟨lookupField_some_mem hpk, ?_⟩, rfl⟩
                      simp only [condC, Bool.and_eq_true, Bool.not_eq_true']
                      exact ⟨lookupField_isSome_iff.mpr ⟨v, hmdl⟩, hro2⟩
                    rw [← hmapC] at hkc
                    obtain ⟨⟨k2, w⟩, hmemw, hkeq2⟩ := List.mem_map.mp hkc
                    simp only at hkeq2
                    symm at hkeq2
                    subst hkeq2
                    obtain ⟨v', hdl', ⟨fv', hfvl', hjw⟩⟩ := hptC k w hmemw
                    have hl2 : lookupField outl k = some fv2 :=
                      mem_nodup_lookupField hnodout hmem
                    rw [hl2] at hfvl'
                    cases hfvl'
                    exact ⟨w, mem_nodup_lookupField hnodout2 hmemw, hjw⟩

theorem round_v3 : ∀ (fuel lcF : Nat) (spec data schema reference : Json) (cache : Cache),
    conforms_v3 fuel lcF spec data schema = true →
    (reference = Json.null ∨ ∃ s, reference = Json.str s) →
    ∃ out2, filter_json_object_v3 fuel spec false lcF data schema reference cache =
      (.ok out2, cache) ∧ jeq data out2 = true := by
  intro fuel
  induction fuel with
  | zero =>
    intro lcF spec data schema reference cache hs href
    simp [conforms_v3] at hs
  | succ fuel ih =>
    intro lcF spec data schema reference cache hs href
    cases data with
    | null => simp [conforms_v3] at hs
    | bool b => simp [conforms_v3] at hs
    | num n => simp [conforms_v3] at hs
    | str s => simp [conforms_v3] at hs
    | arr l => simp [conforms_v3] at hs
    | obj dl =>
      cases schema with
      | null => simp [conforms_v3] at hs
      | bool b => simp [conforms_v3] at hs
      | num n => simp [conforms_v3] at hs
      | str s => simp [conforms_v3] at hs
      | arr l => simp [conforms_v3] at hs
      | obj sl =>
        simp only [conforms_v3, Bool.and_eq_true] at hs
        obtain ⟨⟨hwf, hdiscN⟩, hmatch⟩ := hs
        have hdisc : lookupField sl "discriminator" = none :=
          Option.isNone_iff_eq_none.mp hdiscN
        cases hprops : lookupField sl "properties" with
        | none => rw [hprops] at hmatch; cases hmatch
        | some p =>
          cases p with
          | null => rw [hprops] at hmatch; cases hmatch
          | bool b => rw [hprops] at hmatch; cases hmatch
          | num n => rw [hprops] at hmatch; cases hmatch
          | str s => rw [hprops] at hmatch; cases hmatch
          | arr l => rw [hprops] at hmatch; cases hmatch
          | obj props =>
            rw [hprops] at hmatch
            simp only [Bool.and_eq_true] at hmatch
            obtain ⟨⟨hndp, hall⟩, hconf⟩ := hmatch
            have hnddl : nodup_keys dl = true := wf_nodup hwf
            have hpdobj : ∀ kv ∈ props, ∃ pdl, kv.2 = Json.obj pdl := by
              intro kv hkv
              have h2 := List.all_eq_true.mp hall kv hkv
              cases hkv2 : kv.2 with
              | obj pdl => exact ⟨pdl, rfl⟩
              | null => rw [isObjEntry, hkv2] at h2; cases h2
              | bool b => rw [isObjEntry, hkv2] at h2; cases h2
              | num n => rw [isObjEntry, hkv2] at h2; cases h2
              | str s => rw [isObjEntry, hkv2] at h2; cases h2
              | arr l => rw [isObjEntry, hkv2] at h2; cases h2
            have hcm := conf_mem (resolve_sub_v3 lcF spec) (conforms_v3 fuel lcF spec)
              props dl hconf
            obtain ⟨out2l, hfold, hmapC, hptC⟩ := master_fold_v3 lcF spec
              (filter_json_object_v3 fuel spec false lcF) reference
              ((lookupField sl "x-createOnly").getD (Json.str "")) dl cache
              (fun _ v w => jeq v w = true)
              props [] href hndp hpdobj (by simp)
              (by
                intro k pdl v hm hdl hro
                obtain ⟨pdl2, hlkp2, hro2, hbr⟩ := hcm k v (lookupField_some_mem hdl)
                have hlkp : lookupField props k = some (.obj pdl) :=
                  mem_nodup_lookupField hndp hm
                rw [hlkp] at hlkp2
                cases hlkp2
                rcases hbr with ⟨r, dl2, sub, hrc, hsub, hrecC⟩ | hrcnone
                · obtain ⟨hrefl, hveq⟩ := ref_case_some_iff.mp hrc
                  have hsub2 : resolve_sub_v3 lcF spec r = .ok sub := hsub
                  obtain ⟨s0, hasA, h1, h2, h3⟩ := resolve_sub_ok.mp hsub2
                  obtain ⟨w, hfw, hjeq⟩ := ih lcF spec v sub r cache hrecC
                    (.inr (lookup_ok_str h1))
                  subst hveq
                  exact ⟨w, hjeq, .inl ⟨r, dl2, s0, hasA, sub, hrefl, rfl, h1, h2, h3, hfw⟩⟩
                · have hwfv : json_wf v = true :=
                    wf_mem_val hwf (lookupField_some_mem hdl)
                  exact ⟨v, jeq_refl_wf v hwfv,
                    .inr ⟨ref_case_none_iff.mp hrcnone, rfl⟩⟩)
            rw [List.nil_append] at hfold
            have hsl : (Json.obj sl).truthy = true := by
              cases sl with
              | nil => simp [lookupField] at hprops
              | cons a t => simp [Json.truthy]
            have hin : pyIn "properties" (Json.obj sl) = .ok true := by
              simp [pyIn, hprops]
            have hafter : after_disc_v3 lcF spec false
                (filter_json_object_v3 fuel spec false lcF) (.obj dl) (.obj sl)
                reference cache = (.ok (.obj out2l), cache) := by
              have hget : pyGetItem (Json.obj sl) "properties" = .ok (.obj props) := by
                simp [pyGetItem, hprops]
              simp [after_disc_v3, hsl, hin, pyDictGetD, hget, hfold]
            have hpy : pyIn "discriminator" (Json.obj sl) = .ok false := by
              simp [pyIn, hdisc]
            have hfilter : filter_json_object_v3 (fuel + 1) spec false lcF (.obj dl)
                (.obj sl) reference cache = (.ok (.obj out2l), cache) := by
              simp only [filter_json_object_v3, hpy]
              exact hafter
            refine ⟨.obj out2l, hfilter, ?_⟩
            have hnodout2 : nodup_keys out2l = true := by
              rw [nodup_keys_congr hmapC]
              exact nodup_keys_filter _ hndp
            have hfS : dl.filter (condS props) = dl := by
              refine List.filter_eq_self.mpr ?_
              intro kv hkv
              obtain ⟨k0, v0⟩ := kv
              obtain ⟨pdl2, hlkp2, hro2, _⟩ := hcm k0 v0 hkv
              simp [condS, hlkp2, hro2]
            have hlen : dl.length = out2l.length := by
              have h2 := congrArg List.length hmapC
              simp only [List.length_map] at h2
              have h3 := count_main dl props hnddl hndp
              rw [List.countP_eq_length_filter, List.countP_eq_length_filter, hfS] at h3
              omega
            refine jeq_build hlen ?_
            intro k v hmem
            obtain ⟨pdl2, hlkp2, hro2, _⟩ := hcm k v hmem
            have hkc : k ∈ (props.filter (condC dl)).map Prod.fst := by
              refine List.mem_map.mpr ⟨(k, .obj pdl2), List.mem_filter.mpr
                ⟨lookupField_some_mem hlkp2, ?_⟩, rfl⟩
              simp only [condC, Bool.and_eq_true, Bool.not_eq_true']
              exact ⟨lookupField_isSome_iff.mpr ⟨v, hmem⟩, hro2⟩
            rw [← hmapC] at hkc
            obtain ⟨⟨k2, w⟩, hmemw, hkeq2⟩ := List.mem_map.mp hkc
            simp only at hkeq2
            symm at hkeq2
            subst hkeq2
            obtain ⟨v', hdl', hjw⟩ := hptC k w hmemw
            have hl2 : lookupField dl k = some v := mem_nodup_lookupField hnddl hmem
            rw [hl2] at hdl'
            cases hdl'
            exact ⟨w, mem_nodup_lookupField hnodout2 hmemw, hjw⟩

/-- A v2 specification for exercising the property filter: one plain
definition with one property. -/
def c2_spec_v2 : Json :=
  .obj [("definitions", .obj [("Child", .obj [("properties",
    .obj [("a", .obj [("type", .str "string")])])])])]

/-- The v3 variant of `c2_spec_v2`. -/
def c2_spec_v3 : Json :=
  .obj [("components", .obj [("schemas", .obj [("Child", .obj [("properties",
    .obj [("a", .obj [("type", .str "string")])])])])])]

/-- A schema with a plain, a read-only and a `$ref` property. -/
def c2_schema (childRef : String) : Json :=
  .obj [("properties", .obj [
    ("name", .obj [("type", .str "string")]),
    ("secret", .obj [("readOnly", .bool true)]),
    ("child", .obj [("$ref", .str childRef)])])]

/-- Data with an unknown key, a read-only key and a nested `$ref` object. -/
def c2_data : Json :=
  .obj [("name", .str "n"), ("unknown", .num 5), ("secret", .str "s"),
    ("child", .obj [("a", .str "x")])]

/-- The filtered image of `c2_data`: the unknown and read-only keys
dropped, the nested object filtered recursively. -/
def c2_out : Json :=
  .obj [("name", .str "n"), ("child", .obj [("a", .str "x")])]

/-- C2: for a well-formed JSON object and a resolved non-discriminated
schema with properties, `filter_json_object` (with
`filter_createonly = false`) returns — up to key order and with the cache
untouched — exactly the claim's filter `spec_filter`: the key/value pairs
of the data whose keys are declared, non-read-only properties, recursing
into a property whose declaration carries a `$ref` when its value is a
nested object (v2 resolves the reference directly, v3 `allOf`-merges the
target); consequently an object conforming to the schema
(`conforms_v2`/`conforms_v3`) round-trips: the filtered result is
key-order-insensitively equal to the input. -/
theorem filter_properties_exact_roundtrip :
    (∀ (fuel lcF : Nat) (spec data schema reference : Json) (cache : Cache) (out : Json),
      spec_filter_v2 fuel spec data schema = .ok out →
      (reference = Json.null ∨ ∃ s, reference = Json.str s) →
      ∃ out2, filter_json_object_v2 fuel spec false lcF data schema reference cache =
        (.ok out2, cache) ∧ jeq out out2 = true) ∧
    (∀ (fuel lcF : Nat) (spec data schema reference : Json) (cache : Cache),
      conforms_v2 fuel spec data schema = true →
      (reference = Json.null ∨ ∃ s, reference = Json.str s) →
      ∃ out2, filter_json_object_v2 fuel spec false lcF data schema reference cache =
        (.ok out2, cache) ∧ jeq data out2 = true) ∧
    (∀ (fuel lcF : Nat) (spec data schema reference : Json) (cache : Cache) (out : Json),
      spec_filter_v3 fuel lcF spec data schema = .ok out →
      (reference = Json.null ∨ ∃ s, reference = Json.str s) →
      ∃ out2, filter_json_object_v3 fuel spec false lcF data schema reference cache =
        (.ok out2, cache) ∧ jeq out out2 = true) ∧
    (∀ (fuel lcF : Nat) (spec data schema reference : Json) (cache : Cache),
      conforms_v3 fuel lcF spec data schema = true →
      (reference = Json.null ∨ ∃ s, reference = Json.str s) →
      ∃ out2, filter_json_object_v3 fuel spec false lcF data schema reference cache =
        (.ok out2, cache) ∧ jeq data out2 = true) :=
  ⟨agree_v2, round_v2, agree_v3, round_v3⟩

/-- C2 witness: the filter applied to concrete data with an unknown key,
a read-only key and a `$ref`-nested object, in both versions, plus the
round-trip on the conforming image. -/
theorem filter_properties_exact_roundtrip_witness :
    (∃ out2, filter_json_object_v2 3 c2_spec_v2 false 3 c2_data
        (c2_schema "#/definitions/Child") .null [] = (.ok out2, []) ∧
      jeq c2_out out2 = true) ∧
    (∃ out2, filter_json_object_v2 3 c2_spec_v2 false 3 c2_out
        (c2_schema "#/definitions/Child") .null [] = (.ok out2, []) ∧
      jeq c2_out out2 = true) ∧
    (∃ out2, filter_json_object_v3 3 c2_spec_v3 false 3 c2_data
        (c2_schema "#/components/schemas/Child") .null [] = (.ok out2, []) ∧
      jeq c2_out out2 = true) ∧
    (∃ out2, filter_json_object_v3 3 c2_spec_v3 false 3 c2_out
        (c2_schema "#/components/schemas/Child") .null [] = (.ok out2, []) ∧
      jeq c2_out out2 = true) :=
  ⟨filter_properties_exact_roundtrip.1 3 3 c2_spec_v2 c2_data
      (c2_schema "#/definitions/Child") .null [] c2_out (by decide) (.inl rfl),
   filter_properties_exact_roundtrip.2.1 3 3 c2_spec_v2 c2_out
      (c2_schema "#/definitions/Child") .null [] (by decide) (.inl rfl),
   filter_properties_exact_roundtrip.2.2.1 3 3 c2_spec_v3 c2_data
      (c2_schema "#/components/schemas/Child") .null [] c2_out (by decide) (.inl rfl),
   filter_properties_exact_roundtrip.2.2.2 3 3 c2_spec_v3 c2_out
      (c2_schema "#/components/schemas/Child") .null [] (by decide) (.inl rfl)⟩

/-- The frame contract of a recursive heap filter: pre-existing cells
(addresses below the allocation counter) are untouched, the counter only
grows, and a returned address is freshly allocated. -/
def HFrame (recf : RecFilterH) : Prop :=
  ∀ (a : Nat) (sub r : Json) (st : Store) (n : Nat) (c : List (String × HVal))
    (res : Except PErr Nat) (st2 : Store) (n2 : Nat) (c2 : List (String × HVal)),
    recf a sub r st n c = (res, st2, n2, c2) →
    (∀ x, x < n → st2 x = st x) ∧ n ≤ n2 ∧ (∀ ad, res = .ok ad → n ≤ ad ∧ ad < n2)

theorem heapWrite_frame {st : Store} {faddr : Nat} {k : String} {hv : HVal} {st3 : Store}
    (h : heapWrite st faddr k hv = .ok st3) : ∀ a, a ≠ faddr → st3 a = st a := by
  unfold heapWrite at h
  cases hc : st faddr with
  | none => rw [hc] at h; cases h
  | some cell =>
    rw [hc] at h
    cases h
    intro a ha
    simp [storeSet, ha]

theorem heap_step_frame_v2 {spec : Json} {fco : Bool} {recf : RecFilterH}
    {dataAddr : Nat} {reference cop : Json} {faddr : Nat} {kv : String × Json}
    {st : Store} {n : Nat} {c : List (String × HVal)}
    {r1 : Except PErr Unit} {st1 : Store} {n1 : Nat} {c1 : List (String × HVal)}
    (hrec : HFrame recf) (hfn : faddr < n)
    (h : heap_loop_step_v2 spec fco recf dataAddr reference cop faddr (.ok (), st, n, c) kv
      = (r1, st1, n1, c1)) :
    (∀ a, a < n → a ≠ faddr → st1 a = st a) ∧ n ≤ n1 ∧ faddr < n1 := by
  simp only [heap_loop_step_v2] at h
  repeat' split at h
  all_goals cases h
  all_goals try exact ⟨fun a _ _ => rfl, Nat.le_refl _, hfn⟩
  all_goals
    try (rename_i hlk hwrite
         exact ⟨fun a _ hne => heapWrite_frame hwrite a hne, Nat.le_refl _, hfn⟩)
  all_goals
    try (rename_i heq
         obtain ⟨hf, hn, _⟩ := hrec _ _ _ _ _ _ _ _ _ _ heq
         exact ⟨fun a ha _ => hf a ha, hn, lt_of_lt_of_le hfn hn⟩)
  all_goals
    (rename_i hwrite hrec2
     obtain ⟨hf, hn, _⟩ := hrec _ _ _ _ _ _ _ _ _ _ hrec2
     exact ⟨fun a ha hne => by rw [heapWrite_frame hwrite a hne, hf a ha], hn,
       lt_of_lt_of_le hfn hn⟩)

theorem heap_step_frame_v3 {lcF : Nat} {spec : Json} {fco : Bool} {recf : RecFilterH}
    {dataAddr : Nat} {reference cop : Json} {faddr : Nat} {kv : String × Json}
    {st : Store} {n : Nat} {c : List (String × HVal)}
    {r1 : Except PErr Unit} {st1 : Store} {n1 : Nat} {c1 : List (String × HVal)}
    (hrec : HFrame recf) (hfn : faddr < n)
    (h : heap_loop_step_v3 lcF spec fco recf dataAddr reference cop faddr (.ok (), st, n, c) kv
      = (r1, st1, n1, c1)) :
    (∀ a, a < n → a ≠ faddr → st1 a = st a) ∧ n ≤ n1 ∧ faddr < n1 := by
  simp only [heap_loop_step_v3] at h
  repeat' split at h
  all_goals cases h
  all_goals try exact ⟨fun a _ _ => rfl, Nat.le_refl _, hfn⟩
  all_goals
    try (rename_i hlk hwrite
         exact ⟨fun a _ hne => heapWrite_frame hwrite a hne, Nat.le_refl _, hfn⟩)
  all_goals
    try (rename_i heq
         obtain ⟨hf, hn, _⟩ := hrec _ _ _ _ _ _ _ _ _ _ heq
         exact ⟨fun a ha _ => hf a ha, hn, lt_of_lt_of_le hfn hn⟩)
  all_goals
    (rename_i hwrite hrec2
     obtain ⟨hf, hn, _⟩ := hrec _ _ _ _ _ _ _ _ _ _ hrec2
     exact ⟨fun a ha hne => by rw [heapWrite_frame hwrite a hne, hf a ha], hn,
       lt_of_lt_of_le hfn hn⟩)

theorem heap_fold_err_v2 (spec : Json) (fco : Bool) (recf : RecFilterH) (dataAddr : Nat)
    (reference cop : Json) (faddr : Nat) :
    ∀ (props : List (String × Json)) (e : PErr) (st : Store) (n : Nat)
      (c : List (String × HVal)),
    props.foldl (heap_loop_step_v2 spec fco recf dataAddr reference cop faddr)
      (.error e, st, n, c) = (.error e, st, n, c) := by
  intro props
  induction props with
  | nil => intro e st n c; rfl
  | cons kv rest ih =>
    intro e st n c
    rw [List.foldl_cons]
    exact ih e st n c

theorem heap_fold_err_v3 (lcF : Nat) (spec : Json) (fco : Bool) (recf : RecFilterH)
    (dataAddr : Nat) (reference cop : Json) (faddr : Nat) :
    ∀ (props : List (String × Json)) (e : PErr) (st : Store) (n : Nat)
      (c : List (String × HVal)),
    props.foldl (heap_loop_step_v3 lcF spec fco recf dataAddr reference cop faddr)
      (.error e, st, n, c) = (.error e, st, n, c) := by
  intro props
  induction props with
  | nil => intro e st n c; rfl
  | cons kv rest ih =>
    intro e st n c
    rw [List.foldl_cons]
    exact ih e st n c

theorem heap_fold_frame_v2 {spec : Json} {fco : Bool} {recf : RecFilterH} {dataAddr : Nat}
    {reference cop : Json} {faddr : Nat} (hrec : HFrame recf) :
    ∀ (props : List (String × Json)) (st : Store) (n : Nat) (c : List (String × HVal))
      (r' : Except PErr Unit) (st' : Store) (n' : Nat) (c' : List (String × HVal)),
    faddr < n →
    props.foldl (heap_loop_step_v2 spec fco recf dataAddr reference cop faddr)
      (.ok (), st, n, c) = (r', st', n', c') →
    (∀ a, a < n → a ≠ faddr → st' a = st a) ∧ n ≤ n' := by
  intro props
  induction props with
  | nil =>
    intro st n c r' st' n' c' hfn h
    cases h
    exact ⟨fun a _ _ => rfl, Nat.le_refl _⟩
  | cons kv rest ih =>
    intro st n c r' st' n' c' hfn h
    rw [List.foldl_cons] at h
    rcases hstep : heap_loop_step_v2 spec fco recf dataAddr reference cop faddr
      (.ok (), st, n, c) kv with ⟨r1, st1, n1, c1⟩
    rw [hstep] at h
    obtain ⟨hf1, hn1, hfn1⟩ := heap_step_frame_v2 hrec hfn hstep
    cases r1 with
    | error e1 =>
      rw [heap_fold_err_v2] at h
      cases h
      exact ⟨hf1, hn1⟩
    | ok u =>
      cases u
      obtain ⟨hf2, hn2⟩ := ih st1 n1 c1 r' st' n' c' hfn1 h
      refine ⟨?_, Nat.le_trans hn1 hn2⟩
      intro a ha hne
      rw [hf2 a (Nat.lt_of_lt_of_le ha hn1) hne, hf1 a ha hne]

theorem heap_fold_frame_v3 {lcF : Nat} {spec : Json} {fco : Bool} {recf : RecFilterH}
    {dataAddr : Nat} {reference cop : Json} {faddr : Nat} (hrec : HFrame recf) :
    ∀ (props : List (String × Json)) (st : Store) (n : Nat) (c : List (String × HVal))
      (r' : Except PErr Unit) (st' : Store) (n' : Nat) (c' : List (String × HVal)),
    faddr < n →
    props.foldl (heap_loop_step_v3 lcF spec fco recf dataAddr reference cop faddr)
      (.ok (), st, n, c) = (r', st', n', c') →
    (∀ a, a < n → a ≠ faddr → st' a = st a) ∧ n ≤ n' := by
  intro props
  induction props with
  | nil =>
    intro st n c r' st' n' c' hfn h
    cases h
    exact ⟨fun a _ _ => rfl, Nat.le_refl _⟩
  | cons kv rest ih =>
    intro st n c r' st' n' c' hfn h
    rw [List.foldl_cons] at h
    rcases hstep : heap_loop_step_v3 lcF spec fco recf dataAddr reference cop faddr
      (.ok (), st, n, c) kv with ⟨r1, st1, n1, c1⟩
    rw [hstep] at h
    obtain ⟨hf1, hn1, hfn1⟩ := heap_step_frame_v3 hrec hfn hstep
    cases r1 with
    | error e1 =>
      rw [heap_fold_err_v3] at h
      cases h
      exact ⟨hf1, hn1⟩
    | ok u =>
      cases u
      obtain ⟨hf2, hn2⟩ := ih st1 n1 c1 r' st' n' c' hfn1 h
      refine ⟨?_, Nat.le_trans hn1 hn2⟩
      intro a ha hne
      rw [hf2 a (Nat.lt_of_lt_of_le ha hn1) hne, hf1 a ha hne]

theorem heap_after_frame_v2 {spec : Json} {fco : Bool} {recf : RecFilterH}
    {faddr dataAddr : Nat} {schema reference : Json} {st : Store} {n : Nat}
    {cache : List (String × HVal)} {r : Except PErr Nat} {st2 : Store} {n2 : Nat}
    {c2 : List (String × HVal)}
    (hrec : HFrame recf) (hfn : faddr < n)
    (h : heap_after_disc_v2 spec fco recf faddr dataAddr schema reference st n cache
      = (r, st2, n2, c2)) :
    (∀ a, a < n → a ≠ faddr → st2 a = st a) ∧ n ≤ n2 ∧ (∀ ad, r = .ok ad → ad = faddr) := by
  simp only [heap_after_disc_v2] at h
  repeat' split at h
  all_goals cases h
  all_goals
    try exact ⟨fun a _ _ => rfl, Nat.le_refl _, fun ad had => by cases had <;> rfl⟩
  all_goals
    (rename_i heq
     obtain ⟨hf, hn⟩ := heap_fold_frame_v2 hrec _ _ _ _ _ _ _ _ hfn heq
     exact ⟨hf, hn, fun ad had => by cases had <;> rfl⟩)

theorem heap_after_frame_v3 {lcF : Nat} {spec : Json} {fco : Bool} {recf : RecFilterH}
    {faddr dataAddr : Nat} {schema reference : Json} {st : Store} {n : Nat}
    {cache : List (String × HVal)} {r : Except PErr Nat} {st2 : Store} {n2 : Nat}
    {c2 : List (String × HVal)}
    (hrec : HFrame recf) (hfn : faddr < n)
    (h : heap_after_disc_v3 lcF spec fco recf faddr dataAddr schema reference st n cache
      = (r, st2, n2, c2)) :
    (∀ a, a < n → a ≠ faddr → st2 a = st a) ∧ n ≤ n2 ∧ (∀ ad, r = .ok ad → ad = faddr) := by
  simp only [heap_after_disc_v3] at h
  repeat' split at h
  all_goals cases h
  all_goals
    try exact ⟨fun a _ _ => rfl, Nat.le_refl _, fun ad had => by cases had <;> rfl⟩
  all_goals
    (rename_i heq
     obtain ⟨hf, hn⟩ := heap_fold_frame_v3 hrec _ _ _ _ _ _ _ _ hfn heq
     exact ⟨hf, hn, fun ad had => by cases had <;> rfl⟩)

theorem heap_frame_v2 : ∀ (fuel : Nat) (spec : Json) (fco : Bool) (lcF : Nat),
    HFrame (heap_filter_v2 fuel spec fco lcF) := by
  intro fuel
  induction fuel with
  | zero =>
    intro spec fco lcF a sub r st n c res st2 n2 c2 h
    cases h
    exact ⟨fun x _ => rfl, Nat.le_refl _, fun ad had => by cases had⟩
  | succ fuel ih =>
    intro spec fco lcF a sub r st n c res st2 n2 c2 h
    simp only [heap_filter_v2] at h
    have hset : ∀ x, x < n → storeSet st n [] x = st x := by
      intro x hx
      simp [storeSet]
      omega
    split at h
    · cases h
      exact ⟨fun x hx => hset x hx, Nat.le_succ _, fun ad had => by cases had⟩
    · split at h
      · cases h
        exact ⟨fun x hx => hset x hx, Nat.le_succ _, fun ad had => by cases had⟩
      · obtain ⟨hf, hn, hok⟩ := heap_after_frame_v2 (ih spec fco lcF) (Nat.lt_succ_self n) h
        refine ⟨?_, Nat.le_trans (Nat.le_succ _) hn, ?_⟩
        · intro x hx
          rw [hf x (Nat.lt_succ_of_lt hx) (Nat.ne_of_lt hx), hset x hx]
        · intro ad had
          have := hok ad had
          symm at this
          subst this
          exact ⟨Nat.le_refl _, Nat.lt_of_lt_of_le (Nat.lt_succ_self n) hn⟩
    · obtain ⟨hf, hn, hok⟩ := heap_after_frame_v2 (ih spec fco lcF) (Nat.lt_succ_self n) h
      refine ⟨?_, Nat.le_trans (Nat.le_succ _) hn, ?_⟩
      · intro x hx
        rw [hf x (Nat.lt_succ_of_lt hx) (Nat.ne_of_lt hx), hset x hx]
      · intro ad had
        have := hok ad had
        symm at this
        subst this
        exact ⟨Nat.le_refl _, Nat.lt_of_lt_of_le (Nat.lt_succ_self n) hn⟩

theorem heap_frame_v3 : ∀ (fuel : Nat) (spec : Json) (fco : Bool) (lcF : Nat),
    HFrame (heap_filter_v3 fuel spec fco lcF) := by
  intro fuel
  induction fuel with
  | zero =>
    intro spec fco lcF a sub r st n c res st2 n2 c2 h
    cases h
    exact ⟨fun x _ => rfl, Nat.le_refl _, fun ad had => by cases had⟩
  | succ fuel ih =>
    intro spec fco lcF a sub r st n c res st2 n2 c2 h
    simp only [heap_filter_v3] at h
    have hset : ∀ x, x < n → storeSet st n [] x = st x := by
      intro x hx
      simp [storeSet]
      omega
    split at h
    · cases h
      exact ⟨fun x hx => hset x hx, Nat.le_succ _, fun ad had => by cases had⟩
    · split at h
      · cases h
        exact ⟨fun x hx => hset x hx, Nat.le_succ _, fun ad had => by cases had⟩
      · obtain ⟨hf, hn, hok⟩ := heap_after_frame_v3 (ih spec fco lcF) (Nat.lt_succ_self n) h
        refine ⟨?_, Nat.le_trans (Nat.le_succ _) hn, ?_⟩
        · intro x hx
          rw [hf x (Nat.lt_succ_of_lt hx) (Nat.ne_of_lt hx), hset x hx]
        · intro ad had
          have := hok ad had
          symm at this
          subst this
          exact ⟨Nat.le_refl _, Nat.lt_of_lt_of_le (Nat.lt_succ_self n) hn⟩
    · obtain ⟨hf, hn, hok⟩ := heap_after_frame_v3 (ih spec fco lcF) (Nat.lt_succ_self n) h
      refine ⟨?_, Nat.le_trans (Nat.le_succ _) hn, ?_⟩
      · intro x hx
        rw [hf x (Nat.lt_succ_of_lt hx) (Nat.ne_of_lt hx), hset x hx]
      · intro ad had
        have := hok ad had
        symm at this
        subst this
        exact ⟨Nat.le_refl _, Nat.lt_of_lt_of_le (Nat.lt_succ_self n) hn⟩

/-- C10: `filter_json_object` never mutates its `data` argument.  In the
heap embedding every pre-existing dict cell — in particular the data
object and all its nested sub-objects — is unchanged by the call, the
allocation counter only grows, and a returned address is a freshly
allocated `filtered` dict, in both the v2 and v3 implementations. -/
theorem filter_data_frame :
    (∀ (fuel : Nat) (spec : Json) (fco : Bool) (lcF dataAddr : Nat)
        (schema reference : Json) (st : Store) (n : Nat) (cache : List (String × HVal))
        (res : Except PErr Nat) (st2 : Store) (n2 : Nat) (c2 : List (String × HVal)),
      heap_filter_v2 fuel spec fco lcF dataAddr schema reference st n cache
        = (res, st2, n2, c2) →
      (∀ x, x < n → st2 x = st x) ∧ n ≤ n2 ∧ (∀ ad, res = .ok ad → n ≤ ad ∧ ad < n2)) ∧
    (∀ (fuel : Nat) (spec : Json) (fco : Bool) (lcF dataAddr : Nat)
        (schema reference : Json) (st : Store) (n : Nat) (cache : List (String × HVal))
        (res : Except PErr Nat) (st2 : Store) (n2 : Nat) (c2 : List (String × HVal)),
      heap_filter_v3 fuel spec fco lcF dataAddr schema reference st n cache
        = (res, st2, n2, c2) →
      (∀ x, x < n → st2 x = st x) ∧ n ≤ n2 ∧ (∀ ad, res = .ok ad → n ≤ ad ∧ ad < n2)) :=
  ⟨fun fuel spec fco lcF dataAddr schema reference st n cache res st2 n2 c2 h =>
    heap_frame_v2 fuel spec fco lcF dataAddr schema reference st n cache res st2 n2 c2 h,
   fun fuel spec fco lcF dataAddr schema reference st n cache res st2 n2 c2 h =>
    heap_frame_v3 fuel spec fco lcF dataAddr schema reference st n cache res st2 n2 c2 h⟩

/-- A one-cell store holding the data object `{"name": "n"}` at address 0. -/
def c10_st : Store :=
  fun a => if a = 0 then some [("name", HVal.atom (.str "n"))] else none

/-- A plain schema declaring the `name` property. -/
def c10_schema : Json :=
  .obj [("properties", .obj [("name", .obj [("type", .str "string")])])]

/-- C10 witness: filtering the stored object at address 0 with one unit of
pre-existing heap leaves cell 0 (the data) intact, only grows the
allocation counter, and returns a fresh address, in both versions. -/
theorem filter_data_frame_witness :
    ((∀ x, x < 1 →
        (heap_filter_v2 2 (.obj []) false 3 0 c10_schema .null c10_st 1 []).2.1 x
          = c10_st x) ∧
      1 ≤ (heap_filter_v2 2 (.obj []) false 3 0 c10_schema .null c10_st 1 []).2.2.1 ∧
      (∀ ad, (heap_filter_v2 2 (.obj []) false 3 0 c10_schema .null c10_st 1 []).1
          = .ok ad →
        1 ≤ ad ∧ ad < (heap_filter_v2 2 (.obj []) false 3 0 c10_schema .null
          c10_st 1 []).2.2.1)) ∧
    ((∀ x, x < 1 →
        (heap_filter_v3 2 (.obj []) false 3 0 c10_schema .null c10_st 1 []).2.1 x
          = c10_st x) ∧
      1 ≤ (heap_filter_v3 2 (.obj []) false 3 0 c10_schema .null c10_st 1 []).2.2.1 ∧
      (∀ ad, (heap_filter_v3 2 (.obj []) false 3 0 c10_schema .null c10_st 1 []).1
          = .ok ad →
        1 ≤ ad ∧ ad < (heap_filter_v3 2 (.obj []) false 3 0 c10_schema .null
          c10_st 1 []).2.2.1)) :=
  ⟨filter_data_frame.1 2 (.obj []) false 3 0 c10_schema .null c10_st 1 []
      (heap_filter_v2 2 (.obj []) false 3 0 c10_schema .null c10_st 1 []).1
      (heap_filter_v2 2 (.obj []) false 3 0 c10_schema .null c10_st 1 []).2.1
      (heap_filter_v2 2 (.obj []) false 3 0 c10_schema .null c10_st 1 []).2.2.1
      (heap_filter_v2 2 (.obj []) false 3 0 c10_schema .null c10_st 1 []).2.2.2 rfl,
   filter_data_frame.2 2 (.obj []) false 3 0 c10_schema .null c10_st 1 []
      (heap_filter_v3 2 (.obj []) false 3 0 c10_schema .null c10_st 1 []).1
      (heap_filter_v3 2 (.obj []) false 3 0 c10_schema .null c10_st 1 []).2.1
      (heap_filter_v3 2 (.obj []) false 3 0 c10_schema .null c10_st 1 []).2.2.1
      (heap_filter_v3 2 (.obj []) false 3 0 c10_schema .null c10_st 1 []).2.2.2 rfl⟩
